import Mathlib

/-!
# Survey assessment server (`server.js`): embedding and verified properties

The Express handlers of `server.js` are embedded as pure functions over an explicit
store that stands for the SQLite database `assessments.db`.

Modelling conventions:

* A JavaScript number, and a SQLite `REAL`, is an IEEE 754 double. It is modelled by the
  rational number it denotes (`ℚ`), and every arithmetic operation of the program rounds its
  exact result to the nearest double, ties to even (`roundDouble`). `NaN` is modelled by
  `none`; results beyond the largest double (`Infinity`) are outside the model.
* Text fields of a request body are `Option String`: `none` stands for an absent
  (`undefined`) or `null` field, which the SQLite driver binds as SQL `NULL`.
* `CURRENT_TIMESTAMP` and `uuidv4()` are inputs of the handlers.
* A column of the tables holds `none` for SQL `NULL`.
-/

namespace Diaoyan

/-! ## The persisted tables (`CREATE TABLE` statements of `server.js`) -/

/-- One row of table `assessments`. -/
structure AssessmentRow where
  id : Nat
  survey_id : String
  respondent_name : Option String
  respondent_team : Option String
  submission_date : Nat
  project_progress_transparency : Option ℚ
  requirement_response_speed : Option ℚ
  team_collaboration_efficiency : Option ℚ
  delivery_quality_stability : Option ℚ
  issue_discovery_timeliness : Option ℚ
  resource_allocation_efficiency : Option ℚ
  continuous_improvement_ability : Option ℚ
  information_transmission_effectiveness : Option ℚ
  overall_score : Option ℚ
  notes : Option String
  deriving DecidableEq

/-- One row of table `survey_links`. -/
structure SurveyLinkRow where
  id : Nat
  survey_id : String
  survey_name : String
  created_date : Nat
  is_active : Bool
  deriving DecidableEq

/-- The database: both tables in insertion order, and the `sqlite_sequence` counters that
`AUTOINCREMENT` keeps for them. -/
structure Store where
  assessments : List AssessmentRow
  survey_links : List SurveyLinkRow
  assessments_seq : Nat
  survey_links_seq : Nat
  deriving DecidableEq

/-- The database right after the tables are created. -/
def Store.empty : Store :=
  { assessments := [], survey_links := [], assessments_seq := 0, survey_links_seq := 0 }

/-- The rowid `AUTOINCREMENT` hands out: one more than the largest rowid that ever existed. -/
def nextRowid (seq : Nat) (ids : List Nat) : Nat :=
  max seq (ids.foldr max 0) + 1

/-! ## Requests and responses -/

/-- The `scores` field of a submission body, as `express.json()` delivers it. -/
inductive ScoresField where
  | absent : ScoresField
  | text (s : String) : ScoresField
  | array (xs : List ℚ) : ScoresField
  deriving DecidableEq

/-- The body of `POST /api/assessments`. -/
structure AssessmentBody where
  surveyId : Option String
  respondentName : Option String
  respondentTeam : Option String
  scores : ScoresField
  notes : Option String
  deriving DecidableEq

/-- The body of `POST /api/surveys`, with the protocol and host of the request. -/
structure SurveyBody where
  surveyName : Option String
  protocol : String
  host : String
  deriving DecidableEq

/-- What a handler sends back: `res.json(body)` (status 200 unless set), `res.status(n).json`
with an `error` field, or an exception that escapes the handler, which Express answers
with status 500. -/
inductive Response (α : Type) where
  | json (status : Nat) (body : α) : Response α
  | error (status : Nat) (error : String) : Response α
  | uncaught (exception : String) : Response α
  deriving DecidableEq

/-- The HTTP status of a response. -/
def Response.status {α : Type} : Response α → Nat
  | .json status _ => status
  | .error status _ => status
  | .uncaught _ => 500

/-- The success body of `POST /api/assessments`. -/
structure SubmitOk where
  id : Nat
  message : String
  deriving DecidableEq

/-- The success body of `POST /api/surveys`. -/
structure CreateOk where
  surveyId : String
  surveyName : Option String
  surveyUrl : String
  deriving DecidableEq

/-- The row `GET /api/summary/:surveyId` answers with. -/
structure SummaryRow where
  total_responses : Nat
  average_overall_score : Option ℚ
  avg_project_progress : Option ℚ
  avg_requirement_response : Option ℚ
  avg_collaboration : Option ℚ
  avg_delivery_quality : Option ℚ
  avg_issue_discovery : Option ℚ
  avg_resource_allocation : Option ℚ
  avg_improvement : Option ℚ
  avg_information_transmission : Option ℚ
  deriving DecidableEq

/-! ## Double-precision arithmetic -/

/-- The integer nearest to a rational, a tie going to the even one. -/
def roundHalfEven (y : ℚ) : ℤ :=
  if y - ⌊y⌋ < 1 / 2 then ⌊y⌋
  else if 1 / 2 < y - ⌊y⌋ then ⌊y⌋ + 1
  else if ⌊y⌋ % 2 = 0 then ⌊y⌋ else ⌊y⌋ + 1

/-- The gap between neighbouring doubles around `x`: `2 ^ (e - 52)` for
`2 ^ e ≤ |x| < 2 ^ (e + 1)`, and `2 ^ -1074` in the subnormal range below `2 ^ -1022`. -/
def ulp (x : ℚ) : ℚ :=
  (2 : ℚ) ^ (max (Int.log 2 |x|) (-1022) - 52)

/-- The double nearest to `x`, a tie going to the even significand: the result an IEEE 754
operation delivers for the exact result `x`. Overflow to `Infinity` is not modelled. -/
def roundDouble (x : ℚ) : ℚ :=
  roundHalfEven (x / ulp x) * ulp x

/-- Addition of doubles (`a + b` in JavaScript, `+=` on a C `double` in SQLite). -/
def addDouble (a b : ℚ) : ℚ :=
  roundDouble (a + b)

/-- Subtraction of doubles (`a - b`). -/
def subDouble (a b : ℚ) : ℚ :=
  roundDouble (a - b)

/-- The square of a double (`Math.pow(a, 2)`). -/
def squareDouble (a : ℚ) : ℚ :=
  roundDouble (a ^ 2)

/-- The double nearest to the decimal `0.1`. -/
def double01 : ℚ :=
  3602879701896397 / 2 ^ 55

/-- The double nearest to the decimal `0.2`. -/
def double02 : ℚ :=
  3602879701896397 / 2 ^ 54

/-- The double nearest to the decimal `0.3`. -/
def double03 : ℚ :=
  5404319552844595 / 2 ^ 54

/-! ## `POST /api/surveys` -/

/-- The statement `INSERT INTO survey_links (survey_id, survey_name) VALUES (?, ?)`:
`survey_name` is `NOT NULL`, `survey_id` is `UNIQUE`; `created_date` and `is_active` take
their defaults. Returns the new database, or the error and an untouched database. -/
def insertSurveyLink (db : Store) (now : Nat) (surveyId : String)
    (surveyName : Option String) : Except String Store :=
  match surveyName with
  | none => .error "SQLITE_CONSTRAINT: NOT NULL constraint failed: survey_links.survey_name"
  | some name =>
    if db.survey_links.any (fun r => r.survey_id == surveyId) then
      .error "SQLITE_CONSTRAINT: UNIQUE constraint failed: survey_links.survey_id"
    else
      let rowid := nextRowid db.survey_links_seq (db.survey_links.map (fun r => r.id))
      .ok { db with
            survey_links := db.survey_links ++
              [{ id := rowid, survey_id := surveyId, survey_name := name,
                 created_date := now, is_active := true }],
            survey_links_seq := rowid }

/-- The handler `app.post('/api/surveys')`; `uuid` is the value of `uuidv4()`. -/
def createSurvey (db : Store) (now : Nat) (uuid : String) (body : SurveyBody) :
    Response CreateOk × Store :=
  let surveyName := body.surveyName
  let surveyId := uuid
  match insertSurveyLink db now surveyId surveyName with
  | .error err => (.error 500 err, db)
  | .ok db1 =>
    (.json 200
      { surveyId := surveyId,
        surveyName := surveyName,
        surveyUrl := body.protocol ++ "://" ++ body.host ++ "/index.html?survey=" ++ surveyId },
     db1)

/-! ## `POST /api/assessments` -/

/-- JavaScript `a / n` for a length `n`: the quotient rounded to a double; division by zero
is `NaN` or an infinity, which the SQLite driver stores as `NULL`. -/
def jsDiv (a : ℚ) (n : Nat) : Option ℚ :=
  if n = 0 then none else some (roundDouble (a / n))

/-- The expression `scores.reduce((sum, score) => sum + score, 0) / scores.length`. -/
def overallScore (scores : List ℚ) : Option ℚ :=
  jsDiv (scores.foldl (fun sum score => addDouble sum score) 0) scores.length

/-- The statement `INSERT INTO assessments (...) VALUES (?, ..., ?)` with its thirteen
parameters: `survey_id` is `NOT NULL`, every other column is nullable, `submission_date`
takes its default. Returns the new database and `lastID`. -/
def insertAssessment (db : Store) (now : Nat) (surveyId respondentName respondentTeam :
    Option String) (s0 s1 s2 s3 s4 s5 s6 s7 overall : Option ℚ) (notes : Option String) :
    Except String (Store × Nat) :=
  match surveyId with
  | none => .error "SQLITE_CONSTRAINT: NOT NULL constraint failed: assessments.survey_id"
  | some sid =>
    let rowid := nextRowid db.assessments_seq (db.assessments.map (fun r => r.id))
    .ok ({ db with
           assessments := db.assessments ++
             [{ id := rowid, survey_id := sid, respondent_name := respondentName,
                respondent_team := respondentTeam, submission_date := now,
                project_progress_transparency := s0,
                requirement_response_speed := s1,
                team_collaboration_efficiency := s2,
                delivery_quality_stability := s3,
                issue_discovery_timeliness := s4,
                resource_allocation_efficiency := s5,
                continuous_improvement_ability := s6,
                information_transmission_effectiveness := s7,
                overall_score := overall, notes := notes }],
           assessments_seq := rowid }, rowid)

/-- The handler `app.post('/api/assessments')`. When `scores` is not an array,
`scores.reduce` throws a `TypeError` before the database is touched. -/
def submitAssessment (db : Store) (now : Nat) (body : AssessmentBody) :
    Response SubmitOk × Store :=
  match body.scores with
  | .absent => (.uncaught "TypeError: Cannot read properties of undefined", db)
  | .text _ => (.uncaught "TypeError: scores.reduce is not a function", db)
  | .array scores =>
    let overall := overallScore scores
    match insertAssessment db now body.surveyId body.respondentName body.respondentTeam
        scores[0]? scores[1]? scores[2]? scores[3]? scores[4]? scores[5]? scores[6]?
        scores[7]? overall body.notes with
    | .error err => (.error 500 err, db)
    | .ok (db1, lastID) => (.json 200 { id := lastID, message := "评估提交成功！" }, db1)

/-! ## `GET /api/summary/:surveyId` -/

/-- SQL `AVG`: `NULL` when no value is non-`NULL`; else the sum of the non-`NULL` values,
accumulated in a double in row order, divided by their number. -/
def sqlAvg (column : List (Option ℚ)) : Option ℚ :=
  let values := column.filterMap id
  if values.length = 0 then none
  else some (roundDouble (values.foldl (fun rSum value => addDouble rSum value) 0 / values.length))

/-- The rows selected by `WHERE survey_id = ?`. -/
def rowsOf (db : Store) (surveyId : String) : List AssessmentRow :=
  db.assessments.filter (fun r => r.survey_id == surveyId)

/-- The aggregate row of the `SELECT COUNT(*), AVG(...), ...` query. -/
def summaryQuery (db : Store) (surveyId : String) : SummaryRow :=
  let rows := rowsOf db surveyId
  { total_responses := rows.length,
    average_overall_score := sqlAvg (rows.map (fun r => r.overall_score)),
    avg_project_progress := sqlAvg (rows.map (fun r => r.project_progress_transparency)),
    avg_requirement_response := sqlAvg (rows.map (fun r => r.requirement_response_speed)),
    avg_collaboration := sqlAvg (rows.map (fun r => r.team_collaboration_efficiency)),
    avg_delivery_quality := sqlAvg (rows.map (fun r => r.delivery_quality_stability)),
    avg_issue_discovery := sqlAvg (rows.map (fun r => r.issue_discovery_timeliness)),
    avg_resource_allocation := sqlAvg (rows.map (fun r => r.resource_allocation_efficiency)),
    avg_improvement := sqlAvg (rows.map (fun r => r.continuous_improvement_ability)),
    avg_information_transmission :=
      sqlAvg (rows.map (fun r => r.information_transmission_effectiveness)) }

/-- The handler `app.get('/api/summary/:surveyId')`. -/
def getSummary (db : Store) (surveyId : String) : Response SummaryRow × Store :=
  (.json 200 (summaryQuery db surveyId), db)

/-! ## `GET /api/assessments/:surveyId` -/

/-- The order of `ORDER BY submission_date DESC`: a row comes before the rows that are not
newer than it. -/
def newerFirst (a b : AssessmentRow) : Prop :=
  b.submission_date ≤ a.submission_date

instance : DecidableRel newerFirst :=
  fun a b => inferInstanceAs (Decidable (b.submission_date ≤ a.submission_date))

instance : IsTotal AssessmentRow newerFirst :=
  ⟨fun a b => Nat.le_total b.submission_date a.submission_date⟩

instance : IsTrans AssessmentRow newerFirst :=
  ⟨fun _ _ _ hab hbc => Nat.le_trans hbc hab⟩

/-- The rows of `SELECT * FROM assessments WHERE survey_id = ? ORDER BY submission_date DESC`.
Rows with equal timestamps keep the order of the table, which is how SQLite returns them and
what the tests of the repository rely on. -/
def assessmentsQuery (db : Store) (surveyId : String) : List AssessmentRow :=
  (rowsOf db surveyId).insertionSort newerFirst

/-- The handler `app.get('/api/assessments/:surveyId')`. -/
def getAssessments (db : Store) (surveyId : String) : Response (List AssessmentRow) × Store :=
  (.json 200 (assessmentsQuery db surveyId), db)

/-! ## Sequences of requests -/

/-- Submitting a sequence of bodies one after another, each with its own timestamp. -/
def submitAll (db : Store) (requests : List (Nat × AssessmentBody)) : Store :=
  requests.foldl (fun d r => (submitAssessment d r.1 r.2).2) db

/-- Integer scores as the JavaScript numbers of a `scores` array. -/
def intScores (ns : List ℤ) : List ℚ :=
  List.map (fun (n : ℤ) => (n : ℚ)) ns

/-! ## Concrete requests used below -/

/-- The submission of the API test on overall scores. -/
def janeDoe : AssessmentBody :=
  { surveyId := some "survey-1", respondentName := some "Jane Doe",
    respondentTeam := some "QA Team",
    scores := .array (intScores [5, 4, 5, 3, 4, 5, 4, 5]),
    notes := some "Test assessment" }

/-- A well-formed submission for survey `survey-1` with the given scores field. -/
def testUser (scores : ScoresField) : AssessmentBody :=
  { surveyId := some "survey-1", respondentName := some "Test User",
    respondentTeam := some "Test Team", scores := scores, notes := some "Test" }

/-- The submission of the edge-case test on non-integer scores; each score is the double
that its decimal literal denotes. -/
def nonIntegerUser : AssessmentBody :=
  { surveyId := some "survey-1", respondentName := some "Invalid Score User",
    respondentTeam := some "Test Team",
    scores := .array ([3.5, 4.2, 3.8, 4.1, 3.9, 4.3, 3.7, 4.0].map roundDouble),
    notes := some "Should fail validation" }

/-- A survey-creation request with the given name. -/
def surveyRequest (surveyName : Option String) : SurveyBody :=
  { surveyName := surveyName, protocol := "http", host := "127.0.0.1" }

/-- The name `'a'.repeat(n)`. -/
def repeatA (n : Nat) : String :=
  String.mk (List.replicate n 'a')

/-- Two submissions to `survey-1`, one after the other: a three-element `scores` array, then
eight fives. -/
def shortThenFull : Store :=
  submitAll Store.empty
    [(0, testUser (.array (intScores [1, 2, 3]))),
     (1, testUser (.array (intScores [5, 5, 5, 5, 5, 5, 5, 5])))]

/-- A submission to `survey-1` whose eight scores are all the number `x`. -/
def uniformUser (x : ℚ) : AssessmentBody :=
  testUser (.array [x, x, x, x, x, x, x, x])

/-- Three valid submissions to `survey-1`, one after the other: eight ones, eight ones, eight
twos. -/
def oneOneTwo : Store :=
  submitAll Store.empty
    [(0, testUser (.array (intScores [1, 1, 1, 1, 1, 1, 1, 1]))),
     (1, testUser (.array (intScores [1, 1, 1, 1, 1, 1, 1, 1]))),
     (2, testUser (.array (intScores [2, 2, 2, 2, 2, 2, 2, 2])))]

/-! ## The summary contract in the specification's words -/

/-- The specification's "arithmetic mean of the corresponding column over exactly the rows":
every row contributes a number, and `avg` is the sum of these numbers divided by the number
of rows. -/
def IsMeanOverRows (avg : Option ℚ) (column : List (Option ℚ)) : Prop :=
  (∀ v ∈ column, v ≠ none) ∧ avg = some ((column.filterMap id).sum / column.length)

instance (avg : Option ℚ) (column : List (Option ℚ)) : Decidable (IsMeanOverRows avg column) := by
  unfold IsMeanOverRows
  infer_instance

/-- The specification's summary for a survey id: the count of the rows referencing it, and
each of the nine averages the mean of its column over exactly those rows. -/
def SummaryIsColumnMeans (db : Store) (surveyId : String) : Prop :=
  (summaryQuery db surveyId).total_responses = (rowsOf db surveyId).length ∧
  IsMeanOverRows (summaryQuery db surveyId).average_overall_score
    ((rowsOf db surveyId).map (fun r => r.overall_score)) ∧
  IsMeanOverRows (summaryQuery db surveyId).avg_project_progress
    ((rowsOf db surveyId).map (fun r => r.project_progress_transparency)) ∧
  IsMeanOverRows (summaryQuery db surveyId).avg_requirement_response
    ((rowsOf db surveyId).map (fun r => r.requirement_response_speed)) ∧
  IsMeanOverRows (summaryQuery db surveyId).avg_collaboration
    ((rowsOf db surveyId).map (fun r => r.team_collaboration_efficiency)) ∧
  IsMeanOverRows (summaryQuery db surveyId).avg_delivery_quality
    ((rowsOf db surveyId).map (fun r => r.delivery_quality_stability)) ∧
  IsMeanOverRows (summaryQuery db surveyId).avg_issue_discovery
    ((rowsOf db surveyId).map (fun r => r.issue_discovery_timeliness)) ∧
  IsMeanOverRows (summaryQuery db surveyId).avg_resource_allocation
    ((rowsOf db surveyId).map (fun r => r.resource_allocation_efficiency)) ∧
  IsMeanOverRows (summaryQuery db surveyId).avg_improvement
    ((rowsOf db surveyId).map (fun r => r.continuous_improvement_ability)) ∧
  IsMeanOverRows (summaryQuery db surveyId).avg_information_transmission
    ((rowsOf db surveyId).map (fun r => r.information_transmission_effectiveness))

/-- A column of scores as a validating application stores them: every row holds a multiple
of 1/8 of magnitude at most 5. Every integer score in 1..5 is one, and so is every mean of
eight such scores. -/
def IsScoreColumn (column : List (Option ℚ)) : Prop :=
  ∀ v ∈ column, ∃ k : ℤ, |k| ≤ 40 ∧ v = some ((k : ℚ) / 8)

/-- The double nearest to the arithmetic mean of the column over the rows: every row
contributes a number, and `avg` is the sum of these numbers divided by the number of rows,
rounded once to a double; its relative distance from the mean is at most `2 ^ -53`. -/
def IsRoundedMeanOverRows (avg : Option ℚ) (column : List (Option ℚ)) : Prop :=
  (∀ v ∈ column, v ≠ none) ∧
  ∃ d : ℚ, avg = some d ∧
    d = roundDouble ((column.filterMap id).sum / column.length) ∧
    |d - (column.filterMap id).sum / column.length| ≤
      |(column.filterMap id).sum / column.length| / 2 ^ 53

/-- A write request, with the values the server draws for it (time, and uuid of a survey). -/
inductive Request where
  | createSurvey (now : Nat) (uuid : String) (body : SurveyBody) : Request
  | submitAssessment (now : Nat) (body : AssessmentBody) : Request
  deriving DecidableEq

/-- The database after a write request. -/
def Request.apply (db : Store) : Request → Store
  | .createSurvey now uuid body => (Diaoyan.createSurvey db now uuid body).2
  | .submitAssessment now body => (Diaoyan.submitAssessment db now body).2

/-- The database after a sequence of write requests. -/
def runRequests (db : Store) (requests : List Request) : Store :=
  requests.foldl Request.apply db

/-- A store that some sequence of write requests produces from the empty database. -/
def Reachable (db : Store) : Prop :=
  ∃ requests : List Request, runRequests Store.empty requests = db

/-- The eight dimension columns of a row, in the order of the table. -/
def dimensionScores (r : AssessmentRow) : List (Option ℚ) :=
  [r.project_progress_transparency, r.requirement_response_speed,
   r.team_collaboration_efficiency, r.delivery_quality_stability,
   r.issue_discovery_timeliness, r.resource_allocation_efficiency,
   r.continuous_improvement_ability, r.information_transmission_effectiveness]

/-- The specification's invariant of a row: all eight dimension scores are numbers and the
overall score is their sum divided by eight. -/
def OverallIsMeanOfDimensions (r : AssessmentRow) : Prop :=
  (∀ v ∈ dimensionScores r, v ≠ none) ∧
  r.overall_score = some (((dimensionScores r).filterMap id).sum / 8)

instance (r : AssessmentRow) : Decidable (OverallIsMeanOfDimensions r) := by
  unfold OverallIsMeanOfDimensions
  infer_instance

/-- A row as a validating application stores it: the eight dimension scores are integers in
1..5 and the overall score is their mean. -/
def IsValidRow (r : AssessmentRow) : Prop :=
  OverallIsMeanOfDimensions r ∧
  ∀ v ∈ dimensionScores r, ∃ n : ℤ, 1 ≤ n ∧ n ≤ 5 ∧ v = some (n : ℚ)

/-- The row the `INSERT` of the submit handler adds for a body with survey id `sid` and
scores array `xs`, given the rowid and the timestamp the database assigns. -/
def storedRow (rowid now : Nat) (sid : String) (body : AssessmentBody) (xs : List ℚ) :
    AssessmentRow :=
  { id := rowid, survey_id := sid, respondent_name := body.respondentName,
    respondent_team := body.respondentTeam, submission_date := now,
    project_progress_transparency := xs[0]?,
    requirement_response_speed := xs[1]?,
    team_collaboration_efficiency := xs[2]?,
    delivery_quality_stability := xs[3]?,
    issue_discovery_timeliness := xs[4]?,
    resource_allocation_efficiency := xs[5]?,
    continuous_improvement_ability := xs[6]?,
    information_transmission_effectiveness := xs[7]?,
    overall_score := overallScore xs, notes := body.notes }

/-- A valid submission in the specification's sense, without its survey id: respondent,
team, eight integer scores, notes, and the time the server records for it. -/
structure Submission where
  now : Nat
  respondentName : String
  respondentTeam : String
  scores : List ℤ
  notes : Option String
  deriving DecidableEq

/-- The request body of a submission to survey `sid`. -/
def Submission.body (sid : String) (v : Submission) : AssessmentBody :=
  { surveyId := some sid, respondentName := some v.respondentName,
    respondentTeam := some v.respondentTeam, scores := .array (intScores v.scores),
    notes := v.notes }

/-- Validity of a submission: non-empty respondent and team, eight scores, each in 1..5. -/
def Submission.Valid (v : Submission) : Prop :=
  v.respondentName ≠ "" ∧ v.respondentTeam ≠ "" ∧ v.scores.length = 8 ∧
  ∀ n ∈ v.scores, 1 ≤ n ∧ n ≤ 5

instance (v : Submission) : Decidable v.Valid := by
  unfold Submission.Valid
  infer_instance

/-- Creating a survey and then submitting the given submissions to it, in order. -/
def endToEnd (db : Store) (now : Nat) (uuid : String) (body : SurveyBody)
    (vs : List Submission) : Store :=
  submitAll (createSurvey db now uuid body).2 (vs.map (fun v => (v.now, v.body uuid)))

/-- A submission with the given respondent, scores and time. -/
def submissionOf (now : Nat) (respondentName : String) (scores : List ℤ) : Submission :=
  { now := now, respondentName := respondentName, respondentTeam := "Team A",
    scores := scores, notes := some "Assessment" }

/-- Three valid submissions to `survey-1`, one after the other. -/
def threeRaters : Store :=
  submitAll Store.empty
    [(0, testUser (.array (intScores [5, 1, 3, 1, 4, 4, 4, 4]))),
     (1, testUser (.array (intScores [2, 1, 4, 1, 4, 4, 5, 1]))),
     (2, testUser (.array (intScores [4, 3, 2, 5, 1, 3, 1, 1])))]

/-- The store after a submission to the survey id `ghost`, which no survey carries. -/
def orphanStore : Store :=
  runRequests Store.empty [.submitAssessment 0 { janeDoe with surveyId := some "ghost" }]

/-- A store holding one assessment of `survey-2`. -/
def otherSurveyStore : Store :=
  (submitAssessment Store.empty 0 { janeDoe with surveyId := some "survey-2" }).2

/-- The two submissions of the API test on read-assessments, recorded at the given times. -/
def userOneThenTwo (t1 t2 : Nat) : List Submission :=
  [submissionOf t1 "User 1" [5, 4, 5, 3, 4, 5, 4, 5],
   submissionOf t2 "User 2" [4, 5, 4, 5, 3, 4, 5, 4]]

/-- The store after one submission of nine scores. -/
def nineScoresStore : Store :=
  runRequests Store.empty
    [.submitAssessment 0 (testUser (.array (intScores [1, 1, 1, 1, 1, 1, 1, 1, 10])))]

/-- The submission of the test on duplicate submissions. -/
def duplicateBody : AssessmentBody :=
  { surveyId := some "survey-1", respondentName := some "重复提交测试",
    respondentTeam := some "测试团队",
    scores := .array (intScores [3, 3, 3, 3, 3, 3, 3, 3]), notes := some "测试重复提交" }

/-- The submission of the test on viewing a submitted assessment. -/
def frontendBody : AssessmentBody :=
  { surveyId := some "survey-1", respondentName := some "测试用户",
    respondentTeam := some "测试团队", scores := .array [5, 4, 5, 4, 5, 4, 5, 4],
    notes := some "这是一个测试评估" }

/-! ## `GET /api/export/:surveyId` -/

/-- The order of `ORDER BY submission_date` (ascending). -/
def olderFirst (a b : AssessmentRow) : Prop :=
  a.submission_date ≤ b.submission_date

instance : DecidableRel olderFirst :=
  fun a b => inferInstanceAs (Decidable (a.submission_date ≤ b.submission_date))

instance : IsTotal AssessmentRow olderFirst :=
  ⟨fun a b => Nat.le_total a.submission_date b.submission_date⟩

instance : IsTrans AssessmentRow olderFirst :=
  ⟨fun _ _ _ hab hbc => Nat.le_trans hab hbc⟩

/-- The rows of `SELECT * FROM assessments WHERE survey_id = ? ORDER BY submission_date`. -/
def exportQuery (db : Store) (surveyId : String) : List AssessmentRow :=
  (rowsOf db surveyId).insertionSort olderFirst

/-- A worksheet: the header row that `columns` defines, and the rows added below it. -/
structure Sheet (ρ : Type) where
  header : List String
  rows : List ρ
  deriving DecidableEq

/-- A row of the sheet `汇总统计`. The cells `average` and `stddev` are written with
`toFixed(2)`; the model keeps the number such a two-decimal string denotes. -/
structure StatsRow where
  dimension : String
  average : ℚ
  min : ℚ
  max : ℚ
  stddev : ℚ
  deriving DecidableEq

/-- The workbook of the export: the sheet `详细数据` with the raw rows (the cells of a row
are the fields its column keys name) and the sheet `汇总统计`. -/
structure Workbook where
  detailSheet : Sheet AssessmentRow
  summarySheet : Sheet StatsRow
  deriving DecidableEq

/-- The headers of `detailSheet.columns`. -/
def detailHeader : List String :=
  ["提交时间", "姓名", "团队", "项目进度透明度", "需求响应速度", "团队协作效率",
   "交付质量稳定性", "问题发现及时性", "资源配置效率", "持续改进能力", "信息传递有效性",
   "总体评分", "备注"]

/-- The headers of `summarySheet.columns`. -/
def summaryHeader : List String :=
  ["维度", "平均分", "最低分", "最高分", "标准差"]

/-- The array `dimensions`: the eight column keys, as the accessors `a => a[dim]`. -/
def dimensions : List (AssessmentRow → Option ℚ) :=
  [fun a => a.project_progress_transparency,
   fun a => a.requirement_response_speed,
   fun a => a.team_collaboration_efficiency,
   fun a => a.delivery_quality_stability,
   fun a => a.issue_discovery_timeliness,
   fun a => a.resource_allocation_efficiency,
   fun a => a.continuous_improvement_ability,
   fun a => a.information_transmission_effectiveness]

/-- The array `dimensionNames`. -/
def dimensionNames : List String :=
  ["项目进度透明度", "需求响应速度", "团队协作效率", "交付质量稳定性", "问题发现及时性",
   "资源配置效率", "持续改进能力", "信息传递有效性"]

/-- The number the string `x.toFixed(2)` denotes, for the double `x`: the multiple of 1/100
nearest to the exact value of `x`, a tie going away from zero. -/
def toFixed2 (x : ℚ) : ℚ :=
  if x < 0 then -((⌊(-x) * 100 + 1 / 2⌋ : ℤ) : ℚ) / 100
  else ((⌊x * 100 + 1 / 2⌋ : ℤ) : ℚ) / 100

/-- The double `Math.sqrt(v)`: the double nearest to the square root of `v`, a tie going to
the even significand. The result lies in the binade `2 ^ e` with `e` half the binary exponent
of `v`, rounded down; in units of `2 ^ (e - 52)` its integer part is the integer square root
`f` of `w = v / 4 ^ (e - 52)`, and it is rounded up when `w` exceeds `(f + 1/2) ^ 2`. The
handler takes the square root of a variance, which is never negative; for `v ≤ 0` the value
is `0`. -/
def sqrtDouble (v : ℚ) : ℚ :=
  if v ≤ 0 then 0
  else
    let e := Int.log 2 v / 2
    let w := v / ((2 : ℚ) ^ (e - 52)) ^ 2
    let f := Nat.sqrt ⌊w⌋.toNat
    let m := if 4 * w < (2 * (f : ℚ) + 1) ^ 2 then f
      else if (2 * (f : ℚ) + 1) ^ 2 < 4 * w then f + 1
      else if f % 2 = 0 then f else f + 1
    (m : ℚ) * (2 : ℚ) ^ (e - 52)

/-- The expression `scores.reduce((a, b) => a + b, 0) / scores.length`, which the handler
evaluates only for `scores.length > 0`. -/
def exportAvg (scores : List ℚ) : ℚ :=
  roundDouble (scores.foldl (fun a b => addDouble a b) 0 / scores.length)

/-- The expression `Math.min(...scores)` for the non-empty array `x :: xs`. -/
def mathMin (x : ℚ) (xs : List ℚ) : ℚ :=
  xs.foldl min x

/-- The expression `Math.max(...scores)` for the non-empty array `x :: xs`. -/
def mathMax (x : ℚ) (xs : List ℚ) : ℚ :=
  xs.foldl max x

/-- The expression
`scores.reduce((acc, score) => acc + Math.pow(score - avg, 2), 0) / scores.length`. -/
def exportVariance (scores : List ℚ) (avg : ℚ) : ℚ :=
  roundDouble
    (scores.foldl (fun acc score => addDouble acc (squareDouble (subDouble score avg))) 0 /
      scores.length)

/-- The body of `dimensions.forEach` for one dimension: no row when there is no score
(`if (scores.length > 0)`), else the row of its statistics. -/
def statisticsRow (name : String) (scores : List ℚ) : Option StatsRow :=
  match scores with
  | [] => none
  | x :: xs =>
    let avg := exportAvg (x :: xs)
    let min := mathMin x xs
    let max := mathMax x xs
    let variance := exportVariance (x :: xs) avg
    some { dimension := name, average := toFixed2 avg, min := min, max := max,
           stddev := toFixed2 (sqrtDouble variance) }

/-- The rows of the sheet `汇总统计`: for each dimension, with the name at its index, the
statistics of its scores that are not `null`. -/
def summaryRows (assessments : List AssessmentRow) : List StatsRow :=
  (dimensions.zip dimensionNames).filterMap
    (fun d => statisticsRow d.2 ((assessments.map d.1).filterMap id))

/-- The handler `app.get('/api/export/:surveyId')`; the response with status 200 carries the
workbook as an xlsx file. -/
def getExport (db : Store) (surveyId : String) : Response Workbook × Store :=
  let assessments := exportQuery db surveyId
  (.json 200
    { detailSheet := { header := detailHeader, rows := assessments },
      summarySheet := { header := summaryHeader, rows := summaryRows assessments } },
   db)

/-! ## The statistics sheet in the specification's words -/

/-- The scores of one dimension that are not `NULL`, over the given rows. -/
def nonNullScores (rows : List AssessmentRow) (dim : AssessmentRow → Option ℚ) : List ℚ :=
  (rows.map dim).filterMap id

/-- The scores are integers in 1..5, as a validating application stores them. -/
def IsScoreList (scores : List ℚ) : Prop :=
  ∀ s ∈ scores, ∃ n : ℤ, 1 ≤ n ∧ n ≤ 5 ∧ s = (n : ℚ)

/-- The mean squared deviation from the mean (the population variance) of a list. -/
def meanSquaredDeviation (scores : List ℚ) : ℚ :=
  (scores.map (fun score => (score - scores.sum / scores.length) ^ 2)).sum / scores.length

/-- The cell is a number with two decimals that is nearest to `x`; when `x` lies half-way
between two such numbers, either of them. -/
def IsNearestHundredth (cell x : ℚ) : Prop :=
  (∃ n : ℤ, cell = n / 100) ∧ |x - cell| ≤ 1 / 200

/-- The cell is a number with two decimals that is nearest to the square root of `v`:
`cell - 1/200 <= sqrt v <= cell + 1/200`, stated on the squares; when the square root lies
half-way between two such numbers, either of them. -/
def IsNearestHundredthOfSqrt (cell v : ℚ) : Prop :=
  (∃ n : ℕ, cell = n / 100) ∧ v ≤ (cell + 1 / 200) ^ 2 ∧
  (cell = 0 ∨ (cell - 1 / 200) ^ 2 ≤ v)

/-- The cells `average` and `stddev` give, to two decimals, the mean and the population
standard deviation of the scores. -/
def IsMeanAndDeviationOf (row : StatsRow) (scores : List ℚ) : Prop :=
  IsNearestHundredth row.average (scores.sum / scores.length) ∧
  IsNearestHundredthOfSqrt row.stddev (meanSquaredDeviation scores)

/-- The cells `min` and `max` give the least and the greatest of the scores. -/
def IsMinAndMaxOf (row : StatsRow) (scores : List ℚ) : Prop :=
  (row.min ∈ scores ∧ ∀ y ∈ scores, row.min ≤ y) ∧
  (row.max ∈ scores ∧ ∀ y ∈ scores, y ≤ row.max)

/-- Three submissions to `survey-1` with three-element `scores` arrays. -/
def threeShort : Store :=
  submitAll Store.empty
    [(0, testUser (.array (intScores [1, 2, 3]))),
     (1, testUser (.array (intScores [1, 2, 3]))),
     (2, testUser (.array (intScores [2, 2, 3])))]

/-- The scores of one dimension over forty valid assessments: thirty-nine ones and a two,
with the mean 41/40 = 1.025. -/
def fortyScores : List ℚ :=
  List.replicate 39 1 ++ [2]

/-- The store after three accepted submissions to `survey-1` whose scores are all 0.1. -/
def tenthsStore : Store :=
  submitAll Store.empty
    [(0, uniformUser double01), (1, uniformUser double01), (2, uniformUser double01)]

/-- The store after the submission `janeDoe` alone. -/
def janeDoeStore : Store :=
  (submitAssessment Store.empty 0 janeDoe).2

/-! ## `GET /api/surveys` -/

/-- The order of `ORDER BY created_date DESC` on `survey_links`. -/
def newerSurveyFirst (a b : SurveyLinkRow) : Prop :=
  b.created_date ≤ a.created_date

instance : DecidableRel newerSurveyFirst :=
  fun a b => inferInstanceAs (Decidable (b.created_date ≤ a.created_date))

instance : IsTotal SurveyLinkRow newerSurveyFirst :=
  ⟨fun a b => Nat.le_total b.created_date a.created_date⟩

instance : IsTrans SurveyLinkRow newerSurveyFirst :=
  ⟨fun _ _ _ hab hbc => Nat.le_trans hbc hab⟩

/-- The rows of `SELECT * FROM survey_links ORDER BY created_date DESC`; rows with equal
timestamps keep the order of the table. -/
def surveysQuery (db : Store) : List SurveyLinkRow :=
  db.survey_links.insertionSort newerSurveyFirst

/-- The handler `app.get('/api/surveys')`. -/
def getSurveys (db : Store) : Response (List SurveyLinkRow) × Store :=
  (.json 200 (surveysQuery db), db)

/-! ## `checkAdminAuth` (`server-cloud.js`) -/

/-- What a middleware does with a request: hand it to the next handler, or answer it with a
status and an `error` field. -/
inductive MiddlewareResult where
  | next : MiddlewareResult
  | respond (status : Nat) (error : String) : MiddlewareResult
  deriving DecidableEq

/-- The middleware `checkAdminAuth`; `authorization` is `req.headers.authorization`, `none`
when the header is absent. -/
def checkAdminAuth (authorization : Option String) : MiddlewareResult :=
  let isAdmin := authorization == some "Bearer admin-token-123"
  if !isAdmin then .respond 401 "未授权访问" else .next

/-! ## Faults of the storage layer -/

/-- The database as the handlers reach it: the store, and for each statement still to come
what the storage layer will report for it, `some message` being a fault (the `err` of the
callback, or the rejection of the promise) and `none` a statement that runs. -/
structure Database where
  store : Store
  faults : List (Option String)
  deriving DecidableEq

/-- The fault reported for the next statement; none once the list is used up. -/
def Database.nextFault (d : Database) : Option String :=
  d.faults.headD none

/-- The database after one statement has been issued and left the given store. -/
def Database.afterStatement (d : Database) (store : Store) : Database :=
  { store := store, faults := d.faults.tail }

/-- The handler `app.post('/api/surveys')` with its `if (err)` branch. -/
def createSurveyOn (d : Database) (now : Nat) (uuid : String) (body : SurveyBody) :
    Response CreateOk × Database :=
  match d.nextFault with
  | some err => (.error 500 err, d.afterStatement d.store)
  | none =>
    ((createSurvey d.store now uuid body).1,
     d.afterStatement (createSurvey d.store now uuid body).2)

/-- The handler `app.get('/api/surveys')` with its `if (err)` branch. -/
def getSurveysOn (d : Database) : Response (List SurveyLinkRow) × Database :=
  match d.nextFault with
  | some err => (.error 500 err, d.afterStatement d.store)
  | none => ((getSurveys d.store).1, d.afterStatement d.store)

/-- The handler `app.post('/api/assessments')` with its `if (err)` branch; when `scores` is
not an array the exception is thrown before any statement is issued. -/
def submitAssessmentOn (d : Database) (now : Nat) (body : AssessmentBody) :
    Response SubmitOk × Database :=
  match body.scores with
  | .array _ =>
    match d.nextFault with
    | some err => (.error 500 err, d.afterStatement d.store)
    | none =>
      ((submitAssessment d.store now body).1,
       d.afterStatement (submitAssessment d.store now body).2)
  | _ => ((submitAssessment d.store now body).1, d)

/-- The handler `app.get('/api/assessments/:surveyId')` with its `if (err)` branch. -/
def getAssessmentsOn (d : Database) (surveyId : String) :
    Response (List AssessmentRow) × Database :=
  match d.nextFault with
  | some err => (.error 500 err, d.afterStatement d.store)
  | none => ((getAssessments d.store surveyId).1, d.afterStatement d.store)

/-- The handler `app.get('/api/summary/:surveyId')` with its `if (err)` branch. -/
def getSummaryOn (d : Database) (surveyId : String) : Response SummaryRow × Database :=
  match d.nextFault with
  | some err => (.error 500 err, d.afterStatement d.store)
  | none => ((getSummary d.store surveyId).1, d.afterStatement d.store)

/-- The handler `app.get('/api/export/:surveyId')` with its `catch` block, which answers
with the fixed message `导出失败`. -/
def getExportOn (d : Database) (surveyId : String) : Response Workbook × Database :=
  match d.nextFault with
  | some _ => (.error 500 "导出失败", d.afterStatement d.store)
  | none => ((getExport d.store surveyId).1, d.afterStatement d.store)

/-! ## The submit handlers of the two backends, by the statement they issue -/

/-- The thirteen values bound to the `INSERT INTO assessments` statement. -/
structure InsertParams where
  survey_id : Option String
  respondent_name : Option String
  respondent_team : Option String
  project_progress_transparency : Option ℚ
  requirement_response_speed : Option ℚ
  team_collaboration_efficiency : Option ℚ
  delivery_quality_stability : Option ℚ
  issue_discovery_timeliness : Option ℚ
  resource_allocation_efficiency : Option ℚ
  continuous_improvement_ability : Option ℚ
  information_transmission_effectiveness : Option ℚ
  overall_score : Option ℚ
  notes : Option String
  deriving DecidableEq

/-- The handler `app.post('/api/assessments')` of `server.js`, given `run`, which stands for
`db.run` with the parameter array: it yields `lastID` or the error. -/
def submitAssessmentVia (run : InsertParams → Except String Nat) (body : AssessmentBody) :
    Response SubmitOk :=
  match body.scores with
  | .absent => .uncaught "TypeError: Cannot read properties of undefined"
  | .text _ => .uncaught "TypeError: scores.reduce is not a function"
  | .array scores =>
    let overall := overallScore scores
    match run
        { survey_id := body.surveyId, respondent_name := body.respondentName,
          respondent_team := body.respondentTeam,
          project_progress_transparency := scores[0]?,
          requirement_response_speed := scores[1]?,
          team_collaboration_efficiency := scores[2]?,
          delivery_quality_stability := scores[3]?,
          issue_discovery_timeliness := scores[4]?,
          resource_allocation_efficiency := scores[5]?,
          continuous_improvement_ability := scores[6]?,
          information_transmission_effectiveness := scores[7]?,
          overall_score := overall, notes := body.notes } with
    | .error err => .error 500 err
    | .ok lastID => .json 200 { id := lastID, message := "评估提交成功！" }

/-- The statement `db.run` receives from the handler of `server.js`; none when the handler
throws before it. -/
def insertParams (body : AssessmentBody) : Option InsertParams :=
  match body.scores with
  | .array scores =>
    some { survey_id := body.surveyId, respondent_name := body.respondentName,
           respondent_team := body.respondentTeam,
           project_progress_transparency := scores[0]?,
           requirement_response_speed := scores[1]?,
           team_collaboration_efficiency := scores[2]?,
           delivery_quality_stability := scores[3]?,
           issue_discovery_timeliness := scores[4]?,
           resource_allocation_efficiency := scores[5]?,
           continuous_improvement_ability := scores[6]?,
           information_transmission_effectiveness := scores[7]?,
           overall_score := overallScore scores, notes := body.notes }
  | _ => none

/-- The expression `scores.reduce((sum, score) => sum + score, 0) / scores.length` of
`server-cloud.js`. -/
def overallScoreCloud (scores : List ℚ) : Option ℚ :=
  jsDiv (scores.foldl (fun sum score => addDouble sum score) 0) scores.length

/-- The handler `app.post('/api/assessments')` of `server-cloud.js`, given `query`, which
stands for `pool.query` with the parameter array: it yields `result.rows[0].id` or the
error. When `scores` is not an array the exception is thrown before the `try` block and the
promise of the handler is rejected with it. -/
def submitAssessmentCloud (query : InsertParams → Except String Nat)
    (body : AssessmentBody) : Except String (Response SubmitOk) :=
  match body.scores with
  | .absent => .error "TypeError: Cannot read properties of undefined"
  | .text _ => .error "TypeError: scores.reduce is not a function"
  | .array scores =>
    let overall := overallScoreCloud scores
    match query
        { survey_id := body.surveyId, respondent_name := body.respondentName,
          respondent_team := body.respondentTeam,
          project_progress_transparency := scores[0]?,
          requirement_response_speed := scores[1]?,
          team_collaboration_efficiency := scores[2]?,
          delivery_quality_stability := scores[3]?,
          issue_discovery_timeliness := scores[4]?,
          resource_allocation_efficiency := scores[5]?,
          continuous_improvement_ability := scores[6]?,
          information_transmission_effectiveness := scores[7]?,
          overall_score := overall, notes := body.notes } with
    | .error err => .ok (.error 500 err)
    | .ok id => .ok (.json 200 { id := id, message := "评估提交成功！" })

/-- The statement `pool.query` receives from the handler of `server-cloud.js`; none when
the handler throws before it. -/
def insertParamsCloud (body : AssessmentBody) : Option InsertParams :=
  match body.scores with
  | .array scores =>
    some { survey_id := body.surveyId, respondent_name := body.respondentName,
           respondent_team := body.respondentTeam,
           project_progress_transparency := scores[0]?,
           requirement_response_speed := scores[1]?,
           team_collaboration_efficiency := scores[2]?,
           delivery_quality_stability := scores[3]?,
           issue_discovery_timeliness := scores[4]?,
           resource_allocation_efficiency := scores[5]?,
           continuous_improvement_ability := scores[6]?,
           information_transmission_effectiveness := scores[7]?,
           overall_score := overallScoreCloud scores, notes := body.notes }
  | _ => none

/-- The `INSERT` of `server.js` run on a store with the given parameters. -/
def runInsert (db : Store) (now : Nat) (p : InsertParams) : Except String (Store × Nat) :=
  insertAssessment db now p.survey_id p.respondent_name p.respondent_team
    p.project_progress_transparency p.requirement_response_speed
    p.team_collaboration_efficiency p.delivery_quality_stability
    p.issue_discovery_timeliness p.resource_allocation_efficiency
    p.continuous_improvement_ability p.information_transmission_effectiveness
    p.overall_score p.notes

/-! ## Auxiliary facts -/

theorem ulp_pos (x : ℚ) : 0 < ulp x := by
  unfold ulp
  positivity

theorem log2_eq (x : ℚ) (e : ℤ) (hlo : (2 : ℚ) ^ e ≤ |x|) (hhi : |x| < (2 : ℚ) ^ (e + 1)) :
    Int.log 2 |x| = e := by
  have hpos : 0 < |x| := lt_of_lt_of_le (by positivity) hlo
  have h1 : e ≤ Int.log 2 |x| := by
    rw [← Int.zpow_le_iff_le_log (by norm_num) hpos]
    simpa using hlo
  have h2 : Int.log 2 |x| < e + 1 := by
    rw [← Int.lt_zpow_iff_log_lt (by norm_num) hpos]
    simpa using hhi
  omega

theorem roundHalfEven_intCast (z : ℤ) : roundHalfEven (z : ℚ) = z := by
  simp [roundHalfEven]

theorem roundHalfEven_of_abs_lt (y : ℚ) (z : ℤ) (h : |y - z| < 1 / 2) : roundHalfEven y = z := by
  rw [abs_lt] at h
  obtain ⟨h1, h2⟩ := h
  unfold roundHalfEven
  by_cases hz : (z : ℚ) ≤ y
  · have hf : ⌊y⌋ = z := Int.floor_eq_iff.mpr ⟨hz, by linarith⟩
    rw [hf, if_pos (by linarith)]
  · push_neg at hz
    have hf : ⌊y⌋ = z - 1 := Int.floor_eq_iff.mpr ⟨by push_cast; linarith, by push_cast; linarith⟩
    rw [hf]
    have hnot : ¬ (y - ((z - 1 : ℤ) : ℚ) < 1 / 2) := by push_cast; linarith
    rw [if_neg hnot, if_pos (by push_cast; linarith)]
    ring

theorem roundHalfEven_tie (y : ℚ) (z : ℤ) (hy : y = z + 1 / 2) :
    roundHalfEven y = if z % 2 = 0 then z else z + 1 := by
  have hf : ⌊y⌋ = z := Int.floor_eq_iff.mpr ⟨by linarith, by linarith⟩
  unfold roundHalfEven
  rw [hf, if_neg (by linarith), if_neg (by linarith)]

theorem abs_roundHalfEven_sub_le (y : ℚ) : |(roundHalfEven y : ℚ) - y| ≤ 1 / 2 := by
  have h1 := Int.floor_le y
  have h2 := Int.lt_floor_add_one y
  unfold roundHalfEven
  rw [abs_le]
  split_ifs with ha hb hc
  · constructor <;> linarith
  · push_cast; constructor <;> linarith
  · push_neg at ha hb; constructor <;> linarith
  · push_neg at ha hb; push_cast; constructor <;> linarith

theorem ulp_of_log (x : ℚ) (e : ℤ) (hlo : (2 : ℚ) ^ e ≤ |x|) (hhi : |x| < (2 : ℚ) ^ (e + 1))
    (he : -1022 ≤ e) : ulp x = (2 : ℚ) ^ (e - 52) := by
  unfold ulp
  rw [log2_eq x e hlo hhi, max_eq_left he]

/-- Evaluation of `roundDouble` at a number whose binade is known. -/
theorem roundDouble_eq_of_log (x : ℚ) (e z : ℤ) (hlo : (2 : ℚ) ^ e ≤ |x|)
    (hhi : |x| < (2 : ℚ) ^ (e + 1)) (he : -1022 ≤ e)
    (hz : roundHalfEven (x / (2 : ℚ) ^ (e - 52)) = z) :
    roundDouble x = z * (2 : ℚ) ^ (e - 52) := by
  unfold roundDouble
  rw [ulp_of_log x e hlo hhi he, hz]

/-- A number `m * 2 ^ j` with fewer than 54 significant bits is a double: rounding keeps it. -/
theorem roundDouble_of_isDouble (m j : ℤ) (hm : |m| < 2 ^ 53) (hj : -1074 ≤ j) :
    roundDouble ((m : ℚ) * (2 : ℚ) ^ j) = (m : ℚ) * (2 : ℚ) ^ j := by
  by_cases hm0 : m = 0
  · subst hm0
    simp [roundDouble, roundHalfEven]
  have hxpos : 0 < |(m : ℚ) * (2 : ℚ) ^ j| := by
    rw [abs_pos]
    have : (m : ℚ) ≠ 0 := by exact_mod_cast hm0
    positivity
  have hlog := Int.zpow_log_le_self (b := 2) (by norm_num) hxpos
  have hlt : |(m : ℚ) * (2 : ℚ) ^ j| < (2 : ℚ) ^ (53 + j) := by
    rw [abs_mul, abs_of_pos (by positivity : (0 : ℚ) < (2 : ℚ) ^ j), zpow_add₀ (by norm_num)]
    have hmq : |(m : ℚ)| < (2 : ℚ) ^ (53 : ℤ) := by
      have hcast : ((|m| : ℤ) : ℚ) < ((2 ^ 53 : ℤ) : ℚ) := by exact_mod_cast hm
      rw [Int.cast_abs] at hcast
      have h53 : (2 : ℚ) ^ (53 : ℤ) = ((2 ^ 53 : ℤ) : ℚ) := by norm_num
      rw [h53]
      exact hcast
    exact mul_lt_mul_of_pos_right hmq (by positivity)
  have he : Int.log 2 |(m : ℚ) * (2 : ℚ) ^ j| < 53 + j := by
    have h2 : ((2 : ℕ) : ℚ) ^ Int.log 2 |(m : ℚ) * (2 : ℚ) ^ j| < (2 : ℚ) ^ (53 + j) :=
      lt_of_le_of_lt hlog hlt
    have h3 : (2 : ℚ) ^ Int.log 2 |(m : ℚ) * (2 : ℚ) ^ j| < (2 : ℚ) ^ (53 + j) := by
      simpa using h2
    exact (zpow_lt_zpow_iff_right₀ (by norm_num : (1 : ℚ) < 2)).mp h3
  have hE : max (Int.log 2 |(m : ℚ) * (2 : ℚ) ^ j|) (-1022) - 52 ≤ j := by
    rcases le_total (Int.log 2 |(m : ℚ) * (2 : ℚ) ^ j|) (-1022) with h | h
    · rw [max_eq_right h]; omega
    · rw [max_eq_left h]; omega
  unfold roundDouble ulp
  generalize max (Int.log 2 |(m : ℚ) * (2 : ℚ) ^ j|) (-1022) - 52 = u at hE
  obtain ⟨n, hn⟩ : ∃ n : ℕ, j = u + n := ⟨(j - u).toNat, by omega⟩
  have hdiv : (m : ℚ) * (2 : ℚ) ^ j / (2 : ℚ) ^ u = ((m * 2 ^ n : ℤ) : ℚ) := by
    rw [hn, zpow_add₀ (by norm_num), zpow_natCast]
    push_cast
    field_simp
    ring
  rw [hdiv, roundHalfEven_intCast, hn, zpow_add₀ (by norm_num), zpow_natCast]
  push_cast
  ring

theorem roundDouble_intCast (k : ℤ) (hk : |k| < 2 ^ 53) : roundDouble (k : ℚ) = k := by
  have h := roundDouble_of_isDouble k 0 hk (by norm_num)
  simpa using h

theorem roundDouble_eighths (k : ℤ) (hk : |k| < 2 ^ 53) :
    roundDouble ((k : ℚ) / 8) = (k : ℚ) / 8 := by
  have h := roundDouble_of_isDouble k (-3) hk (by norm_num)
  have e : (k : ℚ) * (2 : ℚ) ^ (-3 : ℤ) = (k : ℚ) / 8 := by
    rw [zpow_neg]
    norm_num
    ring
  rwa [e] at h

/-- Rounding to a double is off by at most half the gap between doubles. -/
theorem abs_roundDouble_sub_le (x : ℚ) : |roundDouble x - x| ≤ ulp x / 2 := by
  have hu := ulp_pos x
  have h := abs_roundHalfEven_sub_le (x / ulp x)
  have e : roundDouble x - x = ((roundHalfEven (x / ulp x) : ℚ) - x / ulp x) * ulp x := by
    unfold roundDouble
    field_simp
  rw [e, abs_mul, abs_of_pos hu]
  calc |(roundHalfEven (x / ulp x) : ℚ) - x / ulp x| * ulp x ≤ 1 / 2 * ulp x :=
        mul_le_mul_of_nonneg_right h (le_of_lt hu)
    _ = ulp x / 2 := by ring

/-- The relative error of rounding a number of at least `2 ^ -1022` is at most `2 ^ -53`. -/
theorem abs_roundDouble_sub_le_rel (x : ℚ) (hx : (2 : ℚ) ^ (-1022 : ℤ) ≤ |x|) :
    |roundDouble x - x| ≤ |x| / 2 ^ 53 := by
  have hpos : 0 < |x| := lt_of_lt_of_le (by positivity) hx
  have hlog := Int.zpow_log_le_self (b := 2) (by norm_num) hpos
  have hlog2 : (2 : ℚ) ^ Int.log 2 |x| ≤ |x| := by simpa using hlog
  have he : -1022 ≤ Int.log 2 |x| := by
    rw [← Int.zpow_le_iff_le_log (by norm_num) hpos]
    simpa using hx
  have hu : ulp x = (2 : ℚ) ^ Int.log 2 |x| / 2 ^ 52 := by
    unfold ulp
    rw [max_eq_left he, zpow_sub₀ (by norm_num)]
    norm_num
  have h := abs_roundDouble_sub_le x
  rw [hu] at h
  calc |roundDouble x - x| ≤ (2 : ℚ) ^ Int.log 2 |x| / 2 ^ 52 / 2 := h
    _ ≤ |x| / 2 ^ 52 / 2 := by
        apply div_le_div_of_nonneg_right _ (by norm_num)
        exact div_le_div_of_nonneg_right hlog2 (by positivity)
    _ = |x| / 2 ^ 53 := by ring

/-- Evaluation of `roundDouble` at a positive number whose binade is known. -/
theorem roundDouble_eq_of_pos (x : ℚ) (e z : ℤ) (hlo : (2 : ℚ) ^ e ≤ x)
    (hhi : x < (2 : ℚ) ^ (e + 1)) (he : -1022 ≤ e)
    (hz : roundHalfEven (x / (2 : ℚ) ^ (e - 52)) = z) :
    roundDouble x = z * (2 : ℚ) ^ (e - 52) := by
  have hpos : 0 < x := lt_of_lt_of_le (by positivity) hlo
  exact roundDouble_eq_of_log x e z (by rwa [abs_of_pos hpos]) (by rwa [abs_of_pos hpos]) he hz

theorem intScores_sum (ns : List ℤ) : (intScores ns).sum = ((ns.sum : ℤ) : ℚ) := by
  induction ns with
  | nil => simp [intScores]
  | cons n ns ih =>
    simp only [intScores, List.map_cons, List.sum_cons, Int.cast_add] at ih ⊢
    rw [ih]

theorem intScores_length (ns : List ℤ) : (intScores ns).length = ns.length := by
  simp [intScores]

/-- What the handler does on an array of scores when the survey id is present. -/
theorem submitAssessment_array (db : Store) (now : Nat) (body : AssessmentBody)
    (xs : List ℚ) (sid : String) (hs : body.scores = .array xs)
    (hid : body.surveyId = some sid) :
    ∃ row : AssessmentRow,
      submitAssessment db now body =
        (.json 200 { id := row.id, message := "评估提交成功！" },
         { db with assessments := db.assessments ++ [row], assessments_seq := row.id }) ∧
      row.survey_id = sid ∧ row.overall_score = overallScore xs ∧
      row.project_progress_transparency = xs[0]? ∧
      row.delivery_quality_stability = xs[3]? := by
  simp only [submitAssessment, hs, hid, insertAssessment]
  exact ⟨{ id := nextRowid db.assessments_seq (db.assessments.map (fun r => r.id)),
           survey_id := sid, respondent_name := body.respondentName,
           respondent_team := body.respondentTeam, submission_date := now,
           project_progress_transparency := xs[0]?,
           requirement_response_speed := xs[1]?,
           team_collaboration_efficiency := xs[2]?,
           delivery_quality_stability := xs[3]?,
           issue_discovery_timeliness := xs[4]?,
           resource_allocation_efficiency := xs[5]?,
           continuous_improvement_ability := xs[6]?,
           information_transmission_effectiveness := xs[7]?,
           overall_score := overallScore xs, notes := body.notes },
         rfl, rfl, rfl, rfl, rfl⟩

/-- A submission that does not succeed leaves the database as it was. -/
theorem submitAssessment_failure (db : Store) (now : Nat) (body : AssessmentBody)
    (h : (submitAssessment db now body).1.status ≠ 200) :
    (submitAssessment db now body).2 = db := by
  unfold submitAssessment at h ⊢
  cases hs : body.scores with
  | absent => simp
  | text s => simp
  | array xs =>
    cases hid : body.surveyId with
    | none => simp [insertAssessment]
    | some sid => simp [hs, hid, insertAssessment, Response.status] at h

theorem rowsOf_eq_nil (db : Store) (surveyId : String)
    (h : ∀ r ∈ db.assessments, r.survey_id ≠ surveyId) : rowsOf db surveyId = [] := by
  simp only [rowsOf, List.filter_eq_nil_iff]
  intro r hr
  simpa using h r hr

theorem filterMap_id_length (column : List (Option ℚ)) (h : ∀ v ∈ column, v ≠ none) :
    (column.filterMap id).length = column.length := by
  induction column with
  | nil => rfl
  | cons v vs ih =>
    cases v with
    | none => exact absurd rfl (h none (List.mem_cons_self _ _))
    | some q =>
      simp only [List.filterMap_cons, id, List.length_cons]
      rw [ih (fun w hw => h w (List.mem_cons_of_mem _ hw))]

theorem foldr_max_ge (ids : List Nat) : ∀ i ∈ ids, i ≤ ids.foldr max 0 := by
  induction ids with
  | nil => intro i hi; cases hi
  | cons a as ih =>
    intro i hi
    rcases List.mem_cons.mp hi with h | h
    · subst h
      exact Nat.le_max_left _ _
    · exact Nat.le_trans (ih i h) (Nat.le_max_right _ _)

/-- The rowid handed out is larger than every rowid in the table. -/
theorem lt_nextRowid (seq : Nat) (ids : List Nat) : ∀ i ∈ ids, i < nextRowid seq ids := by
  intro i hi
  have h1 := foldr_max_ge ids i hi
  have h2 : ids.foldr max 0 ≤ max seq (ids.foldr max 0) := Nat.le_max_right _ _
  unfold nextRowid
  omega

/-- The handler on a body with a survey id and a scores array: one row is appended. -/
theorem submitAssessment_ok (db : Store) (now : Nat) (body : AssessmentBody)
    (xs : List ℚ) (sid : String) (hs : body.scores = .array xs)
    (hid : body.surveyId = some sid) :
    submitAssessment db now body =
      (.json 200 { id := nextRowid db.assessments_seq (db.assessments.map (fun r => r.id)),
                   message := "评估提交成功！" },
       { db with
         assessments := db.assessments ++
           [storedRow (nextRowid db.assessments_seq (db.assessments.map (fun r => r.id)))
              now sid body xs],
         assessments_seq := nextRowid db.assessments_seq (db.assessments.map (fun r => r.id)) }) := by
  simp only [submitAssessment, hs, hid, insertAssessment, storedRow]

/-- Success of the handler means the body carried a survey id and a scores array. -/
theorem submitAssessment_status_ok (db : Store) (now : Nat) (body : AssessmentBody)
    (h : (submitAssessment db now body).1.status = 200) :
    ∃ xs sid, body.scores = .array xs ∧ body.surveyId = some sid := by
  unfold submitAssessment at h
  cases hs : body.scores with
  | absent => simp [hs, Response.status] at h
  | text s => simp [hs, Response.status] at h
  | array xs =>
    cases hid : body.surveyId with
    | none => simp [hs, hid, insertAssessment, Response.status] at h
    | some sid => exact ⟨xs, sid, rfl, rfl⟩

/-- Whatever the body, the handler appends at most rows of the body's survey id. -/
theorem submitAssessment_cases (db : Store) (now : Nat) (body : AssessmentBody) :
    (submitAssessment db now body).2 = db ∨
    ∃ xs sid, body.scores = .array xs ∧ body.surveyId = some sid ∧
      submitAssessment db now body =
        (.json 200 { id := nextRowid db.assessments_seq (db.assessments.map (fun r => r.id)),
                     message := "评估提交成功！" },
         { db with
           assessments := db.assessments ++
             [storedRow (nextRowid db.assessments_seq (db.assessments.map (fun r => r.id)))
                now sid body xs],
           assessments_seq :=
             nextRowid db.assessments_seq (db.assessments.map (fun r => r.id)) }) := by
  by_cases h : (submitAssessment db now body).1.status = 200
  · obtain ⟨xs, sid, hs, hid⟩ := submitAssessment_status_ok db now body h
    exact Or.inr ⟨xs, sid, hs, hid, submitAssessment_ok db now body xs sid hs hid⟩
  · exact Or.inl (submitAssessment_failure db now body h)

/-- Creating a survey never touches the assessments. -/
theorem createSurvey_assessments (db : Store) (now : Nat) (uuid : String) (body : SurveyBody) :
    (createSurvey db now uuid body).2.assessments = db.assessments := by
  unfold createSurvey insertSurveyLink
  cases body.surveyName with
  | none => rfl
  | some name =>
    by_cases h : db.survey_links.any (fun r => r.survey_id == uuid) = true
    · simp [h]
    · simp [h]

/-- A submission leaves the rows of every other survey id as they were. -/
theorem rowsOf_submitAssessment_other (db : Store) (now : Nat) (body : AssessmentBody)
    (a : String) (h : body.surveyId ≠ some a) :
    rowsOf (submitAssessment db now body).2 a = rowsOf db a := by
  rcases submitAssessment_cases db now body with hsame | ⟨xs, sid, -, hid, hrun⟩
  · rw [hsame]
  · have hne : sid ≠ a := by
      intro e
      exact h (by rw [hid, e])
    rw [hrun]
    simp [rowsOf, List.filter_append, storedRow, hne]

theorem map_zipWith_of_length {β γ δ : Type} (f : Nat → β → γ) (col : γ → δ) (g : β → δ) :
    ∀ (ids : List Nat) (vs : List β), ids.length = vs.length →
      (∀ i, ∀ v ∈ vs, col (f i v) = g v) → (List.zipWith f ids vs).map col = vs.map g := by
  intro ids vs
  induction vs generalizing ids with
  | nil => intro _ _; simp
  | cons v vs ih =>
    intro hlen h
    cases ids with
    | nil => simp at hlen
    | cons i ids =>
      simp only [List.zipWith_cons_cons, List.map_cons, h i v (List.mem_cons_self _ _)]
      rw [ih ids (by simpa using hlen) (fun j w hw => h j w (List.mem_cons_of_mem _ hw))]

/-- The rows of a survey after a run of submissions to it: the rows it had, followed by one
row per submission, in submission order, each with the rowid the database gave it. -/
theorem submitAll_rowsOf (uuid : String) (vs : List Submission) (db : Store) :
    ∃ ids : List Nat, ids.length = vs.length ∧
      rowsOf (submitAll db (vs.map (fun v => (v.now, v.body uuid)))) uuid =
        rowsOf db uuid ++
          List.zipWith (fun id v => storedRow id v.now uuid (v.body uuid) (intScores v.scores))
            ids vs := by
  induction vs generalizing db with
  | nil => exact ⟨[], rfl, by simp [submitAll]⟩
  | cons v vs ih =>
    obtain ⟨ids, hlen, hrows⟩ := ih (submitAssessment db v.now (v.body uuid)).2
    refine ⟨nextRowid db.assessments_seq (db.assessments.map (fun r => r.id)) :: ids,
      by simp [hlen], ?_⟩
    have step : submitAll db ((v :: vs).map (fun v => (v.now, v.body uuid))) =
        submitAll (submitAssessment db v.now (v.body uuid)).2
          (vs.map (fun v => (v.now, v.body uuid))) := rfl
    rw [step, hrows,
      submitAssessment_ok db v.now (v.body uuid) (intScores v.scores) uuid rfl rfl]
    simp [rowsOf, List.filter_append, storedRow]

/-- The rows of a new survey after an end-to-end run. -/
theorem endToEnd_rowsOf (db : Store) (now : Nat) (uuid : String) (body : SurveyBody)
    (vs : List Submission) (hfresh : ∀ r ∈ db.assessments, r.survey_id ≠ uuid) :
    ∃ ids : List Nat, ids.length = vs.length ∧
      rowsOf (endToEnd db now uuid body vs) uuid =
        List.zipWith (fun id v => storedRow id v.now uuid (v.body uuid) (intScores v.scores))
          ids vs := by
  obtain ⟨ids, hlen, hrows⟩ := submitAll_rowsOf uuid vs (createSurvey db now uuid body).2
  refine ⟨ids, hlen, ?_⟩
  have hnil : rowsOf (createSurvey db now uuid body).2 uuid = [] :=
    rowsOf_eq_nil _ uuid (by rw [createSurvey_assessments]; exact hfresh)
  rw [endToEnd, hrows, hnil, List.nil_append]

theorem intScores_getElem? (ns : List ℤ) (k : Nat) (hk : k < ns.length) :
    (intScores ns)[k]? = some ((ns.getD k 0 : ℤ) : ℚ) := by
  simp [intScores, List.getElem?_map, List.getD_eq_getElem?_getD, List.getElem?_eq_getElem hk]

/-- A successful create-survey appends one row with the submitted name, the generated id,
the current time and the active flag set. -/
theorem createSurvey_ok (db : Store) (now : Nat) (uuid : String) (body : SurveyBody)
    (h : (createSurvey db now uuid body).1.status = 200) :
    ∃ name : String, body.surveyName = some name ∧
      (createSurvey db now uuid body).2.survey_links =
        db.survey_links ++
          [{ id := nextRowid db.survey_links_seq (db.survey_links.map (fun r => r.id)),
             survey_id := uuid, survey_name := name, created_date := now,
             is_active := true }] := by
  unfold createSurvey insertSurveyLink at h ⊢
  cases hname : body.surveyName with
  | none => simp [hname, Response.status] at h
  | some name =>
    by_cases hdup : db.survey_links.any (fun r => r.survey_id == uuid) = true
    · simp [hname, hdup, Response.status] at h
    · exact ⟨name, rfl, by simp [hdup]⟩

/-- `Math.min` of a non-empty array is one of its elements and a lower bound of them. -/
theorem mathMin_spec (x : ℚ) (xs : List ℚ) :
    mathMin x xs ∈ x :: xs ∧ ∀ y ∈ x :: xs, mathMin x xs ≤ y := by
  unfold mathMin
  induction xs generalizing x with
  | nil => simp
  | cons a as ih =>
    obtain ⟨hmem, hle⟩ := ih (min x a)
    have hx : min x a ≤ x := min_le_left x a
    have ha : min x a ≤ a := min_le_right x a
    refine ⟨?_, ?_⟩
    · rcases List.mem_cons.mp hmem with h | h
      · simp only [List.foldl_cons, h]
        rcases min_choice x a with hc | hc
        · rw [hc]; simp
        · rw [hc]; simp
      · exact List.mem_cons_of_mem _ (List.mem_cons_of_mem _ h)
    · intro y hy
      have hmin : List.foldl min (min x a) as ≤ min x a := hle _ (List.mem_cons_self _ _)
      simp only [List.foldl_cons]
      rcases List.mem_cons.mp hy with h | h
      · rw [h]; exact le_trans hmin hx
      · rcases List.mem_cons.mp h with h2 | h2
        · rw [h2]; exact le_trans hmin ha
        · exact hle y (List.mem_cons_of_mem _ h2)

/-- `Math.max` of a non-empty array is one of its elements and an upper bound of them. -/
theorem mathMax_spec (x : ℚ) (xs : List ℚ) :
    mathMax x xs ∈ x :: xs ∧ ∀ y ∈ x :: xs, y ≤ mathMax x xs := by
  unfold mathMax
  induction xs generalizing x with
  | nil => simp
  | cons a as ih =>
    obtain ⟨hmem, hle⟩ := ih (max x a)
    have hx : x ≤ max x a := le_max_left x a
    have ha : a ≤ max x a := le_max_right x a
    refine ⟨?_, ?_⟩
    · rcases List.mem_cons.mp hmem with h | h
      · simp only [List.foldl_cons, h]
        rcases max_choice x a with hc | hc
        · rw [hc]; simp
        · rw [hc]; simp
      · exact List.mem_cons_of_mem _ (List.mem_cons_of_mem _ h)
    · intro y hy
      have hmax : max x a ≤ List.foldl max (max x a) as := hle _ (List.mem_cons_self _ _)
      simp only [List.foldl_cons]
      rcases List.mem_cons.mp hy with h | h
      · rw [h]; exact le_trans hx hmax
      · rcases List.mem_cons.mp h with h2 | h2
        · rw [h2]; exact le_trans ha hmax
        · exact hle y (List.mem_cons_of_mem _ h2)

theorem length_mul_le_sum (c : ℚ) (scores : List ℚ) (h : ∀ y ∈ scores, c ≤ y) :
    (scores.length : ℚ) * c ≤ scores.sum := by
  induction scores with
  | nil => simp
  | cons y ys ih =>
    have h1 := h y (List.mem_cons_self _ _)
    have h2 := ih (fun z hz => h z (List.mem_cons_of_mem _ hz))
    simp only [List.length_cons, List.sum_cons, Nat.cast_add, Nat.cast_one]
    linarith

theorem sum_le_length_mul (c : ℚ) (scores : List ℚ) (h : ∀ y ∈ scores, y ≤ c) :
    scores.sum ≤ (scores.length : ℚ) * c := by
  induction scores with
  | nil => simp
  | cons y ys ih =>
    have h1 := h y (List.mem_cons_self _ _)
    have h2 := ih (fun z hz => h z (List.mem_cons_of_mem _ hz))
    simp only [List.length_cons, List.sum_cons, Nat.cast_add, Nat.cast_one]
    linarith

theorem toFixed2_of_bounds (x : ℚ) (n : ℤ) (hx : 0 ≤ x) (h1 : (n : ℚ) ≤ x * 100 + 1 / 2)
    (h2 : x * 100 + 1 / 2 < n + 1) : toFixed2 x = n / 100 := by
  have hf : ⌊x * 100 + 1 / 2⌋ = n := Int.floor_eq_iff.mpr ⟨h1, h2⟩
  unfold toFixed2
  rw [if_neg (not_lt.mpr hx), hf]

theorem nonNullScores_perm {r1 r2 : List AssessmentRow} (h : r1.Perm r2)
    (dim : AssessmentRow → Option ℚ) : (nonNullScores r1 dim).Perm (nonNullScores r2 dim) :=
  (h.map dim).filterMap id

theorem forall₂_filter_filterMap {α β : Type} (R : α → β → Prop) (p : α → Bool)
    (f : α → Option β) (hnone : ∀ a, p a = false → f a = none)
    (hsome : ∀ a, p a = true → ∃ b, f a = some b ∧ R a b) (l : List α) :
    List.Forall₂ R (l.filter p) (l.filterMap f) := by
  induction l with
  | nil => exact List.Forall₂.nil
  | cons a l ih =>
    cases hp : p a with
    | false =>
      rw [List.filter_cons_of_neg (by simp [hp]), List.filterMap_cons_none (hnone a hp)]
      exact ih
    | true =>
      obtain ⟨b, hb, hR⟩ := hsome a hp
      rw [List.filter_cons_of_pos (by simp [hp]), List.filterMap_cons_some hb]
      exact List.Forall₂.cons hR ih

theorem sum_map_mean_of_eight (rows : List AssessmentRow)
    (g f0 f1 f2 f3 f4 f5 f6 f7 : AssessmentRow → ℚ)
    (h : ∀ r ∈ rows, g r = (f0 r + f1 r + f2 r + f3 r + f4 r + f5 r + f6 r + f7 r) / 8) :
    (rows.map g).sum =
      ((rows.map f0).sum + (rows.map f1).sum + (rows.map f2).sum + (rows.map f3).sum +
        (rows.map f4).sum + (rows.map f5).sum + (rows.map f6).sum + (rows.map f7).sum) / 8 := by
  induction rows with
  | nil => simp
  | cons r rs ih =>
    simp only [List.map_cons, List.sum_cons]
    rw [ih (fun x hx => h x (List.mem_cons_of_mem _ hx)), h r (List.mem_cons_self _ _)]
    ring

/-- A sum of multiples of 1/8 whose numerators stay below `2 ^ 53` is accumulated without
rounding. -/
theorem foldl_addDouble_eighths (B : ℤ) (xs : List ℚ)
    (h : ∀ x ∈ xs, ∃ k : ℤ, |k| ≤ B ∧ x = (k : ℚ) / 8) (ka : ℤ)
    (hb : |ka| + B * xs.length < 2 ^ 53) :
    xs.foldl (fun s x => addDouble s x) ((ka : ℚ) / 8) = (ka : ℚ) / 8 + xs.sum := by
  induction xs generalizing ka with
  | nil => simp
  | cons x xs ih =>
    obtain ⟨k, hk, hxk⟩ := h x (List.mem_cons_self _ _)
    subst hxk
    have hB : 0 ≤ B := le_trans (abs_nonneg k) hk
    have hlen : B * (((((k : ℚ) / 8) :: xs).length : ℕ) : ℤ) = B * (xs.length : ℤ) + B := by
      simp only [List.length_cons]
      push_cast
      ring
    have hx : ∀ x ∈ xs, ∃ k : ℤ, |k| ≤ B ∧ x = (k : ℚ) / 8 :=
      fun y hy => h y (List.mem_cons_of_mem _ hy)
    rw [hlen] at hb
    have hlen0 : 0 ≤ B * (xs.length : ℤ) := mul_nonneg hB (Int.natCast_nonneg _)
    have habs : |ka + k| ≤ |ka| + |k| := abs_add ka k
    have hstep : addDouble ((ka : ℚ) / 8) ((k : ℚ) / 8) = ((ka + k : ℤ) : ℚ) / 8 := by
      unfold addDouble
      have e : (ka : ℚ) / 8 + (k : ℚ) / 8 = ((ka + k : ℤ) : ℚ) / 8 := by
        push_cast
        ring
      rw [e]
      exact roundDouble_eighths _ (by linarith)
    rw [List.foldl_cons, hstep, ih hx (ka + k) (by linarith), List.sum_cons]
    push_cast
    ring

/-- The double-precision sum of at most `2 ^ 47` multiples of 1/8 of magnitude at most 5 is
their exact sum. -/
theorem foldl_addDouble_exact (xs : List ℚ)
    (h : ∀ x ∈ xs, ∃ k : ℤ, |k| ≤ 40 ∧ x = (k : ℚ) / 8) (hlen : xs.length ≤ 2 ^ 47) :
    xs.foldl (fun s x => addDouble s x) 0 = xs.sum := by
  have hl : ((xs.length : ℕ) : ℤ) ≤ 2 ^ 47 := by exact_mod_cast hlen
  have h0 := foldl_addDouble_eighths 40 xs h 0 (by simp only [abs_zero]; linarith)
  simpa using h0

/-- An integer score is a multiple of 1/8. -/
theorem intScores_eighths (B : ℤ) (ns : List ℤ) (h : ∀ n ∈ ns, |n| ≤ B) :
    ∀ x ∈ intScores ns, ∃ k : ℤ, |k| ≤ 8 * B ∧ x = (k : ℚ) / 8 := by
  intro x hx
  obtain ⟨n, hn, rfl⟩ := List.mem_map.mp hx
  refine ⟨8 * n, ?_, ?_⟩
  · rw [abs_mul]
    have := h n hn
    have h8 : |(8 : ℤ)| = 8 := by norm_num
    rw [h8]
    linarith
  · push_cast
    ring

/-- The bounds of a list of integers in 1..5 on its sum. -/
theorem sum_bounds_of_valid (ns : List ℤ) (h : ∀ n ∈ ns, 1 ≤ n ∧ n ≤ 5) :
    (ns.length : ℤ) ≤ ns.sum ∧ ns.sum ≤ 5 * ns.length := by
  induction ns with
  | nil => simp
  | cons n ns ih =>
    have h1 := h n (List.mem_cons_self _ _)
    have h2 := ih (fun m hm => h m (List.mem_cons_of_mem _ hm))
    simp only [List.length_cons, List.sum_cons]
    push_cast
    constructor <;> linarith [h1.1, h1.2, h2.1, h2.2]

/-- On eight integer scores in 1..5 the overall score is computed without rounding: it is
their sum divided by 8. -/
theorem overallScore_of_valid (ns : List ℤ) (hlen : ns.length = 8)
    (h : ∀ n ∈ ns, 1 ≤ n ∧ n ≤ 5) :
    overallScore (intScores ns) = some (((ns.sum : ℤ) : ℚ) / 8) := by
  have hsum : (intScores ns).foldl (fun s x => addDouble s x) 0 = (intScores ns).sum := by
    apply foldl_addDouble_exact
    · intro x hx
      have := intScores_eighths 5 ns (fun n hn => by
        rw [abs_le]
        constructor <;> linarith [(h n hn).1, (h n hn).2]) x hx
      simpa using this
    · rw [intScores_length, hlen]
      norm_num
  have hb := sum_bounds_of_valid ns h
  rw [hlen] at hb
  unfold overallScore jsDiv
  rw [hsum, intScores_length, hlen, intScores_sum]
  simp only [Nat.reduceEqDiff, if_false]
  rw [Nat.cast_ofNat, roundDouble_eighths]
  rw [abs_lt]
  constructor <;> push_cast at hb <;> linarith [hb.1, hb.2]

/-- SQL `AVG` of a column that holds a number in every row. -/
theorem sqlAvg_map_some {β : Type} (vs : List β) (f : β → ℚ) (hne : vs ≠ []) :
    sqlAvg (vs.map (fun v => some (f v))) =
      some (roundDouble ((vs.map f).foldl (fun s x => addDouble s x) 0 / vs.length)) := by
  have hfm : ∀ l : List β, (l.map (fun v => some (f v))).filterMap id = l.map f := by
    intro l
    induction l with
    | nil => rfl
    | cons v l ih =>
      simp only [List.map_cons, List.filterMap_cons, id]
      rw [ih]
  have hpos : vs.length ≠ 0 := fun h0 => hne (List.length_eq_zero.mp h0)
  simp only [sqlAvg, hfm vs, List.length_map, hpos, if_false]

/-- SQL `AVG` of at most `2 ^ 47` multiples of 1/8 of magnitude at most 5 is the double
nearest to their arithmetic mean. -/
theorem sqlAvg_map_some_exact {β : Type} (vs : List β) (f : β → ℚ) (hne : vs ≠ [])
    (hlen : vs.length ≤ 2 ^ 47) (h : ∀ v ∈ vs, ∃ k : ℤ, |k| ≤ 40 ∧ f v = (k : ℚ) / 8) :
    sqlAvg (vs.map (fun v => some (f v))) =
      some (roundDouble ((vs.map f).sum / vs.length)) := by
  rw [sqlAvg_map_some vs f hne, foldl_addDouble_exact _ _ (by simpa using hlen)]
  intro x hx
  obtain ⟨v, hv, rfl⟩ := List.mem_map.mp hx
  exact h v hv

theorem roundDouble_zero : roundDouble 0 = 0 := by
  have h := roundDouble_intCast 0 (by norm_num)
  simpa using h

/-- The relative error of rounding a number that is zero or at least `2 ^ -1022`. -/
theorem abs_roundDouble_sub_le_of_normal (x : ℚ) (hx : x = 0 ∨ (2 : ℚ) ^ (-1022 : ℤ) ≤ |x|) :
    |roundDouble x - x| ≤ |x| / 2 ^ 53 := by
  rcases hx with h | h
  · rw [h, roundDouble_zero]
    simp
  · exact abs_roundDouble_sub_le_rel x h

/-- A sum of multiples of 1/8 is a multiple of 1/8. -/
theorem sum_eighths (B : ℤ) (xs : List ℚ) (h : ∀ x ∈ xs, ∃ k : ℤ, |k| ≤ B ∧ x = (k : ℚ) / 8) :
    ∃ K : ℤ, |K| ≤ B * xs.length ∧ xs.sum = (K : ℚ) / 8 := by
  induction xs with
  | nil => exact ⟨0, by simp, by simp⟩
  | cons x xs ih =>
    obtain ⟨k, hk, hxk⟩ := h x (List.mem_cons_self _ _)
    obtain ⟨K, hK, hsum⟩ := ih (fun y hy => h y (List.mem_cons_of_mem _ hy))
    refine ⟨k + K, ?_, ?_⟩
    · have := abs_add k K
      simp only [List.length_cons]
      push_cast
      linarith
    · rw [List.sum_cons, hsum, hxk]
      push_cast
      ring

/-- The mean of at most `2 ^ 47` multiples of 1/8 is zero or a normal number. -/
theorem mean_eighths_normal (K : ℤ) (n : ℕ) (hn : 0 < n) (hlen : n ≤ 2 ^ 47) :
    (K : ℚ) / 8 / n = 0 ∨ (2 : ℚ) ^ (-1022 : ℤ) ≤ |(K : ℚ) / 8 / n| := by
  by_cases hK : K = 0
  · left
    rw [hK]
    simp
  · right
    have hnq : (0 : ℚ) < n := by exact_mod_cast hn
    have hnle : (n : ℚ) ≤ 2 ^ 47 := by exact_mod_cast hlen
    have hK1 : (1 : ℚ) ≤ |(K : ℚ)| := by
      have : (1 : ℤ) ≤ |K| := Int.one_le_abs hK
      exact_mod_cast this
    have hsmall : (2 : ℚ) ^ (-1022 : ℤ) ≤ (2 : ℚ) ^ (-50 : ℤ) :=
      zpow_le_zpow_right₀ (by norm_num) (by norm_num)
    have h50 : (2 : ℚ) ^ (-50 : ℤ) = 1 / (8 * 2 ^ 47) := by
      rw [zpow_neg]
      norm_num
    rw [abs_div, abs_div, abs_of_pos hnq, abs_of_pos (by norm_num : (0 : ℚ) < 8), div_div]
    calc (2 : ℚ) ^ (-1022 : ℤ) ≤ 1 / (8 * 2 ^ 47) := by rw [← h50]; exact hsmall
      _ ≤ 1 / (8 * n) := by
          apply one_div_le_one_div_of_le (by positivity)
          linarith
      _ ≤ |(K : ℚ)| / (8 * n) := by
          apply div_le_div_of_nonneg_right hK1
          positivity

/-- SQL `AVG` of a column whose numbers are at most `2 ^ 47` multiples of 1/8 of magnitude
at most 5: the double nearest to their arithmetic mean. -/
theorem sqlAvg_of_scores (column : List (Option ℚ))
    (h : ∀ x ∈ column.filterMap id, ∃ k : ℤ, |k| ≤ 40 ∧ x = (k : ℚ) / 8)
    (hlen : (column.filterMap id).length ≤ 2 ^ 47) (hne : column.filterMap id ≠ []) :
    sqlAvg column =
      some (roundDouble ((column.filterMap id).sum / (column.filterMap id).length)) := by
  have hpos : (column.filterMap id).length ≠ 0 := fun h0 => hne (List.length_eq_zero.mp h0)
  simp only [sqlAvg, hpos, if_false]
  rw [foldl_addDouble_exact _ h hlen]

/-- On a non-empty column of at most `2 ^ 47` scores, SQL `AVG` is the double nearest to the
mean over all the rows. -/
theorem sqlAvg_isRoundedMeanOverRows (column : List (Option ℚ)) (hne : column ≠ [])
    (hlen : column.length ≤ 2 ^ 47) (h : IsScoreColumn column) :
    IsRoundedMeanOverRows (sqlAvg column) column := by
  have hsome : ∀ v ∈ column, v ≠ none := by
    intro v hv hnone
    obtain ⟨k, -, hk⟩ := h v hv
    rw [hnone] at hk
    exact Option.noConfusion hk
  have hl := filterMap_id_length column hsome
  have hvals : ∀ x ∈ column.filterMap id, ∃ k : ℤ, |k| ≤ 40 ∧ x = (k : ℚ) / 8 := by
    intro x hx
    obtain ⟨v, hv, hvx⟩ := List.mem_filterMap.mp hx
    obtain ⟨k, hk, hvk⟩ := h v hv
    refine ⟨k, hk, ?_⟩
    rw [hvk] at hvx
    exact (Option.some.inj hvx).symm
  have hpos : 0 < column.length := List.length_pos.mpr hne
  have hne2 : column.filterMap id ≠ [] := by
    intro h0
    rw [h0] at hl
    simp at hl
    omega
  refine ⟨hsome, _, sqlAvg_of_scores column hvals (by rw [hl]; exact hlen) hne2, by rw [hl], ?_⟩
  rw [hl]
  obtain ⟨K, -, hK⟩ := sum_eighths 40 _ hvals
  rw [hK]
  exact abs_roundDouble_sub_le_of_normal _ (mean_eighths_normal K _ hpos hlen)

theorem roundDouble_four_thirds : roundDouble (4 / 3) = 6004799503160661 / 2 ^ 52 := by
  have h := roundDouble_eq_of_pos (4 / 3) 0 6004799503160661 (by norm_num) (by norm_num)
    (by norm_num) (roundHalfEven_of_abs_lt _ _ (by norm_num [abs_lt]))
  rw [h]
  norm_num

/-- Evaluation of `roundDouble` at a positive number that is not half-way between two
doubles. -/
theorem roundDouble_eval (x : ℚ) (e z : ℤ) (hlo : (2 : ℚ) ^ e ≤ x)
    (hhi : x < (2 : ℚ) ^ (e + 1)) (he : -1022 ≤ e)
    (hz : |x / (2 : ℚ) ^ (e - 52) - z| < 1 / 2) :
    roundDouble x = z * (2 : ℚ) ^ (e - 52) :=
  roundDouble_eq_of_pos x e z hlo hhi he (roundHalfEven_of_abs_lt _ _ hz)

/-- Evaluation of `roundDouble` at a positive number half-way between two doubles: the one
with the even significand is taken. -/
theorem roundDouble_eval_tie (x : ℚ) (e z : ℤ) (hlo : (2 : ℚ) ^ e ≤ x)
    (hhi : x < (2 : ℚ) ^ (e + 1)) (he : -1022 ≤ e)
    (hz : x / (2 : ℚ) ^ (e - 52) = z + 1 / 2) :
    roundDouble x = (if z % 2 = 0 then z else z + 1 : ℤ) * (2 : ℚ) ^ (e - 52) :=
  roundDouble_eq_of_pos x e _ hlo hhi he (roundHalfEven_tie _ z hz)

theorem double01_eq : roundDouble (1 / 10) = double01 := by
  rw [roundDouble_eval (1 / 10) (-4) 7205759403792794 (by norm_num) (by norm_num)
    (by norm_num) (by norm_num [abs_lt])]
  norm_num [double01]

theorem double02_eq : roundDouble (2 / 10) = double02 := by
  rw [roundDouble_eval (2 / 10) (-3) 7205759403792794 (by norm_num) (by norm_num)
    (by norm_num) (by norm_num [abs_lt])]
  norm_num [double02]

theorem double03_eq : roundDouble (3 / 10) = double03 := by
  rw [roundDouble_eval (3 / 10) (-2) 5404319552844595 (by norm_num) (by norm_num)
    (by norm_num) (by norm_num [abs_lt])]
  norm_num [double03]

theorem roundDouble_double01 : roundDouble double01 = double01 := by
  have h := roundDouble_of_isDouble 3602879701896397 (-55) (by norm_num) (by norm_num)
  have e : ((3602879701896397 : ℤ) : ℚ) * (2 : ℚ) ^ (-55 : ℤ) = double01 := by
    norm_num [double01]
  rwa [e] at h

theorem roundDouble_double03 : roundDouble double03 = double03 := by
  have h := roundDouble_of_isDouble 5404319552844595 (-54) (by norm_num) (by norm_num)
  have e : ((5404319552844595 : ℤ) : ℚ) * (2 : ℚ) ^ (-54 : ℤ) = double03 := by
    norm_num [double03]
  rwa [e] at h

/-- The double sum `(0.1 + 0.2) + 0.3` divided by 3: `0.20000000000000004`. -/
theorem sqlAvg_tenths_ascending :
    sqlAvg [some double01, some double02, some double03] =
      some (7205759403792795 / 2 ^ 55) := by
  have h1 : addDouble 0 double01 = double01 := by
    unfold addDouble
    rw [zero_add, roundDouble_double01]
  have h2 : addDouble double01 double02 = 5404319552844596 / 2 ^ 54 := by
    have e : double01 + double02 = 10808639105689191 / 2 ^ 55 := by
      norm_num [double01, double02]
    unfold addDouble
    rw [e, roundDouble_eval_tie _ (-2) 5404319552844595 (by norm_num) (by norm_num)
      (by norm_num) (by norm_num)]
    norm_num
  have h3 : addDouble (5404319552844596 / 2 ^ 54) double03 = 5404319552844596 / 2 ^ 53 := by
    have e : (5404319552844596 / 2 ^ 54 : ℚ) + double03 = 10808639105689191 / 2 ^ 54 := by
      norm_num [double03]
    unfold addDouble
    rw [e, roundDouble_eval_tie _ (-1) 5404319552844595 (by norm_num) (by norm_num)
      (by norm_num) (by norm_num)]
    norm_num
  have h4 : roundDouble (5404319552844596 / 2 ^ 53 / 3) = 7205759403792795 / 2 ^ 55 := by
    rw [roundDouble_eval _ (-3) 7205759403792795 (by norm_num) (by norm_num)
      (by norm_num) (by norm_num [abs_lt])]
    norm_num
  simp only [sqlAvg, List.filterMap_cons, List.filterMap_nil, id, List.foldl_cons,
    List.foldl_nil, List.length_cons, List.length_nil]
  rw [h1, h2, h3]
  have h3n : (((0 + 1 + 1 + 1 : ℕ) : ℕ) : ℚ) = 3 := by norm_num
  rw [h3n, h4]
  rfl

/-- The double sum `(0.3 + 0.2) + 0.1` divided by 3: `0.19999999999999998`. -/
theorem sqlAvg_tenths_descending :
    sqlAvg [some double03, some double02, some double01] =
      some (7205759403792793 / 2 ^ 55) := by
  have h1 : addDouble 0 double03 = double03 := by
    unfold addDouble
    rw [zero_add, roundDouble_double03]
  have h2 : addDouble double03 double02 = 1 / 2 := by
    have e : double03 + double02 = ((1 : ℤ) : ℚ) * (2 : ℚ) ^ (-1 : ℤ) := by
      norm_num [double03, double02]
    unfold addDouble
    rw [e, roundDouble_of_isDouble 1 (-1) (by norm_num) (by norm_num)]
    norm_num
  have h3 : addDouble (1 / 2) double01 = 5404319552844595 / 2 ^ 53 := by
    have e : (1 / 2 : ℚ) + double01 = 21617278211378381 / 2 ^ 55 := by
      norm_num [double01]
    unfold addDouble
    rw [e, roundDouble_eval _ (-1) 5404319552844595 (by norm_num) (by norm_num)
      (by norm_num) (by norm_num [abs_lt])]
    norm_num
  have h4 : roundDouble (5404319552844595 / 2 ^ 53 / 3) = 7205759403792793 / 2 ^ 55 := by
    rw [roundDouble_eval _ (-3) 7205759403792793 (by norm_num) (by norm_num)
      (by norm_num) (by norm_num [abs_lt])]
    norm_num
  simp only [sqlAvg, List.filterMap_cons, List.filterMap_nil, id, List.foldl_cons,
    List.foldl_nil, List.length_cons, List.length_nil]
  rw [h1, h2, h3]
  have h3n : (((0 + 1 + 1 + 1 : ℕ) : ℕ) : ℚ) = 3 := by norm_num
  rw [h3n, h4]
  rfl

/-- A valid row holds eight integers in 1..5 and their mean. -/
theorem validRow_fields (r : AssessmentRow) (h : IsValidRow r) :
    ∃ n0 n1 n2 n3 n4 n5 n6 n7 : ℤ,
      ((1 ≤ n0 ∧ n0 ≤ 5) ∧ (1 ≤ n1 ∧ n1 ≤ 5) ∧ (1 ≤ n2 ∧ n2 ≤ 5) ∧ (1 ≤ n3 ∧ n3 ≤ 5) ∧
        (1 ≤ n4 ∧ n4 ≤ 5) ∧ (1 ≤ n5 ∧ n5 ≤ 5) ∧ (1 ≤ n6 ∧ n6 ≤ 5) ∧ (1 ≤ n7 ∧ n7 ≤ 5)) ∧
      r.project_progress_transparency = some (n0 : ℚ) ∧
      r.requirement_response_speed = some (n1 : ℚ) ∧
      r.team_collaboration_efficiency = some (n2 : ℚ) ∧
      r.delivery_quality_stability = some (n3 : ℚ) ∧
      r.issue_discovery_timeliness = some (n4 : ℚ) ∧
      r.resource_allocation_efficiency = some (n5 : ℚ) ∧
      r.continuous_improvement_ability = some (n6 : ℚ) ∧
      r.information_transmission_effectiveness = some (n7 : ℚ) ∧
      r.overall_score = some (((n0 + n1 + n2 + n3 + n4 + n5 + n6 + n7 : ℤ) : ℚ) / 8) := by
  obtain ⟨⟨-, hov⟩, hint⟩ := h
  obtain ⟨n0, l0, u0, h0⟩ := hint r.project_progress_transparency (by simp [dimensionScores])
  obtain ⟨n1, l1, u1, h1⟩ := hint r.requirement_response_speed (by simp [dimensionScores])
  obtain ⟨n2, l2, u2, h2⟩ := hint r.team_collaboration_efficiency (by simp [dimensionScores])
  obtain ⟨n3, l3, u3, h3⟩ := hint r.delivery_quality_stability (by simp [dimensionScores])
  obtain ⟨n4, l4, u4, h4⟩ := hint r.issue_discovery_timeliness (by simp [dimensionScores])
  obtain ⟨n5, l5, u5, h5⟩ := hint r.resource_allocation_efficiency (by simp [dimensionScores])
  obtain ⟨n6, l6, u6, h6⟩ := hint r.continuous_improvement_ability (by simp [dimensionScores])
  obtain ⟨n7, l7, u7, h7⟩ :=
    hint r.information_transmission_effectiveness (by simp [dimensionScores])
  refine ⟨n0, n1, n2, n3, n4, n5, n6, n7,
    ⟨⟨l0, u0⟩, ⟨l1, u1⟩, ⟨l2, u2⟩, ⟨l3, u3⟩, ⟨l4, u4⟩, ⟨l5, u5⟩, ⟨l6, u6⟩, ⟨l7, u7⟩⟩,
    h0, h1, h2, h3, h4, h5, h6, h7, ?_⟩
  rw [hov]
  simp only [dimensionScores, h0, h1, h2, h3, h4, h5, h6, h7, List.filterMap_cons,
    List.filterMap_nil, id, List.sum_cons, List.sum_nil]
  congr 1
  push_cast
  ring

/-- SQL `AVG` of a column of at most `2 ^ 47` scores is within `5 / 2 ^ 53` of their mean. -/
theorem sqlAvg_close (rows : List AssessmentRow) (col : AssessmentRow → Option ℚ)
    (f : AssessmentRow → ℚ) (hne : rows ≠ []) (hlen : rows.length ≤ 2 ^ 47)
    (h : ∀ r ∈ rows, col r = some (f r) ∧ ∃ k : ℤ, |k| ≤ 40 ∧ f r = (k : ℚ) / 8) :
    ∃ d : ℚ, sqlAvg (rows.map col) = some d ∧
      |d - (rows.map f).sum / rows.length| ≤ 5 / 2 ^ 53 := by
  have hmap : rows.map col = rows.map (fun r => some (f r)) :=
    List.map_congr_left (fun r hr => (h r hr).1)
  have hk : ∀ r ∈ rows, ∃ k : ℤ, |k| ≤ 40 ∧ f r = (k : ℚ) / 8 := fun r hr => (h r hr).2
  have hpos : 0 < rows.length := List.length_pos.mpr hne
  have hposq : (0 : ℚ) < rows.length := by exact_mod_cast hpos
  refine ⟨_, by rw [hmap]; exact sqlAvg_map_some_exact rows f hne hlen hk, ?_⟩
  have hvals : ∀ x ∈ rows.map f, ∃ k : ℤ, |k| ≤ 40 ∧ x = (k : ℚ) / 8 := by
    intro x hx
    obtain ⟨r, hr, rfl⟩ := List.mem_map.mp hx
    exact hk r hr
  obtain ⟨K, hK, hsum⟩ := sum_eighths 40 _ hvals
  rw [List.length_map] at hK
  have hKq : |(K : ℚ)| ≤ 40 * rows.length := by
    have : ((|K| : ℤ) : ℚ) ≤ ((40 * (rows.length : ℤ) : ℤ) : ℚ) := by exact_mod_cast hK
    rw [Int.cast_abs] at this
    push_cast at this
    exact this
  have hmean : |(rows.map f).sum / rows.length| ≤ 5 := by
    rw [hsum, abs_div, abs_div, abs_of_pos hposq, abs_of_pos (by norm_num : (0 : ℚ) < 8),
      div_div, div_le_iff₀ (by positivity)]
    linarith
  have herr := abs_roundDouble_sub_le_of_normal ((rows.map f).sum / rows.length)
    (by rw [hsum]; exact mean_eighths_normal K _ hpos hlen)
  calc |roundDouble ((rows.map f).sum / rows.length) - (rows.map f).sum / rows.length|
      ≤ |(rows.map f).sum / rows.length| / 2 ^ 53 := herr
    _ ≤ 5 / 2 ^ 53 := div_le_div_of_nonneg_right hmean (by positivity)

theorem roundDouble_seventeen_sixths : roundDouble (17 / 6) = 6380099472108203 / 2 ^ 51 := by
  rw [roundDouble_eval (17 / 6) 1 6380099472108203 (by norm_num) (by norm_num)
    (by norm_num) (by norm_num [abs_lt])]
  norm_num

theorem roundDouble_eleven_thirds : roundDouble (11 / 3) = 8256599316845909 / 2 ^ 51 := by
  rw [roundDouble_eval (11 / 3) 1 8256599316845909 (by norm_num) (by norm_num)
    (by norm_num) (by norm_num [abs_lt])]
  norm_num

theorem roundDouble_five_thirds : roundDouble (5 / 3) = 7505999378950827 / 2 ^ 52 := by
  rw [roundDouble_eval (5 / 3) 0 7505999378950827 (by norm_num) (by norm_num)
    (by norm_num) (by norm_num [abs_lt])]
  norm_num

theorem roundDouble_seven_thirds : roundDouble (7 / 3) = 5254199565265579 / 2 ^ 51 := by
  rw [roundDouble_eval (7 / 3) 1 5254199565265579 (by norm_num) (by norm_num)
    (by norm_num) (by norm_num [abs_lt])]
  norm_num

theorem roundDouble_ten_thirds : roundDouble (10 / 3) = 7505999378950827 / 2 ^ 51 := by
  rw [roundDouble_eval (10 / 3) 1 7505999378950827 (by norm_num) (by norm_num)
    (by norm_num) (by norm_num [abs_lt])]
  norm_num

/-- SQL `AVG` of a column of three integer scores, given as integers. -/
theorem sqlAvg_three (a b c : ℤ) (ha : |a| ≤ 5) (hb : |b| ≤ 5) (hc : |c| ≤ 5) :
    sqlAvg [some (a : ℚ), some (b : ℚ), some (c : ℚ)] =
      some (roundDouble (((a + b + c : ℤ) : ℚ) / 3)) := by
  have h := sqlAvg_map_some_exact [a, b, c] (fun n : ℤ => (n : ℚ)) (by simp) (by norm_num)
    (by
      intro v hv
      have hv5 : |v| ≤ 5 := by
        simp only [List.mem_cons, List.mem_singleton, List.not_mem_nil, or_false] at hv
        rcases hv with rfl | rfl | rfl <;> assumption
      refine ⟨8 * v, ?_, by push_cast; ring⟩
      rw [abs_mul]
      have h8 : |(8 : ℤ)| = 8 := by norm_num
      rw [h8]
      linarith)
  simp only [List.map_cons, List.map_nil, List.sum_cons, List.sum_nil, List.length_cons,
    List.length_nil] at h
  rw [h]
  congr 2
  push_cast
  ring

/-- The double mean of three scores 0.1 is `0.10000000000000002`. -/
theorem exportAvg_three_tenths :
    exportAvg [double01, double01, double01] = 7205759403792795 / 2 ^ 56 := by
  have h1 : addDouble 0 double01 = double01 := by
    unfold addDouble
    rw [zero_add, roundDouble_double01]
  have h2 : addDouble double01 double01 = 3602879701896397 / 2 ^ 54 := by
    have e : double01 + double01 = ((3602879701896397 : ℤ) : ℚ) * (2 : ℚ) ^ (-54 : ℤ) := by
      norm_num [double01]
    unfold addDouble
    rw [e, roundDouble_of_isDouble _ _ (by norm_num) (by norm_num)]
    norm_num
  have h3 : addDouble (3602879701896397 / 2 ^ 54) double01 = 5404319552844596 / 2 ^ 54 := by
    have e : (3602879701896397 / 2 ^ 54 : ℚ) + double01 = 10808639105689191 / 2 ^ 55 := by
      norm_num [double01]
    unfold addDouble
    rw [e, roundDouble_eval_tie _ (-2) 5404319552844595 (by norm_num) (by norm_num)
      (by norm_num) (by norm_num)]
    norm_num
  have h4 : roundDouble (5404319552844596 / 2 ^ 54 / 3) = 7205759403792795 / 2 ^ 56 := by
    rw [roundDouble_eval _ (-4) 7205759403792795 (by norm_num) (by norm_num)
      (by norm_num) (by norm_num [abs_lt])]
    norm_num
  simp only [exportAvg, List.foldl_cons, List.foldl_nil, List.length_cons, List.length_nil]
  rw [h1, h2, h3]
  have h3n : (((0 + 1 + 1 + 1 : ℕ) : ℕ) : ℚ) = 3 := by norm_num
  rw [h3n, h4]

/-- The double variance of three scores 0.1 around their double mean is `2 ^ -112`. -/
theorem exportVariance_three_tenths :
    exportVariance [double01, double01, double01] (7205759403792795 / 2 ^ 56) =
      1 / 2 ^ 112 := by
  have hd : subDouble double01 (7205759403792795 / 2 ^ 56) = -(1 / 2 ^ 56) := by
    have e : double01 - 7205759403792795 / 2 ^ 56 = ((-1 : ℤ) : ℚ) * (2 : ℚ) ^ (-56 : ℤ) := by
      norm_num [double01]
    unfold subDouble
    rw [e, roundDouble_of_isDouble _ _ (by norm_num) (by norm_num)]
    norm_num
  have hq : squareDouble (-(1 / 2 ^ 56)) = 1 / 2 ^ 112 := by
    have e : (-(1 / 2 ^ 56) : ℚ) ^ 2 = ((1 : ℤ) : ℚ) * (2 : ℚ) ^ (-112 : ℤ) := by
      norm_num
    unfold squareDouble
    rw [e, roundDouble_of_isDouble _ _ (by norm_num) (by norm_num)]
    norm_num
  have h1 : addDouble 0 (1 / 2 ^ 112) = 1 / 2 ^ 112 := by
    have e : (0 : ℚ) + 1 / 2 ^ 112 = ((1 : ℤ) : ℚ) * (2 : ℚ) ^ (-112 : ℤ) := by norm_num
    unfold addDouble
    rw [e, roundDouble_of_isDouble _ _ (by norm_num) (by norm_num)]
    norm_num
  have h2 : addDouble (1 / 2 ^ 112) (1 / 2 ^ 112) = 1 / 2 ^ 111 := by
    have e : (1 / 2 ^ 112 : ℚ) + 1 / 2 ^ 112 = ((1 : ℤ) : ℚ) * (2 : ℚ) ^ (-111 : ℤ) := by
      norm_num
    unfold addDouble
    rw [e, roundDouble_of_isDouble _ _ (by norm_num) (by norm_num)]
    norm_num
  have h3 : addDouble (1 / 2 ^ 111) (1 / 2 ^ 112) = 3 / 2 ^ 112 := by
    have e : (1 / 2 ^ 111 : ℚ) + 1 / 2 ^ 112 = ((3 : ℤ) : ℚ) * (2 : ℚ) ^ (-112 : ℤ) := by
      norm_num
    unfold addDouble
    rw [e, roundDouble_of_isDouble _ _ (by norm_num) (by norm_num)]
    norm_num
  have h4 : roundDouble (3 / 2 ^ 112 / 3) = 1 / 2 ^ 112 := by
    have e : (3 / 2 ^ 112 / 3 : ℚ) = ((1 : ℤ) : ℚ) * (2 : ℚ) ^ (-112 : ℤ) := by norm_num
    rw [e, roundDouble_of_isDouble _ _ (by norm_num) (by norm_num)]
    norm_num
  have hl : (([double01, double01, double01].length : ℕ) : ℚ) = 3 := by norm_num
  unfold exportVariance
  rw [List.foldl_cons, List.foldl_cons, List.foldl_cons, List.foldl_nil, hl, hd, hq, h1, h2,
    h3, h4]

theorem roundHalfEven_nonneg (y : ℚ) (hy : 0 ≤ y) : 0 ≤ roundHalfEven y := by
  have hf : (0 : ℤ) ≤ ⌊y⌋ := Int.floor_nonneg.mpr hy
  unfold roundHalfEven
  split_ifs <;> omega

/-- Rounding a number that is not negative gives a number that is not negative. -/
theorem roundDouble_nonneg (x : ℚ) (hx : 0 ≤ x) : 0 ≤ roundDouble x := by
  unfold roundDouble
  have hu := ulp_pos x
  have h : (0 : ℤ) ≤ roundHalfEven (x / ulp x) :=
    roundHalfEven_nonneg _ (div_nonneg hx (le_of_lt hu))
  have hq : (0 : ℚ) ≤ (roundHalfEven (x / ulp x) : ℚ) := by exact_mod_cast h
  exact mul_nonneg hq (le_of_lt hu)

/-- The error of rounding any number `x` is at most `(|x| + 1) / 2 ^ 53`. -/
theorem abs_roundDouble_sub_le_add_one (x : ℚ) :
    |roundDouble x - x| ≤ (|x| + 1) / 2 ^ 53 := by
  have h := abs_roundDouble_sub_le x
  have hx0 : 0 ≤ |x| := abs_nonneg x
  have hulp : ulp x ≤ (|x| + 1) / 2 ^ 52 := by
    unfold ulp
    rcases le_total (Int.log 2 |x|) (-1022) with hl | hl
    · rw [max_eq_right hl]
      have h1 : (2 : ℚ) ^ ((-1022 : ℤ) - 52) ≤ (2 : ℚ) ^ (-52 : ℤ) :=
        zpow_le_zpow_right₀ (by norm_num) (by norm_num)
      have h2 : (2 : ℚ) ^ (-52 : ℤ) = 1 / 2 ^ 52 := by
        rw [zpow_neg]
        norm_num
      rw [h2] at h1
      calc (2 : ℚ) ^ ((-1022 : ℤ) - 52) ≤ 1 / 2 ^ 52 := h1
        _ ≤ (|x| + 1) / 2 ^ 52 := by
            apply div_le_div_of_nonneg_right _ (by positivity)
            linarith
    · rw [max_eq_left hl]
      by_cases hx : x = 0
      · rw [hx, abs_zero, Int.log_of_right_le_zero 2 (le_refl (0 : ℚ))]
        rw [zero_sub, zpow_neg]
        norm_num
      · have hpos : 0 < |x| := abs_pos.mpr hx
        have hlog := Int.zpow_log_le_self (b := 2) (by norm_num) hpos
        have hlog2 : (2 : ℚ) ^ Int.log 2 |x| ≤ |x| := by simpa using hlog
        rw [zpow_sub₀ (by norm_num)]
        have h52 : (2 : ℚ) ^ (52 : ℤ) = 2 ^ 52 := by norm_num
        rw [h52]
        apply div_le_div_of_nonneg_right _ (by positivity)
        linarith
  calc |roundDouble x - x| ≤ ulp x / 2 := h
    _ ≤ (|x| + 1) / 2 ^ 52 / 2 := div_le_div_of_nonneg_right hulp (by norm_num)
    _ = (|x| + 1) / 2 ^ 53 := by ring
/-- The double-precision sum of at most about 1800 numbers between 0 and 17 differs from
their exact sum by at most `2 ^ -38` per number. -/
theorem foldl_addDouble_error (qs : List ℚ) (hq : ∀ q ∈ qs, 0 ≤ q ∧ q ≤ 17) (a : ℚ)
    (ha : 0 ≤ a) (hb : a + 18 * qs.length ≤ 2 ^ 15 - 1) :
    0 ≤ qs.foldl (fun s x => addDouble s x) a ∧
    |qs.foldl (fun s x => addDouble s x) a - (a + qs.sum)| ≤
      qs.length * (2 ^ 15 / 2 ^ 53) := by
  induction qs generalizing a with
  | nil => simp [ha]
  | cons q rest ih =>
    obtain ⟨hq0, hq17⟩ := hq q (List.mem_cons_self _ _)
    have hlen : ((q :: rest).length : ℚ) = (rest.length : ℚ) + 1 := by
      simp only [List.length_cons]
      push_cast
      ring
    rw [hlen] at hb ⊢
    have hrest0 : (0 : ℚ) ≤ rest.length := Nat.cast_nonneg _
    have hsum0 : 0 ≤ a + q := add_nonneg ha hq0
    have ha0 : 0 ≤ addDouble a q := roundDouble_nonneg _ hsum0
    have herr : |addDouble a q - (a + q)| ≤ 2 ^ 15 / 2 ^ 53 := by
      have h := abs_roundDouble_sub_le_add_one (a + q)
      rw [abs_of_nonneg hsum0] at h
      calc |addDouble a q - (a + q)| ≤ (a + q + 1) / 2 ^ 53 := h
        _ ≤ 2 ^ 15 / 2 ^ 53 := by
            apply div_le_div_of_nonneg_right _ (by positivity)
            linarith
    have herr2 := abs_le.mp herr
    have hsmall : (2 : ℚ) ^ 15 / 2 ^ 53 ≤ 1 := by norm_num
    obtain ⟨h0, h1⟩ := ih (fun x hx => hq x (List.mem_cons_of_mem _ hx)) (addDouble a q) ha0
      (by linarith [herr2.2])
    rw [List.foldl_cons, List.sum_cons]
    refine ⟨h0, ?_⟩
    have h1' := abs_le.mp h1
    rw [abs_le]
    constructor <;> linarith [herr2.1, herr2.2, h1'.1, h1'.2]
theorem abs_sq_sub_sq_le (x d ε : ℚ) (hx : |x| ≤ 4) (hd : |d - x| ≤ ε) (hε : ε ≤ 1) :
    |d ^ 2 - x ^ 2| ≤ 9 * ε := by
  have hε0 : 0 ≤ ε := le_trans (abs_nonneg _) hd
  have e : d ^ 2 - x ^ 2 = (d - x) * (2 * x + (d - x)) := by ring
  have h2 : |2 * x + (d - x)| ≤ 9 := by
    have hx' := abs_le.mp hx
    have hd' := abs_le.mp hd
    rw [abs_le]
    constructor <;> linarith [hx'.1, hx'.2, hd'.1, hd'.2]
  rw [e, abs_mul]
  calc |d - x| * |2 * x + (d - x)| ≤ ε * 9 :=
        mul_le_mul hd h2 (abs_nonneg _) hε0
    _ = 9 * ε := by ring

/-- One term of the variance: for a score `s` and a mean `μ` between 1 and 5, and the double
`A` within `5 / 2 ^ 53` of `μ`, the double square of the double difference `s - A` is within
`134 / 2 ^ 53` of `(s - μ) ^ 2`, and lies between 0 and 17. -/
theorem squareDouble_subDouble_error (s μ A : ℚ) (hs : 1 ≤ s ∧ s ≤ 5) (hμ : 1 ≤ μ ∧ μ ≤ 5)
    (hA : |A - μ| ≤ 5 / 2 ^ 53) :
    (0 ≤ squareDouble (subDouble s A) ∧ squareDouble (subDouble s A) ≤ 17) ∧
    |squareDouble (subDouble s A) - (s - μ) ^ 2| ≤ 134 / 2 ^ 53 := by
  have hA' := abs_le.mp hA
  have hx : |s - μ| ≤ 4 := by
    rw [abs_le]
    constructor <;> linarith [hs.1, hs.2, hμ.1, hμ.2]
  have hx' := abs_le.mp hx
  have he : |s - A| ≤ 5 := by
    rw [abs_le]
    have : (5 : ℚ) / 2 ^ 53 ≤ 1 := by norm_num
    constructor <;> linarith [hx'.1, hx'.2, hA'.1, hA'.2]
  have hd1 : |subDouble s A - (s - A)| ≤ 6 / 2 ^ 53 := by
    have h := abs_roundDouble_sub_le_add_one (s - A)
    calc |subDouble s A - (s - A)| ≤ (|s - A| + 1) / 2 ^ 53 := h
      _ ≤ 6 / 2 ^ 53 := by
          apply div_le_div_of_nonneg_right _ (by positivity)
          linarith
  have hd1' := abs_le.mp hd1
  have hd : |subDouble s A - (s - μ)| ≤ 11 / 2 ^ 53 := by
    rw [abs_le]
    constructor <;> linarith [hd1'.1, hd1'.2, hA'.1, hA'.2]
  have hsq := abs_sq_sub_sq_le (s - μ) (subDouble s A) (11 / 2 ^ 53) hx hd (by norm_num)
  have hsq' := abs_le.mp hsq
  have hx2 : (s - μ) ^ 2 ≤ 16 := by
    have : (s - μ) ^ 2 = |s - μ| ^ 2 := (sq_abs _).symm
    rw [this]
    have h0 : 0 ≤ |s - μ| := abs_nonneg _
    nlinarith
  have hx20 : 0 ≤ (s - μ) ^ 2 := sq_nonneg _
  have hd2 : (subDouble s A) ^ 2 ≤ 17 := by
    have : (9 : ℚ) * (11 / 2 ^ 53) ≤ 1 := by norm_num
    linarith [hsq'.2]
  have hd20 : 0 ≤ (subDouble s A) ^ 2 := sq_nonneg _
  have hq : |squareDouble (subDouble s A) - (subDouble s A) ^ 2| ≤ 18 / 2 ^ 53 := by
    have h := abs_roundDouble_sub_le_add_one ((subDouble s A) ^ 2)
    rw [abs_of_nonneg hd20] at h
    calc |squareDouble (subDouble s A) - (subDouble s A) ^ 2|
        ≤ ((subDouble s A) ^ 2 + 1) / 2 ^ 53 := h
      _ ≤ 18 / 2 ^ 53 := by
          apply div_le_div_of_nonneg_right _ (by positivity)
          linarith
  have hq' := abs_le.mp hq
  have hfin : |squareDouble (subDouble s A) - (s - μ) ^ 2| ≤ 134 / 2 ^ 53 := by
    rw [abs_le]
    constructor <;> linarith [hq'.1, hq'.2, hsq'.1, hsq'.2]
  have hfin' := abs_le.mp hfin
  refine ⟨⟨roundDouble_nonneg _ hd20, ?_⟩, hfin⟩
  have : (134 : ℚ) / 2 ^ 53 ≤ 1 := by norm_num
  linarith [hfin'.2]
theorem abs_sum_map_sub_le (S : List ℚ) (f g : ℚ → ℚ) (c : ℚ)
    (h : ∀ s ∈ S, |f s - g s| ≤ c) :
    |(S.map f).sum - (S.map g).sum| ≤ S.length * c := by
  induction S with
  | nil => simp
  | cons s rest ih =>
    have h1 := abs_le.mp (h s (List.mem_cons_self _ _))
    have h2 := abs_le.mp (ih (fun x hx => h x (List.mem_cons_of_mem _ hx)))
    simp only [List.map_cons, List.sum_cons, List.length_cons]
    push_cast
    rw [abs_le]
    constructor <;> linarith [h1.1, h1.2, h2.1, h2.2]

/-- The scores of a score list lie between 1 and 5. -/
theorem scoreList_bounds (S : List ℚ) (hS : IsScoreList S) : ∀ s ∈ S, 1 ≤ s ∧ s ≤ 5 := by
  intro s hs
  obtain ⟨n, h1, h5, rfl⟩ := hS s hs
  exact ⟨by exact_mod_cast h1, by exact_mod_cast h5⟩

/-- The mean of a non-empty score list lies between 1 and 5. -/
theorem scoreList_mean_bounds (S : List ℚ) (hS : IsScoreList S) (hne : S ≠ []) :
    1 ≤ S.sum / S.length ∧ S.sum / S.length ≤ 5 := by
  have hpos : (0 : ℚ) < S.length := by
    have : 0 < S.length := List.length_pos.mpr hne
    exact_mod_cast this
  have hb := scoreList_bounds S hS
  have h1 := length_mul_le_sum 1 S (fun y hy => (hb y hy).1)
  have h5 := sum_le_length_mul 5 S (fun y hy => (hb y hy).2)
  constructor
  · rw [le_div_iff₀ hpos]
    linarith
  · rw [div_le_iff₀ hpos]
    linarith

/-- The variance the export computes in double precision for at most 1000 integer scores in
1..5, around a double within `5 / 2 ^ 53` of their mean, is within `2 ^ -37` of the mean
squared deviation of the scores from their mean. -/
theorem exportVariance_error (S : List ℚ) (hS : IsScoreList S) (hne : S ≠ [])
    (hlen : S.length ≤ 1000) (A : ℚ) (hA : |A - S.sum / S.length| ≤ 5 / 2 ^ 53) :
    0 ≤ exportVariance S A ∧
    |exportVariance S A - meanSquaredDeviation S| ≤ 1 / 2 ^ 37 := by
  have hpos : (0 : ℚ) < S.length := by
    have : 0 < S.length := List.length_pos.mpr hne
    exact_mod_cast this
  have hlenq : (S.length : ℚ) ≤ 1000 := by exact_mod_cast hlen
  have hμ := scoreList_mean_bounds S hS hne
  have hb := scoreList_bounds S hS
  have hterm : ∀ s ∈ S,
      (0 ≤ squareDouble (subDouble s A) ∧ squareDouble (subDouble s A) ≤ 17) ∧
      |squareDouble (subDouble s A) - (s - S.sum / S.length) ^ 2| ≤ 134 / 2 ^ 53 :=
    fun s hs => squareDouble_subDouble_error s _ A (hb s hs) hμ hA
  have hfold : S.foldl (fun acc score => addDouble acc (squareDouble (subDouble score A))) 0 =
      (S.map (fun score => squareDouble (subDouble score A))).foldl
        (fun s x => addDouble s x) 0 := by
    rw [List.foldl_map]
  have hq : ∀ q ∈ S.map (fun score => squareDouble (subDouble score A)), 0 ≤ q ∧ q ≤ 17 := by
    intro q hq
    obtain ⟨s, hs, rfl⟩ := List.mem_map.mp hq
    exact (hterm s hs).1
  obtain ⟨hT0, hT⟩ := foldl_addDouble_error _ hq 0 (le_refl 0) (by
    rw [List.length_map]
    norm_num
    linarith)
  rw [List.length_map, zero_add] at hT
  have hT' := abs_le.mp hT
  have hQ := abs_sum_map_sub_le S (fun score => squareDouble (subDouble score A))
    (fun score => (score - S.sum / S.length) ^ 2) (134 / 2 ^ 53) (fun s hs => (hterm s hs).2)
  have hQ' := abs_le.mp hQ
  have hQ17 := sum_le_length_mul 17 _ (fun y hy => (hq y hy).2)
  rw [List.length_map] at hQ17
  unfold exportVariance meanSquaredDeviation
  rw [hfold]
  set T := (S.map (fun score => squareDouble (subDouble score A))).foldl
    (fun s x => addDouble s x) 0 with hTdef
  set Q := (S.map (fun score => squareDouble (subDouble score A))).sum with hQdef
  set X := (S.map (fun score => (score - S.sum / S.length) ^ 2)).sum with hXdef
  have hdiv0 : 0 ≤ T / S.length := div_nonneg hT0 (le_of_lt hpos)
  have hdiv18 : T / S.length ≤ 18 := by
    rw [div_le_iff₀ hpos]
    have : (2 : ℚ) ^ 15 / 2 ^ 53 ≤ 1 := by norm_num
    nlinarith [hT'.2, hQ17]
  have hround : |roundDouble (T / S.length) - T / S.length| ≤ 19 / 2 ^ 53 := by
    have h := abs_roundDouble_sub_le_add_one (T / S.length)
    rw [abs_of_nonneg hdiv0] at h
    calc |roundDouble (T / S.length) - T / S.length| ≤ (T / S.length + 1) / 2 ^ 53 := h
      _ ≤ 19 / 2 ^ 53 := by
          apply div_le_div_of_nonneg_right _ (by positivity)
          linarith
  have hround' := abs_le.mp hround
  have hTX : |T / S.length - X / S.length| ≤ 2 ^ 15 / 2 ^ 53 + 134 / 2 ^ 53 := by
    rw [← sub_div, abs_div, abs_of_pos hpos, div_le_iff₀ hpos, abs_le]
    constructor <;> nlinarith [hT'.1, hT'.2, hQ'.1, hQ'.2]
  have hTX' := abs_le.mp hTX
  refine ⟨roundDouble_nonneg _ hdiv0, ?_⟩
  rw [abs_le]
  have hc : (19 : ℚ) / 2 ^ 53 + (2 ^ 15 / 2 ^ 53 + 134 / 2 ^ 53) ≤ 1 / 2 ^ 37 := by norm_num
  constructor <;> linarith [hround'.1, hround'.2, hTX'.1, hTX'.2]
/-- The double `Math.sqrt(v)` of a number `v` that is not negative: it is not negative, and
for some `h` of at most `2 ^ -53` times its size, `v` lies between the squares of
`sqrtDouble v - h` and `sqrtDouble v + h`. -/
theorem sqrtDouble_spec (v : ℚ) (hv : 0 ≤ v) :
    0 ≤ sqrtDouble v ∧
    ∃ h : ℚ, 0 ≤ h ∧ h ≤ sqrtDouble v / 2 ^ 53 ∧
      (sqrtDouble v - h) ^ 2 ≤ v ∧ v ≤ (sqrtDouble v + h) ^ 2 := by
  by_cases hv0 : v ≤ 0
  · have h0 : v = 0 := le_antisymm hv0 hv
    have hs : sqrtDouble v = 0 := by
      unfold sqrtDouble
      rw [if_pos hv0]
    rw [hs, h0]
    exact ⟨le_refl 0, 0, le_refl 0, by norm_num, by norm_num, by norm_num⟩
  · have hpos : 0 < v := lt_of_not_ge hv0
    have hlog1 : (2 : ℚ) ^ Int.log 2 v ≤ v := by
      have h := Int.zpow_log_le_self (b := 2) (by norm_num) hpos
      simpa using h
    have hlog2 : v < (2 : ℚ) ^ (Int.log 2 v + 1) := by
      have h := Int.lt_zpow_succ_log_self (b := 2) (by norm_num) v
      simpa using h
    have he1 : 2 * (Int.log 2 v / 2) ≤ Int.log 2 v := by omega
    have he2 : Int.log 2 v + 1 ≤ 2 * (Int.log 2 v / 2) + 2 := by omega
    have hscale : (0 : ℚ) < (2 : ℚ) ^ (Int.log 2 v / 2 - 52) := by positivity
    have hscale2 : ((2 : ℚ) ^ (Int.log 2 v / 2 - 52)) ^ 2 =
        (2 : ℚ) ^ (2 * (Int.log 2 v / 2) - 104) := by
      rw [← zpow_natCast, ← zpow_mul]
      congr 1
      push_cast
      ring
    have hlo : (2 : ℚ) ^ (2 * (Int.log 2 v / 2)) ≤ v :=
      le_trans (zpow_le_zpow_right₀ (by norm_num) he1) hlog1
    have hw104 : (2 : ℚ) ^ 104 ≤ v / ((2 : ℚ) ^ (Int.log 2 v / 2 - 52)) ^ 2 := by
      rw [hscale2, le_div_iff₀ (by positivity)]
      have e : (2 : ℚ) ^ 104 * (2 : ℚ) ^ (2 * (Int.log 2 v / 2) - 104) =
          (2 : ℚ) ^ (2 * (Int.log 2 v / 2)) := by
        have h104 : (2 : ℚ) ^ 104 = (2 : ℚ) ^ (104 : ℤ) := by norm_num
        rw [h104, ← zpow_add₀ (by norm_num)]
        congr 1
        ring
      rw [e]
      exact hlo
    unfold sqrtDouble
    rw [if_neg hv0]
    simp only []
    set scale := (2 : ℚ) ^ (Int.log 2 v / 2 - 52) with hscaledef
    set w := v / scale ^ 2 with hwdef
    have hvw : v = w * scale ^ 2 := by
      rw [hwdef]
      field_simp
    have hw0 : 0 ≤ w := le_trans (by positivity) hw104
    have hfloor0 : (0 : ℤ) ≤ ⌊w⌋ := Int.floor_nonneg.mpr hw0
    have hN : ((⌊w⌋.toNat : ℕ) : ℤ) = ⌊w⌋ := Int.toNat_of_nonneg hfloor0
    have hNq : ((⌊w⌋.toNat : ℕ) : ℚ) = ((⌊w⌋ : ℤ) : ℚ) := by
      have hcast := congrArg (fun z : ℤ => (z : ℚ)) hN
      simpa only [Int.cast_natCast] using hcast
    have hN1 : ((⌊w⌋.toNat : ℕ) : ℚ) ≤ w := by
      rw [hNq]
      exact Int.floor_le _
    have hN2 : w < ((⌊w⌋.toNat : ℕ) : ℚ) + 1 := by
      rw [hNq]
      exact Int.lt_floor_add_one _
    have hN104 : 2 ^ 104 ≤ ⌊w⌋.toNat := by
      have h1 : ((2 ^ 104 : ℤ) : ℚ) ≤ w := by
        rw [Int.cast_pow, Int.cast_ofNat]
        exact hw104
      have h2 : (2 ^ 104 : ℤ) ≤ ⌊w⌋ := Int.le_floor.mpr h1
      have h3 : ((2 ^ 104 : ℕ) : ℤ) ≤ ((⌊w⌋.toNat : ℕ) : ℤ) := by
        rw [hN]
        exact_mod_cast h2
      exact_mod_cast h3
    generalize ⌊w⌋.toNat = N at hN1 hN2 hN104
    have hf1 : Nat.sqrt N * Nat.sqrt N ≤ N := Nat.sqrt_le N
    have hf2 : N < (Nat.sqrt N + 1) * (Nat.sqrt N + 1) := Nat.lt_succ_sqrt N
    have hf52 : 2 ^ 52 ≤ Nat.sqrt N := Nat.le_sqrt.mpr (le_trans (by norm_num) hN104)
    generalize Nat.sqrt N = f at hf1 hf2 hf52
    have hf1q : (f : ℚ) * f ≤ w := by
      have : ((f * f : ℕ) : ℚ) ≤ (N : ℚ) := by exact_mod_cast hf1
      push_cast at this
      linarith
    have hf2q : w < ((f : ℚ) + 1) * ((f : ℚ) + 1) := by
      have : ((N + 1 : ℕ) : ℚ) ≤ (((f + 1) * (f + 1) : ℕ) : ℚ) := by exact_mod_cast hf2
      push_cast at this
      linarith
    have hf52q : (2 : ℚ) ^ 52 ≤ (f : ℚ) := by exact_mod_cast hf52
    have key : ∀ m : ℕ, (f : ℚ) ≤ (m : ℚ) → (2 * (m : ℚ) - 1) ^ 2 ≤ 4 * w →
        4 * w ≤ (2 * (m : ℚ) + 1) ^ 2 →
        0 ≤ (m : ℚ) * scale ∧
        ∃ h : ℚ, 0 ≤ h ∧ h ≤ (m : ℚ) * scale / 2 ^ 53 ∧
          ((m : ℚ) * scale - h) ^ 2 ≤ v ∧ v ≤ ((m : ℚ) * scale + h) ^ 2 := by
      intro m hm h1 h2
      have hm0 : (0 : ℚ) ≤ m := Nat.cast_nonneg m
      have hs2 : 0 ≤ scale ^ 2 := sq_nonneg _
      refine ⟨mul_nonneg hm0 (le_of_lt hscale), scale / 2, by positivity, ?_, ?_, ?_⟩
      · have hm52 : (2 : ℚ) ^ 52 ≤ (m : ℚ) := le_trans hf52q hm
        have e : (m : ℚ) * scale / 2 ^ 53 - scale / 2 = ((m : ℚ) - 2 ^ 52) * scale / 2 ^ 53 := by
          ring
        have : 0 ≤ ((m : ℚ) - 2 ^ 52) * scale / 2 ^ 53 :=
          div_nonneg (mul_nonneg (by linarith) (le_of_lt hscale)) (by positivity)
        linarith
      · have e : ((m : ℚ) * scale - scale / 2) ^ 2 = (2 * (m : ℚ) - 1) ^ 2 / 4 * scale ^ 2 := by
          ring
        rw [e, hvw]
        apply mul_le_mul_of_nonneg_right _ hs2
        linarith
      · have e : ((m : ℚ) * scale + scale / 2) ^ 2 = (2 * (m : ℚ) + 1) ^ 2 / 4 * scale ^ 2 := by
          ring
        rw [e, hvw]
        apply mul_le_mul_of_nonneg_right _ hs2
        linarith
    have hf0 : (0 : ℚ) ≤ f := Nat.cast_nonneg f
    have hf1' : (1 : ℚ) ≤ f := le_trans (by norm_num) hf52q
    have hlow : (2 * (f : ℚ) - 1) ^ 2 ≤ 4 * w := by
      have e : (2 * (f : ℚ) - 1) ^ 2 = 4 * ((f : ℚ) * f) - 4 * f + 1 := by ring
      rw [e]
      linarith
    have hhigh : 4 * w ≤ (2 * ((f : ℚ) + 1) + 1) ^ 2 := by
      have e : (2 * ((f : ℚ) + 1) + 1) ^ 2 =
          4 * (((f : ℚ) + 1) * ((f : ℚ) + 1)) + 4 * f + 5 := by ring
      rw [e]
      linarith
    have hmid : 2 * ((f : ℚ) + 1) - 1 = 2 * (f : ℚ) + 1 := by ring
    have hsucc : (f : ℚ) ≤ ((f + 1 : ℕ) : ℚ) := by
      push_cast
      linarith
    have hcast : ((f + 1 : ℕ) : ℚ) = (f : ℚ) + 1 := by push_cast; ring
    split_ifs with ha hb hc
    · exact key f (le_refl _) hlow (le_of_lt ha)
    · have h := key (f + 1) hsucc (by rw [hcast, hmid]; exact le_of_lt hb)
        (by rw [hcast]; exact hhigh)
      exact h
    · push_neg at ha hb
      exact key f (le_refl _) hlow hb
    · push_neg at ha hb
      have h := key (f + 1) hsucc (by rw [hcast, hmid]; exact ha)
        (by rw [hcast]; exact hhigh)
      exact h
/-- The mean of at most 1000 integers, rounded to a double and then to two decimals by
`toFixed(2)`, is a two-decimal number nearest to the mean itself: the mean is a fraction
with a denominator of at most 1000, so it is either half-way between two hundredths or
farther from the half-way point than the double is from the mean. -/
theorem toFixed2_mean_nearest (sum : ℤ) (n : ℕ) (hn : 0 < n) (hn1000 : n ≤ 1000) (A : ℚ)
    (hA0 : 0 ≤ A) (hA : |A - (sum : ℚ) / n| ≤ 5 / 2 ^ 53) :
    IsNearestHundredth (toFixed2 A) ((sum : ℚ) / n) := by
  have hnq : (0 : ℚ) < n := by exact_mod_cast hn
  have hnle : (n : ℚ) ≤ 1000 := by exact_mod_cast hn1000
  have hA' := abs_le.mp hA
  have h1 := Int.floor_le (A * 100 + 1 / 2)
  have h2 := Int.lt_floor_add_one (A * 100 + 1 / 2)
  have hcell : toFixed2 A = ((⌊A * 100 + 1 / 2⌋ : ℤ) : ℚ) / 100 := by
    unfold toFixed2
    rw [if_neg (not_lt.mpr hA0)]
  rw [hcell]
  generalize ⌊A * 100 + 1 / 2⌋ = k at h1 h2
  refine ⟨⟨k, rfl⟩, ?_⟩
  have hsmall : (200 : ℚ) * (5 / 2 ^ 53) < 1 / 1000 := by norm_num
  have hinv : (1 : ℚ) / 1000 ≤ 1 / n := one_div_le_one_div_of_le hnq hnle
  have hμ : (sum : ℚ) / n * n = sum := by field_simp
  rw [abs_le]
  constructor
  · by_contra hcon
    push_neg at hcon
    have hlt : (200 : ℚ) * sum < (2 * (k : ℚ) - 1) * n := by
      have : (200 : ℚ) * ((sum : ℚ) / n) * n < (2 * (k : ℚ) - 1) * n :=
        mul_lt_mul_of_pos_right (by linarith) hnq
      rw [mul_assoc, hμ] at this
      exact this
    have hint : 200 * sum < (2 * k - 1) * n := by exact_mod_cast hlt
    have hint2 : 200 * sum + 1 ≤ (2 * k - 1) * n := by omega
    have hq : (200 : ℚ) * sum + 1 ≤ (2 * (k : ℚ) - 1) * n := by exact_mod_cast hint2
    have hdiv : (200 : ℚ) * ((sum : ℚ) / n) + 1 / n ≤ 2 * (k : ℚ) - 1 := by
      have e : (200 : ℚ) * ((sum : ℚ) / n) + 1 / n = ((200 : ℚ) * sum + 1) / n := by
        field_simp
      rw [e, div_le_iff₀ hnq]
      exact hq
    linarith [hA'.1, hA'.2]
  · by_contra hcon
    push_neg at hcon
    have hlt : (2 * (k : ℚ) + 1) * n < (200 : ℚ) * sum := by
      have : (2 * (k : ℚ) + 1) * n < (200 : ℚ) * ((sum : ℚ) / n) * n :=
        mul_lt_mul_of_pos_right (by linarith) hnq
      rw [mul_assoc, hμ] at this
      exact this
    have hint : (2 * k + 1) * n < 200 * sum := by exact_mod_cast hlt
    have hint2 : (2 * k + 1) * n + 1 ≤ 200 * sum := by omega
    have hq : (2 * (k : ℚ) + 1) * n + 1 ≤ (200 : ℚ) * sum := by exact_mod_cast hint2
    have hdiv : 2 * (k : ℚ) + 1 + 1 / n ≤ (200 : ℚ) * ((sum : ℚ) / n) := by
      have e : (200 : ℚ) * ((sum : ℚ) / n) = ((200 : ℚ) * sum) / n := by
        field_simp
      have e2 : 2 * (k : ℚ) + 1 + 1 / n = ((2 * (k : ℚ) + 1) * n + 1) / n := by
        field_simp
      rw [e, e2]
      exact div_le_div_of_nonneg_right hq (le_of_lt hnq)
    linarith [hA'.1, hA'.2]
/-- A double `v` within `2 ^ -37` of a variance `V / n ^ 2` of at most 1000 integers, its
double square root written by `toFixed(2)`, gives a two-decimal number nearest to the square
root of the variance itself. -/
theorem toFixed2_sqrtDouble_nearest (V : ℤ) (n : ℕ) (hn : 0 < n) (hn1000 : n ≤ 1000)
    (hV16 : (V : ℚ) / (n : ℚ) ^ 2 ≤ 16) (v : ℚ) (hv0 : 0 ≤ v)
    (hv : |v - (V : ℚ) / (n : ℚ) ^ 2| ≤ 1 / 2 ^ 37) :
    IsNearestHundredthOfSqrt (toFixed2 (sqrtDouble v)) ((V : ℚ) / (n : ℚ) ^ 2) := by
  have hnq : (0 : ℚ) < n := by exact_mod_cast hn
  have hnle : (n : ℚ) ≤ 1000 := by exact_mod_cast hn1000
  have hn2 : (0 : ℚ) < (n : ℚ) ^ 2 := by positivity
  have hn2le : (n : ℚ) ^ 2 ≤ 1000 ^ 2 := pow_le_pow_left₀ (le_of_lt hnq) hnle 2
  have hgapn : (1 : ℚ) / (40000 * 1000 ^ 2) ≤ 1 / (40000 * (n : ℚ) ^ 2) :=
    one_div_le_one_div_of_le (by positivity) (by linarith)
  have hv' := abs_le.mp hv
  obtain ⟨hr0, h, hh0, hhr, hlo, hhi⟩ := sqrtDouble_spec v hv0
  have h1 := Int.floor_le (sqrtDouble v * 100 + 1 / 2)
  have h2 := Int.lt_floor_add_one (sqrtDouble v * 100 + 1 / 2)
  have hk0 : (0 : ℤ) ≤ ⌊sqrtDouble v * 100 + 1 / 2⌋ := Int.floor_nonneg.mpr (by positivity)
  have hcell : toFixed2 (sqrtDouble v) = ((⌊sqrtDouble v * 100 + 1 / 2⌋ : ℤ) : ℚ) / 100 := by
    unfold toFixed2
    rw [if_neg (not_lt.mpr hr0)]
  rw [hcell]
  generalize sqrtDouble v = r at hr0 hhr hlo hhi h1 h2 hk0
  generalize ⌊r * 100 + 1 / 2⌋ = k at h1 h2 hk0
  have hkq : (0 : ℚ) ≤ k := by exact_mod_cast hk0
  have hσ : (V : ℚ) / (n : ℚ) ^ 2 * (n : ℚ) ^ 2 = V := by field_simp
  have hu : (0 : ℚ) < 1 / 2 ^ 53 := by positivity
  refine ⟨⟨k.toNat, ?_⟩, ?_, ?_⟩
  · have hcast : ((k.toNat : ℕ) : ℚ) = (k : ℚ) := by
      have hz : ((k.toNat : ℕ) : ℤ) = k := Int.toNat_of_nonneg hk0
      have := congrArg (fun z : ℤ => (z : ℚ)) hz
      simpa only [Int.cast_natCast] using this
    rw [hcast]
  · by_contra hcon
    push_neg at hcon
    have ht : (k : ℚ) / 100 + 1 / 200 = (2 * (k : ℚ) + 1) / 200 := by ring
    rw [ht] at hcon
    have ht0 : (0 : ℚ) ≤ (2 * (k : ℚ) + 1) / 200 := by positivity
    have hrt : r ≤ (2 * (k : ℚ) + 1) / 200 := by linarith
    have hlt : (2 * (k : ℚ) + 1) ^ 2 * (n : ℚ) ^ 2 < 40000 * (V : ℚ) := by
      have h3 := mul_lt_mul_of_pos_right hcon hn2
      rw [hσ] at h3
      have e : ((2 * (k : ℚ) + 1) / 200) ^ 2 * (n : ℚ) ^ 2 =
          (2 * (k : ℚ) + 1) ^ 2 * (n : ℚ) ^ 2 / 40000 := by ring
      rw [e, div_lt_iff₀ (by norm_num)] at h3
      linarith
    have hint : (2 * k + 1) ^ 2 * (n : ℤ) ^ 2 < 40000 * V := by exact_mod_cast hlt
    have hint2 : (2 * k + 1) ^ 2 * (n : ℤ) ^ 2 + 1 ≤ 40000 * V :=
      Int.add_one_le_iff.mpr hint
    have hq : (2 * (k : ℚ) + 1) ^ 2 * (n : ℚ) ^ 2 + 1 ≤ 40000 * (V : ℚ) := by
      exact_mod_cast hint2
    have hgap : ((2 * (k : ℚ) + 1) / 200) ^ 2 + 1 / (40000 * (n : ℚ) ^ 2) ≤
        (V : ℚ) / (n : ℚ) ^ 2 := by
      have e : ((2 * (k : ℚ) + 1) / 200) ^ 2 + 1 / (40000 * (n : ℚ) ^ 2) =
          ((2 * (k : ℚ) + 1) ^ 2 * (n : ℚ) ^ 2 + 1) / 40000 / (n : ℚ) ^ 2 := by
        field_simp
        ring
      rw [e]
      apply div_le_div_of_nonneg_right _ (le_of_lt hn2)
      rw [div_le_iff₀ (by norm_num)]
      linarith
    have ht16 : ((2 * (k : ℚ) + 1) / 200) ^ 2 ≤ 16 := by linarith
    have hrh : r + h ≤ (2 * (k : ℚ) + 1) / 200 * (1 + 1 / 2 ^ 53) := by
      have : r / 2 ^ 53 ≤ (2 * (k : ℚ) + 1) / 200 / 2 ^ 53 :=
        div_le_div_of_nonneg_right hrt (by positivity)
      have e : (2 * (k : ℚ) + 1) / 200 * (1 + 1 / 2 ^ 53) =
          (2 * (k : ℚ) + 1) / 200 + (2 * (k : ℚ) + 1) / 200 / 2 ^ 53 := by ring
      rw [e]
      linarith
    have hsq : (r + h) ^ 2 ≤ ((2 * (k : ℚ) + 1) / 200 * (1 + 1 / 2 ^ 53)) ^ 2 :=
      pow_le_pow_left₀ (by linarith) hrh 2
    have e2 : ((2 * (k : ℚ) + 1) / 200 * (1 + 1 / 2 ^ 53)) ^ 2 =
        ((2 * (k : ℚ) + 1) / 200) ^ 2 +
          ((2 * (k : ℚ) + 1) / 200) ^ 2 * (2 / 2 ^ 53 + 1 / 2 ^ 106) := by ring
    have hprod : ((2 * (k : ℚ) + 1) / 200) ^ 2 * (2 / 2 ^ 53 + 1 / 2 ^ 106) ≤
        16 * (2 / 2 ^ 53 + 1 / 2 ^ 106) :=
      mul_le_mul_of_nonneg_right ht16 (by positivity)
    have hconst : (16 : ℚ) * (2 / 2 ^ 53 + 1 / 2 ^ 106) + 1 / 2 ^ 37 <
        1 / (40000 * 1000 ^ 2) := by norm_num
    linarith [hv'.1, hv'.2]
  · rcases eq_or_lt_of_le hk0 with hk | hk
    · left
      rw [← hk]
      norm_num
    · right
      by_contra hcon
      push_neg at hcon
      have hk1 : (1 : ℚ) ≤ k := by
        have : (1 : ℤ) ≤ k := hk
        exact_mod_cast this
      have ht : (k : ℚ) / 100 - 1 / 200 = (2 * (k : ℚ) - 1) / 200 := by ring
      rw [ht] at hcon
      have ht0 : (0 : ℚ) ≤ (2 * (k : ℚ) - 1) / 200 :=
        div_nonneg (by linarith) (by norm_num)
      have hrt : (2 * (k : ℚ) - 1) / 200 ≤ r := by linarith
      have hlt : 40000 * (V : ℚ) < (2 * (k : ℚ) - 1) ^ 2 * (n : ℚ) ^ 2 := by
        have h3 := mul_lt_mul_of_pos_right hcon hn2
        rw [hσ] at h3
        have e : ((2 * (k : ℚ) - 1) / 200) ^ 2 * (n : ℚ) ^ 2 =
            (2 * (k : ℚ) - 1) ^ 2 * (n : ℚ) ^ 2 / 40000 := by ring
        rw [e, lt_div_iff₀ (by norm_num)] at h3
        linarith
      have hint : 40000 * V < (2 * k - 1) ^ 2 * (n : ℤ) ^ 2 := by exact_mod_cast hlt
      have hint2 : 40000 * V + 1 ≤ (2 * k - 1) ^ 2 * (n : ℤ) ^ 2 :=
        Int.add_one_le_iff.mpr hint
      have hq : 40000 * (V : ℚ) + 1 ≤ (2 * (k : ℚ) - 1) ^ 2 * (n : ℚ) ^ 2 := by
        exact_mod_cast hint2
      have hgap : (V : ℚ) / (n : ℚ) ^ 2 + 1 / (40000 * (n : ℚ) ^ 2) ≤
          ((2 * (k : ℚ) - 1) / 200) ^ 2 := by
        have e : (V : ℚ) / (n : ℚ) ^ 2 + 1 / (40000 * (n : ℚ) ^ 2) =
            (40000 * (V : ℚ) + 1) / 40000 / (n : ℚ) ^ 2 := by
          field_simp
          ring
        have e3 : ((2 * (k : ℚ) - 1) / 200) ^ 2 =
            (2 * (k : ℚ) - 1) ^ 2 * (n : ℚ) ^ 2 / 40000 / (n : ℚ) ^ 2 := by
          field_simp
          ring
        rw [e, e3]
        apply div_le_div_of_nonneg_right _ (le_of_lt hn2)
        exact div_le_div_of_nonneg_right hq (by norm_num)
      have hrh : (2 * (k : ℚ) - 1) / 200 * (1 - 1 / 2 ^ 53) ≤ r - h := by
        have : (2 * (k : ℚ) - 1) / 200 * (1 - 1 / 2 ^ 53) ≤ r * (1 - 1 / 2 ^ 53) :=
          mul_le_mul_of_nonneg_right hrt (by norm_num)
        have e : r * (1 - 1 / 2 ^ 53) = r - r / 2 ^ 53 := by ring
        rw [e] at this
        linarith
      have hsq : ((2 * (k : ℚ) - 1) / 200 * (1 - 1 / 2 ^ 53)) ^ 2 ≤ (r - h) ^ 2 :=
        pow_le_pow_left₀ (mul_nonneg ht0 (by norm_num)) hrh 2
      have e2 : ((2 * (k : ℚ) - 1) / 200 * (1 - 1 / 2 ^ 53)) ^ 2 =
          ((2 * (k : ℚ) - 1) / 200) ^ 2 -
            ((2 * (k : ℚ) - 1) / 200) ^ 2 * (2 / 2 ^ 53 - 1 / 2 ^ 106) := by ring
      have hv17 : v ≤ 17 := by
        have : (1 : ℚ) / 2 ^ 37 ≤ 1 := by norm_num
        linarith [hv'.2]
      have ht18 : ((2 * (k : ℚ) - 1) / 200) ^ 2 ≤ 18 := by
        by_contra hbig
        push_neg at hbig
        have hc : (0 : ℚ) ≤ 2 / 2 ^ 53 - 1 / 2 ^ 106 := by norm_num
        have hc1 : (2 : ℚ) / 2 ^ 53 - 1 / 2 ^ 106 ≤ 1 / 18 := by norm_num
        have hm : ((2 * (k : ℚ) - 1) / 200) ^ 2 * (2 / 2 ^ 53 - 1 / 2 ^ 106) ≤
            ((2 * (k : ℚ) - 1) / 200) ^ 2 * (1 / 18) :=
          mul_le_mul_of_nonneg_left hc1 (sq_nonneg _)
        linarith
      have hprod : ((2 * (k : ℚ) - 1) / 200) ^ 2 * (2 / 2 ^ 53 - 1 / 2 ^ 106) ≤
          18 * (2 / 2 ^ 53 - 1 / 2 ^ 106) :=
        mul_le_mul_of_nonneg_right ht18 (by norm_num)
      have hconst : (18 : ℚ) * (2 / 2 ^ 53 - 1 / 2 ^ 106) + 1 / 2 ^ 37 <
          1 / (40000 * 1000 ^ 2) := by norm_num
      linarith [hv'.1, hv'.2]
theorem sum_sq_sub (c : ℚ) (S : List ℚ) :
    (S.map (fun score => (score - c) ^ 2)).sum =
      (S.map (fun score => score ^ 2)).sum - 2 * c * S.sum + S.length * c ^ 2 := by
  induction S with
  | nil => simp
  | cons s rest ih =>
    simp only [List.map_cons, List.sum_cons, List.length_cons, ih]
    push_cast
    ring

/-- The population variance as a fraction: `(n * Σ s² - (Σ s)²) / n²`. -/
theorem meanSquaredDeviation_eq (S : List ℚ) (hne : S ≠ []) :
    meanSquaredDeviation S =
      (S.length * (S.map (fun score => score ^ 2)).sum - S.sum ^ 2) / (S.length : ℚ) ^ 2 := by
  have hpos : (0 : ℚ) < S.length := by
    have : 0 < S.length := List.length_pos.mpr hne
    exact_mod_cast this
  have hne0 : (S.length : ℚ) ≠ 0 := ne_of_gt hpos
  unfold meanSquaredDeviation
  rw [sum_sq_sub]
  field_simp
  ring

/-- The sum and the sum of squares of integer scores are integers. -/
theorem scoreList_sums (S : List ℚ) (hS : IsScoreList S) :
    ∃ a b : ℤ, S.sum = (a : ℚ) ∧ (S.map (fun score => score ^ 2)).sum = (b : ℚ) := by
  induction S with
  | nil => exact ⟨0, 0, by simp, by simp⟩
  | cons s rest ih =>
    obtain ⟨n, -, -, hn⟩ := hS s (List.mem_cons_self _ _)
    obtain ⟨a, b, ha, hb⟩ := ih (fun x hx => hS x (List.mem_cons_of_mem _ hx))
    refine ⟨n + a, n ^ 2 + b, ?_, ?_⟩
    · rw [List.sum_cons, ha, hn]
      push_cast
      ring
    · rw [List.map_cons, List.sum_cons, hb, hn]
      push_cast
      ring

/-- The population variance of scores between 1 and 5 is at most 16. -/
theorem meanSquaredDeviation_le (S : List ℚ) (hS : IsScoreList S) (hne : S ≠ []) :
    meanSquaredDeviation S ≤ 16 := by
  have hpos : (0 : ℚ) < S.length := by
    have : 0 < S.length := List.length_pos.mpr hne
    exact_mod_cast this
  have hμ := scoreList_mean_bounds S hS hne
  have hb := scoreList_bounds S hS
  have h := sum_le_length_mul 16 (S.map (fun score => (score - S.sum / S.length) ^ 2)) (by
    intro y hy
    obtain ⟨s, hs, rfl⟩ := List.mem_map.mp hy
    have h1 := hb s hs
    have habs : |s - S.sum / S.length| ≤ 4 := by
      rw [abs_le]
      constructor <;> linarith [h1.1, h1.2, hμ.1, hμ.2]
    have e : (s - S.sum / S.length) ^ 2 = |s - S.sum / S.length| ^ 2 := (sq_abs _).symm
    rw [e]
    have h0 : 0 ≤ |s - S.sum / S.length| := abs_nonneg _
    nlinarith)
  rw [List.length_map] at h
  unfold meanSquaredDeviation
  rw [div_le_iff₀ hpos]
  linarith

/-- An integer score is a multiple of 1/8 of magnitude at most 5. -/
theorem scoreList_eighths (S : List ℚ) (hS : IsScoreList S) :
    ∀ x ∈ S, ∃ k : ℤ, |k| ≤ 40 ∧ x = (k : ℚ) / 8 := by
  intro x hx
  obtain ⟨n, h1, h5, rfl⟩ := hS x hx
  refine ⟨8 * n, ?_, by push_cast; ring⟩
  rw [abs_le]
  constructor <;> linarith

/-- The mean the export computes for at most 1000 integer scores in 1..5 is the double
nearest to their mean. -/
theorem exportAvg_of_scores (S : List ℚ) (hS : IsScoreList S) (hne : S ≠ [])
    (hlen : S.length ≤ 1000) :
    exportAvg S = roundDouble (S.sum / S.length) ∧ 0 ≤ exportAvg S ∧
    |exportAvg S - S.sum / S.length| ≤ 5 / 2 ^ 53 := by
  have hμ := scoreList_mean_bounds S hS hne
  have havg : exportAvg S = roundDouble (S.sum / S.length) := by
    unfold exportAvg
    rw [foldl_addDouble_exact S (scoreList_eighths S hS) (le_trans hlen (by norm_num))]
  have hμ0 : 0 ≤ S.sum / S.length := by linarith [hμ.1]
  have hnormal : (2 : ℚ) ^ (-1022 : ℤ) ≤ |S.sum / S.length| := by
    rw [abs_of_nonneg hμ0]
    have h1 : (2 : ℚ) ^ (-1022 : ℤ) ≤ (2 : ℚ) ^ (0 : ℤ) :=
      zpow_le_zpow_right₀ (by norm_num) (by norm_num)
    rw [zpow_zero] at h1
    linarith [hμ.1]
  have herr := abs_roundDouble_sub_le_rel _ hnormal
  rw [abs_of_nonneg hμ0] at herr
  refine ⟨havg, ?_, ?_⟩
  · rw [havg]
    exact roundDouble_nonneg _ hμ0
  · rw [havg]
    calc |roundDouble (S.sum / S.length) - S.sum / S.length|
        ≤ S.sum / S.length / 2 ^ 53 := herr
      _ ≤ 5 / 2 ^ 53 := div_le_div_of_nonneg_right hμ.2 (by positivity)

/-- The row the export writes for at most 1000 integer scores in 1..5 gives, to two
decimals, their mean and their population standard deviation. -/
theorem statisticsRow_of_scores (name : String) (S : List ℚ) (row : StatsRow)
    (h : statisticsRow name S = some row) (hS : IsScoreList S) (hlen : S.length ≤ 1000) :
    IsMeanAndDeviationOf row S := by
  cases S with
  | nil => simp [statisticsRow] at h
  | cons x xs =>
    have hne : x :: xs ≠ [] := List.cons_ne_nil _ _
    have hpos : 0 < (x :: xs).length := List.length_pos.mpr hne
    simp only [statisticsRow, Option.some.injEq] at h
    subst h
    obtain ⟨-, hA0, hA⟩ := exportAvg_of_scores (x :: xs) hS hne hlen
    obtain ⟨a, b, ha, hb⟩ := scoreList_sums (x :: xs) hS
    obtain ⟨hv0, hv⟩ := exportVariance_error (x :: xs) hS hne hlen _ hA
    have hmsd : meanSquaredDeviation (x :: xs) =
        (((((x :: xs).length : ℕ) : ℤ) * b - a ^ 2 : ℤ) : ℚ) /
          (((x :: xs).length : ℕ) : ℚ) ^ 2 := by
      rw [meanSquaredDeviation_eq _ hne, ha, hb]
      push_cast
      rfl
    refine ⟨?_, ?_⟩
    · show IsNearestHundredth (toFixed2 (exportAvg (x :: xs))) _
      rw [ha]
      rw [ha] at hA
      exact toFixed2_mean_nearest a _ hpos hlen _ hA0 hA
    · show IsNearestHundredthOfSqrt
        (toFixed2 (sqrtDouble (exportVariance (x :: xs) (exportAvg (x :: xs))))) _
      have h16 := meanSquaredDeviation_le (x :: xs) hS hne
      rw [hmsd] at hv h16 ⊢
      exact toFixed2_sqrtDouble_nearest _ _ hpos hlen h16 _ hv0 hv

theorem meanSquaredDeviation_perm {s1 s2 : List ℚ} (h : s1.Perm s2) :
    meanSquaredDeviation s1 = meanSquaredDeviation s2 := by
  unfold meanSquaredDeviation
  rw [h.sum_eq, h.length_eq,
    (h.map (fun score => (score - s2.sum / (s2.length : ℚ)) ^ 2)).sum_eq]

/-- Giving the mean and deviation of a list of scores does not depend on their order. -/
theorem IsMeanAndDeviationOf_perm (row : StatsRow) {s1 s2 : List ℚ} (h : s1.Perm s2)
    (hs : IsMeanAndDeviationOf row s1) : IsMeanAndDeviationOf row s2 := by
  obtain ⟨havg, hstd⟩ := hs
  refine ⟨?_, ?_⟩
  · rw [← h.sum_eq, ← h.length_eq]
    exact havg
  · rw [← meanSquaredDeviation_perm h]
    exact hstd

/-- The row the export writes for a dimension holds its name and the least and the greatest
of its scores. -/
theorem statisticsRow_min_max (name : String) (S : List ℚ) (row : StatsRow)
    (h : statisticsRow name S = some row) :
    row.dimension = name ∧ IsMinAndMaxOf row S := by
  cases S with
  | nil => simp [statisticsRow] at h
  | cons x xs =>
    simp only [statisticsRow, Option.some.injEq] at h
    subst h
    exact ⟨rfl, mathMin_spec x xs, mathMax_spec x xs⟩

theorem IsMinAndMaxOf_perm (row : StatsRow) {s1 s2 : List ℚ} (h : s1.Perm s2)
    (hs : IsMinAndMaxOf row s1) : IsMinAndMaxOf row s2 := by
  obtain ⟨⟨hminm, hmin⟩, ⟨hmaxm, hmax⟩⟩ := hs
  exact ⟨⟨h.mem_iff.mp hminm, fun y hy => hmin y (h.mem_iff.mpr hy)⟩,
    ⟨h.mem_iff.mp hmaxm, fun y hy => hmax y (h.mem_iff.mpr hy)⟩⟩

theorem IsScoreList_perm {s1 s2 : List ℚ} (h : s1.Perm s2) (hs : IsScoreList s2) :
    IsScoreList s1 :=
  fun s hmem => hs s (h.mem_iff.mp hmem)
theorem forall₂_dimension_names (P : (AssessmentRow → Option ℚ) × String → StatsRow → Prop)
    (ds : List ((AssessmentRow → Option ℚ) × String)) (rows : List StatsRow)
    (h : List.Forall₂ (fun d row => row.dimension = d.2 ∧ P d row) ds rows) :
    rows.map (fun row => row.dimension) = ds.map (fun d => d.2) := by
  induction h with
  | nil => rfl
  | cons hR _ ih =>
    simp only [List.map_cons, hR.1, ih]

theorem roundDouble_forty_one_fortieths :
    roundDouble (41 / 40) = 4616189618054758 / 2 ^ 52 := by
  rw [roundDouble_eval (41 / 40) 0 4616189618054758 (by norm_num) (by norm_num)
    (by norm_num) (by norm_num [abs_lt])]
  norm_num

/-- The double mean of thirty-nine ones and a two is the double nearest to 41/40, which is
below it. -/
theorem exportAvg_fortyScores : exportAvg fortyScores = 4616189618054758 / 2 ^ 52 := by
  have hmem : ∀ x ∈ fortyScores, ∃ k : ℤ, |k| ≤ 40 ∧ x = (k : ℚ) / 8 := by
    intro x hx
    unfold fortyScores at hx
    rcases List.mem_append.mp hx with h | h
    · rw [List.eq_of_mem_replicate h]
      exact ⟨8, by norm_num, by norm_num⟩
    · rw [List.mem_singleton.mp h]
      exact ⟨16, by norm_num, by norm_num⟩
  have hlen : fortyScores.length = 40 := by simp [fortyScores]
  have hsum : fortyScores.sum = 41 := by
    simp [fortyScores, List.sum_replicate]
    norm_num
  unfold exportAvg
  rw [foldl_addDouble_exact fortyScores hmem (by rw [hlen]; norm_num), hsum, hlen]
  rw [← roundDouble_forty_one_fortieths]
  norm_num

theorem exportAvg_one_one_two : exportAvg [1, 1, 2] = 6004799503160661 / 2 ^ 52 := by
  have hmem : ∀ x ∈ ([1, 1, 2] : List ℚ), ∃ k : ℤ, |k| ≤ 40 ∧ x = (k : ℚ) / 8 := by
    intro x hx
    simp only [List.mem_cons, List.mem_singleton, List.not_mem_nil, or_false] at hx
    rcases hx with rfl | rfl | rfl
    · exact ⟨8, by norm_num, by norm_num⟩
    · exact ⟨8, by norm_num, by norm_num⟩
    · exact ⟨16, by norm_num, by norm_num⟩
  unfold exportAvg
  rw [foldl_addDouble_exact _ hmem (by norm_num)]
  rw [← roundDouble_four_thirds]
  norm_num

/-- On columns of scores, SQL `AVG` does not depend on the order of the rows. -/
theorem sqlAvg_perm_of_scores {c1 c2 : List (Option ℚ)} (h : c1.Perm c2)
    (hs : IsScoreColumn c1) (hne : c1 ≠ []) (hlen : c1.length ≤ 2 ^ 47) :
    sqlAvg c1 = sqlAvg c2 := by
  have hs2 : IsScoreColumn c2 := fun v hv => hs v (h.mem_iff.mpr hv)
  have hne2 : c2 ≠ [] := by
    intro h0
    rw [h0] at h
    exact hne h.eq_nil
  obtain ⟨-, d1, h1, e1, -⟩ := sqlAvg_isRoundedMeanOverRows c1 hne hlen hs
  obtain ⟨-, d2, h2, e2, -⟩ :=
    sqlAvg_isRoundedMeanOverRows c2 hne2 (by rw [← h.length_eq]; exact hlen) hs2
  rw [h1, h2, e1, e2, (h.filterMap id).sum_eq, h.length_eq]

theorem sum_sq_nonneg (c : ℚ) (scores : List ℚ) :
    0 ≤ (scores.map (fun score => (score - c) ^ 2)).sum := by
  induction scores with
  | nil => simp
  | cons y ys ih =>
    simp only [List.map_cons, List.sum_cons]
    have := sq_nonneg (y - c)
    linarith

theorem sum_sq_eq_zero_iff (c : ℚ) (scores : List ℚ) :
    (scores.map (fun score => (score - c) ^ 2)).sum = 0 ↔ ∀ y ∈ scores, y = c := by
  induction scores with
  | nil => simp
  | cons y ys ih =>
    simp only [List.map_cons, List.sum_cons, List.mem_cons, forall_eq_or_imp]
    have h1 := sq_nonneg (y - c)
    have h2 := sum_sq_nonneg c ys
    constructor
    · intro h
      have hy : (y - c) ^ 2 = 0 := by linarith
      have hys : (ys.map (fun score => (score - c) ^ 2)).sum = 0 := by linarith
      exact ⟨by have := pow_eq_zero_iff (two_ne_zero) |>.mp hy; linarith, ih.mp hys⟩
    · rintro ⟨hy, hys⟩
      rw [ih.mpr hys, hy]
      simp

/-- The variance the export computes for equal scores around that score is zero. -/
theorem exportVariance_of_equal (c : ℚ) (S : List ℚ) (h : ∀ y ∈ S, y = c) :
    exportVariance S c = 0 := by
  have hterm : squareDouble (subDouble c c) = 0 := by
    unfold squareDouble subDouble
    rw [sub_self, roundDouble_zero]
    norm_num
    exact roundDouble_zero
  have hfold : S.foldl (fun acc score => addDouble acc (squareDouble (subDouble score c))) 0 =
      0 := by
    induction S with
    | nil => rfl
    | cons y ys ih =>
      rw [List.foldl_cons, h y (List.mem_cons_self _ _), hterm]
      have h0 : addDouble 0 0 = 0 := by
        unfold addDouble
        rw [add_zero, roundDouble_zero]
      rw [h0]
      exact ih (fun z hz => h z (List.mem_cons_of_mem _ hz))
  unfold exportVariance
  rw [hfold, zero_div, roundDouble_zero]

/-- On at most 1000 integer scores in 1..5 the statistics of the export are consistent: the
mean lies between the minimum and the maximum, the variance is not negative, and it is zero
exactly when all the scores are equal. -/
theorem export_statistics_consistent_of_scores (x : ℚ) (xs : List ℚ)
    (hS : IsScoreList (x :: xs)) (hlen : (x :: xs).length ≤ 1000) :
    mathMin x xs ≤ exportAvg (x :: xs) ∧ exportAvg (x :: xs) ≤ mathMax x xs ∧
    0 ≤ exportVariance (x :: xs) (exportAvg (x :: xs)) ∧
    (exportVariance (x :: xs) (exportAvg (x :: xs)) = 0 ↔
      ∀ y ∈ x :: xs, ∀ z ∈ x :: xs, y = z) := by
  have hne : x :: xs ≠ [] := List.cons_ne_nil _ _
  have hpos : 0 < (x :: xs).length := List.length_pos.mpr hne
  have hnq : (0 : ℚ) < ((x :: xs).length : ℕ) := by exact_mod_cast hpos
  have hnle : (((x :: xs).length : ℕ) : ℚ) ≤ 1000 := by exact_mod_cast hlen
  have hinv : (1 : ℚ) / 1000 ≤ 1 / (((x :: xs).length : ℕ) : ℚ) :=
    one_div_le_one_div_of_le hnq hnle
  obtain ⟨havg, hA0, hA⟩ := exportAvg_of_scores (x :: xs) hS hne hlen
  have hA' := abs_le.mp hA
  obtain ⟨a, b, ha, hb⟩ := scoreList_sums (x :: xs) hS
  obtain ⟨hv0, hv⟩ := exportVariance_error (x :: xs) hS hne hlen _ hA
  obtain ⟨hminmem, hmin⟩ := mathMin_spec x xs
  obtain ⟨hmaxmem, hmax⟩ := mathMax_spec x xs
  obtain ⟨lo, -, -, hlo⟩ := hS _ hminmem
  obtain ⟨hi, -, -, hhi⟩ := hS _ hmaxmem
  have hsumlo := length_mul_le_sum (mathMin x xs) (x :: xs) hmin
  have hsumhi := sum_le_length_mul (mathMax x xs) (x :: xs) hmax
  have hsmall : (5 : ℚ) / 2 ^ 53 ≤ 1 / 1000 := by norm_num
  have hμ : (a : ℚ) / (((x :: xs).length : ℕ) : ℚ) * (((x :: xs).length : ℕ) : ℚ) = a := by
    field_simp
  rw [ha] at hsumlo hsumhi hA havg hA'
  rw [hlo] at hsumlo ⊢
  rw [hhi] at hsumhi ⊢
  refine ⟨?_, ?_, hv0, ?_⟩
  · rcases eq_or_lt_of_le hsumlo with heq | hlt
    · have hmean : (a : ℚ) / (((x :: xs).length : ℕ) : ℚ) = ((lo : ℤ) : ℚ) := by
        rw [← heq]
        field_simp
      rw [havg, hmean, roundDouble_intCast lo (by
        have h1 := (hS _ hminmem)
        obtain ⟨m, hm1, hm5, hm⟩ := h1
        have : (lo : ℚ) = (m : ℚ) := by rw [← hlo, hm]
        have hlm : lo = m := by exact_mod_cast this
        rw [hlm, abs_lt]
        constructor <;> linarith)]
    · have hint : ((x :: xs).length : ℤ) * lo < a := by exact_mod_cast hlt
      have hint2 : ((x :: xs).length : ℤ) * lo + 1 ≤ a := Int.add_one_le_iff.mpr hint
      have hq : (((x :: xs).length : ℕ) : ℚ) * lo + 1 ≤ a := by exact_mod_cast hint2
      have hdiv : (lo : ℚ) + 1 / (((x :: xs).length : ℕ) : ℚ) ≤
          (a : ℚ) / (((x :: xs).length : ℕ) : ℚ) := by
        have e : (lo : ℚ) + 1 / (((x :: xs).length : ℕ) : ℚ) =
            ((((x :: xs).length : ℕ) : ℚ) * lo + 1) / (((x :: xs).length : ℕ) : ℚ) := by
          field_simp
          ring
        rw [e]
        exact div_le_div_of_nonneg_right hq (le_of_lt hnq)
      linarith [hA'.1]
  · rcases eq_or_lt_of_le hsumhi with heq | hlt
    · have hmean : (a : ℚ) / (((x :: xs).length : ℕ) : ℚ) = ((hi : ℤ) : ℚ) := by
        rw [heq]
        field_simp
      rw [havg, hmean, roundDouble_intCast hi (by
        have h1 := (hS _ hmaxmem)
        obtain ⟨m, hm1, hm5, hm⟩ := h1
        have : (hi : ℚ) = (m : ℚ) := by rw [← hhi, hm]
        have hlm : hi = m := by exact_mod_cast this
        rw [hlm, abs_lt]
        constructor <;> linarith)]
    · have hint : a < ((x :: xs).length : ℤ) * hi := by exact_mod_cast hlt
      have hint2 : a + 1 ≤ ((x :: xs).length : ℤ) * hi := Int.add_one_le_iff.mpr hint
      have hq : (a : ℚ) + 1 ≤ (((x :: xs).length : ℕ) : ℚ) * hi := by exact_mod_cast hint2
      have hdiv : (a : ℚ) / (((x :: xs).length : ℕ) : ℚ) + 1 / (((x :: xs).length : ℕ) : ℚ) ≤
          (hi : ℚ) := by
        have e : (a : ℚ) / (((x :: xs).length : ℕ) : ℚ) +
            1 / (((x :: xs).length : ℕ) : ℚ) =
            ((a : ℚ) + 1) / (((x :: xs).length : ℕ) : ℚ) := by
          field_simp
        rw [e, div_le_iff₀ hnq]
        linarith
      linarith [hA'.2]
  · constructor
    · intro hzero
      rw [hzero] at hv
      have hmsd := meanSquaredDeviation_eq (x :: xs) hne
      rw [ha, hb] at hmsd
      have hv' := abs_le.mp hv
      have hn2 : (0 : ℚ) < ((((x :: xs).length : ℕ) : ℚ)) ^ 2 := by positivity
      have hn2le : ((((x :: xs).length : ℕ) : ℚ)) ^ 2 ≤ 1000 ^ 2 :=
        pow_le_pow_left₀ (le_of_lt hnq) hnle 2
      have hnonneg : 0 ≤ meanSquaredDeviation (x :: xs) := by
        unfold meanSquaredDeviation
        exact div_nonneg (sum_sq_nonneg _ _) (le_of_lt hnq)
      have hVq : (((((x :: xs).length : ℕ) : ℤ) * b - a ^ 2 : ℤ) : ℚ) =
          (((x :: xs).length : ℕ) : ℚ) * b - (a : ℚ) ^ 2 := by
        push_cast
        rfl
      have hV0 : (((x :: xs).length : ℕ) : ℤ) * b - a ^ 2 = 0 := by
        by_contra hVne
        have hVnonneg : (0 : ℚ) ≤ (((x :: xs).length : ℕ) : ℚ) * b - (a : ℚ) ^ 2 := by
          rw [hmsd] at hnonneg
          by_contra hneg
          push_neg at hneg
          have := div_neg_of_neg_of_pos hneg hn2
          linarith
        have hVint : (0 : ℤ) ≤ (((x :: xs).length : ℕ) : ℤ) * b - a ^ 2 := by
          rw [← hVq] at hVnonneg
          exact_mod_cast hVnonneg
        have hV1 : (1 : ℤ) ≤ (((x :: xs).length : ℕ) : ℤ) * b - a ^ 2 := by omega
        have hV1q : (1 : ℚ) ≤ (((x :: xs).length : ℕ) : ℚ) * b - (a : ℚ) ^ 2 := by
          rw [← hVq]
          exact_mod_cast hV1
        have hbig : (1 : ℚ) / 1000 ^ 2 ≤ meanSquaredDeviation (x :: xs) := by
          rw [hmsd]
          calc (1 : ℚ) / 1000 ^ 2 ≤ 1 / ((((x :: xs).length : ℕ) : ℚ)) ^ 2 :=
                one_div_le_one_div_of_le hn2 hn2le
            _ ≤ _ := div_le_div_of_nonneg_right hV1q (le_of_lt hn2)
        have hc : (1 : ℚ) / 2 ^ 37 < 1 / 1000 ^ 2 := by norm_num
        linarith [hv'.1]
      have hmsd0 : meanSquaredDeviation (x :: xs) = 0 := by
        rw [hmsd, ← hVq, hV0]
        simp
      have hsum0 : ((x :: xs).map
          (fun score => (score - (x :: xs).sum / ((x :: xs).length : ℕ)) ^ 2)).sum = 0 := by
        unfold meanSquaredDeviation at hmsd0
        rcases div_eq_zero_iff.mp hmsd0 with h0 | h0
        · exact h0
        · exact absurd h0 (ne_of_gt hnq)
      have hall := (sum_sq_eq_zero_iff _ _).mp hsum0
      intro y hy z hz
      rw [hall y hy, hall z hz]
    · intro hall
      have hallx : ∀ y ∈ x :: xs, y = x := fun y hy => hall y hy x (List.mem_cons_self _ _)
      have hsum : (x :: xs).sum = (((x :: xs).length : ℕ) : ℚ) * x := by
        apply le_antisymm
        · exact sum_le_length_mul x _ (fun y hy => le_of_eq (hallx y hy))
        · exact length_mul_le_sum x _ (fun y hy => le_of_eq (hallx y hy).symm)
      obtain ⟨m, hm1, hm5, hm⟩ := hS x (List.mem_cons_self _ _)
      have havgx : exportAvg (x :: xs) = x := by
        rw [havg, ← ha, hsum]
        have e : (((x :: xs).length : ℕ) : ℚ) * x / (((x :: xs).length : ℕ) : ℚ) = x := by
          field_simp
        rw [e, hm]
        exact roundDouble_intCast m (by rw [abs_lt]; constructor <;> linarith)
      rw [havgx]
      exact exportVariance_of_equal x _ hallx

/-! ## Verified claims -/

/-- C1: for every array of eight integer scores each in 1..5, the overall score the submit
handler computes is the exact arithmetic mean (sum divided by 8, no rounding), and when the
submission carries a survey id the handler succeeds and stores exactly one new row whose
overall score is that mean. -/
theorem C1_overall_score_is_exact_mean (db : Store) (now : Nat) (body : AssessmentBody)
    (ns : List ℤ) (hscores : body.scores = .array (intScores ns))
    (hlen : ns.length = 8) (_hrange : ∀ n ∈ ns, 1 ≤ n ∧ n ≤ 5) :
    overallScore (intScores ns) = some (((ns.sum : ℤ) : ℚ) / 8) ∧
    ∀ sid, body.surveyId = some sid →
      ∃ row : AssessmentRow,
        (submitAssessment db now body).1 =
          .json 200 { id := row.id, message := "评估提交成功！" } ∧
        (submitAssessment db now body).2.assessments = db.assessments ++ [row] ∧
        row.overall_score = some (((ns.sum : ℤ) : ℚ) / 8) := by
  have hmean : overallScore (intScores ns) = some (((ns.sum : ℤ) : ℚ) / 8) :=
    overallScore_of_valid ns hlen _hrange
  refine ⟨hmean, fun sid hid => ?_⟩
  obtain ⟨row, hrun, -, hov, -⟩ := submitAssessment_array db now body _ sid hscores hid
  exact ⟨row, by rw [hrun], by rw [hrun], by rw [hov, hmean]⟩

/-- C1 at the test's submission: `[5,4,5,3,4,5,4,5]` gives `35/8 = 4.375`. -/
theorem C1_overall_score_witness :
    overallScore (intScores [5, 4, 5, 3, 4, 5, 4, 5]) =
      some (4.375 : ℚ) ∧
    ∃ row : AssessmentRow,
      (submitAssessment Store.empty 0 janeDoe).2.assessments = [row] ∧
      row.overall_score = some (4.375 : ℚ) := by
  have h := C1_overall_score_is_exact_mean Store.empty 0 janeDoe [5, 4, 5, 3, 4, 5, 4, 5]
    rfl rfl (by decide)
  obtain ⟨h1, h2⟩ := h
  obtain ⟨row, -, hst, hov⟩ := h2 "survey-1" rfl
  have e : (((([5, 4, 5, 3, 4, 5, 4, 5] : List ℤ).sum : ℤ) : ℚ) / 8) = (4.375 : ℚ) := by
    norm_num
  rw [e] at h1 hov
  exact ⟨h1, row, by simpa [Store.empty] using hst, hov⟩

/-- C2: at the test's submission `[1,2,3,4,5,6,7,8]`, whose last three scores exceed 5,
the handler does not answer with the range error: it answers 200 with the new id and stores
the row, out-of-range scores included. -/
theorem C2_out_of_range_scores_are_stored :
    (submitAssessment Store.empty 0
        (testUser (.array (intScores [1, 2, 3, 4, 5, 6, 7, 8])))).1 =
      .json 200 { id := 1, message := "评估提交成功！" } ∧
    (submitAssessment Store.empty 0
        (testUser (.array (intScores [1, 2, 3, 4, 5, 6, 7, 8])))).2.assessments.map
      (fun r => (r.resource_allocation_efficiency, r.continuous_improvement_ability,
        r.information_transmission_effectiveness)) = [(some 6, some 7, some 8)] := by
  constructor
  · decide
  · simp [submitAssessment, insertAssessment, testUser, intScores, Store.empty]

/-- C3: a `scores` array of three elements is not answered with the shape error: the handler
answers 200 and stores a row whose last five dimension columns are `NULL`; a `scores` value
that is a string makes `scores.reduce` throw, which is answered with status 500, not 400. -/
theorem C3_wrong_shape_is_not_rejected_with_400 :
    (submitAssessment Store.empty 0 (testUser (.array (intScores [1, 2, 3])))).1 =
      .json 200 { id := 1, message := "评估提交成功！" } ∧
    (submitAssessment Store.empty 0 (testUser (.array (intScores [1, 2, 3])))).2.assessments.map
      (fun r => (r.team_collaboration_efficiency, r.delivery_quality_stability,
        r.information_transmission_effectiveness)) = [(some 3, none, none)] ∧
    (submitAssessment Store.empty 0 (testUser (.text "invalid-scores"))).1 =
      .uncaught "TypeError: scores.reduce is not a function" ∧
    (submitAssessment Store.empty 0 (testUser (.text "invalid-scores"))).1.status = 500 := by
  refine ⟨by decide, ?_, by decide, by decide⟩
  simp [submitAssessment, insertAssessment, testUser, intScores, Store.empty]

/-- C4: a submission with an empty respondent name, or without a respondent team, is not
answered with the missing-field error: the handler answers 200 and stores the row; a
submission without a survey id is answered with status 500 and the database's constraint
message, not with status 400. -/
theorem C4_missing_fields_are_not_rejected_with_400 :
    (submitAssessment Store.empty 0
        { testUser (.array (intScores [4, 4, 4, 4, 4, 4, 4, 4])) with
          respondentName := some "" }).1 =
      .json 200 { id := 1, message := "评估提交成功！" } ∧
    (submitAssessment Store.empty 0
        { testUser (.array (intScores [1, 2, 3, 4, 5, 1, 2, 3])) with
          respondentTeam := none }).1 =
      .json 200 { id := 1, message := "评估提交成功！" } ∧
    (submitAssessment Store.empty 0
        { testUser (.array (intScores [1, 2, 3, 4, 5, 1, 2, 3])) with
          surveyId := none }).1 =
      .error 500 "SQLITE_CONSTRAINT: NOT NULL constraint failed: assessments.survey_id" := by
  refine ⟨by decide, by decide, by decide⟩

/-- C5: at the test's submission `[3.5, 4.2, 3.8, 4.1, 3.9, 4.3, 3.7, 4.0]` the handler
accepts (status 200) but binds the scores as submitted: the stored first dimension is `3.5`,
not its truncation `3`. -/
theorem C5_non_integer_scores_are_stored_untruncated :
    (submitAssessment Store.empty 0 nonIntegerUser).1 =
      .json 200 { id := 1, message := "评估提交成功！" } ∧
    (submitAssessment Store.empty 0 nonIntegerUser).2.assessments.map
      (fun r => r.project_progress_transparency) = [some (7 / 2)] ∧
    (some (7 / 2) : Option ℚ) ≠ some 3 := by
  have h35 : roundDouble (7 / 2) = 7 / 2 := by
    have h := roundDouble_eighths 28 (by norm_num)
    norm_num at h
    exact h
  refine ⟨by decide, ?_, by norm_num⟩
  simp [submitAssessment, insertAssessment, nonIntegerUser, Store.empty]
  norm_num
  exact h35

/-- C6: whenever the submit handler does not answer with success (a non-array `scores`
value, or a fault reported by the insert), the database after the call is exactly the
database before it: no assessment row and no survey row is added or changed. -/
theorem C6_rejected_submission_leaves_store_unchanged (db : Store) (now : Nat)
    (body : AssessmentBody) (h : (submitAssessment db now body).1.status ≠ 200) :
    (submitAssessment db now body).2 = db :=
  submitAssessment_failure db now body h

/-- C6 at a submission without survey id: it is answered with 500 and nothing is stored. -/
theorem C6_rejected_submission_witness :
    (submitAssessment Store.empty 7 { janeDoe with surveyId := none }).1.status ≠ 200 ∧
    (submitAssessment Store.empty 7 { janeDoe with surveyId := none }).2 = Store.empty :=
  ⟨by decide,
   C6_rejected_submission_leaves_store_unchanged Store.empty 7
     { janeDoe with surveyId := none } (by decide)⟩

/-- C7: create-survey applies no check to the name: a whitespace-only name and a name of 101
characters are both answered with 200 and stored, and an absent name is answered with
status 500 and the database's constraint message, not with status 400. -/
theorem C7_survey_name_is_not_validated :
    (createSurvey Store.empty 0 "id-1" (surveyRequest (some "   "))).1 =
      .json 200 { surveyId := "id-1", surveyName := some "   ",
                  surveyUrl := "http://127.0.0.1/index.html?survey=id-1" } ∧
    (createSurvey Store.empty 0 "id-1" (surveyRequest (some "   "))).2.survey_links =
      [{ id := 1, survey_id := "id-1", survey_name := "   ", created_date := 0,
         is_active := true }] ∧
    (repeatA 101).length = 101 ∧
    (createSurvey Store.empty 0 "id-1" (surveyRequest (some (repeatA 101)))).1.status = 200 ∧
    (createSurvey Store.empty 0 "id-1" (surveyRequest (some (repeatA 101)))).2.survey_links.map
      (fun r => r.survey_name) = [repeatA 101] ∧
    (createSurvey Store.empty 0 "id-1" (surveyRequest none)).1 =
      .error 500 "SQLITE_CONSTRAINT: NOT NULL constraint failed: survey_links.survey_name" := by
  refine ⟨by decide, by decide, by decide, by decide, by decide, by decide⟩

/-- C8: for a survey id that no assessment row references (registered or not), read-summary
succeeds with status 200 and answers `total_responses = 0` with the overall average and all
eight per-dimension averages present and `NULL`; the database is left as it was. -/
theorem C8_summary_without_rows_is_zero_and_null (db : Store) (surveyId : String)
    (h : ∀ r ∈ db.assessments, r.survey_id ≠ surveyId) :
    getSummary db surveyId =
      (.json 200
        { total_responses := 0, average_overall_score := none,
          avg_project_progress := none, avg_requirement_response := none,
          avg_collaboration := none, avg_delivery_quality := none,
          avg_issue_discovery := none, avg_resource_allocation := none,
          avg_improvement := none, avg_information_transmission := none },
       db) := by
  have hrows : rowsOf db surveyId = [] := rowsOf_eq_nil db surveyId h
  unfold getSummary summaryQuery
  rw [hrows]
  simp [sqlAvg]

/-- C8 at the test's id `invalid-survey-id`, which no survey and no assessment carries. -/
theorem C8_summary_without_rows_witness :
    (getSummary (submitAssessment Store.empty 0 janeDoe).2 "invalid-survey-id").1 =
      .json 200
        { total_responses := 0, average_overall_score := none,
          avg_project_progress := none, avg_requirement_response := none,
          avg_collaboration := none, avg_delivery_quality := none,
          avg_issue_discovery := none, avg_resource_allocation := none,
          avg_improvement := none, avg_information_transmission := none } := by
  rw [C8_summary_without_rows_is_zero_and_null (submitAssessment Store.empty 0 janeDoe).2
    "invalid-survey-id" (by decide)]

/-- C9, as stated, fails in two ways. After a three-element submission and a full one to the
same survey, read-summary answers `total_responses = 2` but `avg_delivery_quality = 5`, the
mean over the one row that holds a number in that column, not a mean over the two rows. And
after three valid submissions with scores 1, 1 and 2, `avg_project_progress` is the double
`6004799503160661 / 2 ^ 52` (printed `1.3333333333333333`), not the arithmetic mean `4 / 3`:
the mean is rounded. -/
theorem C9_counterexample_null_column_and_rounding :
    (rowsOf shortThenFull "survey-1" ≠ [] ∧
      (summaryQuery shortThenFull "survey-1").total_responses = 2 ∧
      (rowsOf shortThenFull "survey-1").map (fun r => r.delivery_quality_stability) =
        [none, some 5] ∧
      (summaryQuery shortThenFull "survey-1").avg_delivery_quality = some 5 ∧
      ¬ SummaryIsColumnMeans shortThenFull "survey-1") ∧
    (rowsOf oneOneTwo "survey-1" ≠ [] ∧
      (rowsOf oneOneTwo "survey-1").map (fun r => r.project_progress_transparency) =
        [some 1, some 1, some 2] ∧
      (summaryQuery oneOneTwo "survey-1").avg_project_progress =
        some (6004799503160661 / 2 ^ 52) ∧
      (6004799503160661 / 2 ^ 52 : ℚ) ≠ 4 / 3 ∧
      ¬ SummaryIsColumnMeans oneOneTwo "survey-1") := by
  have hcol : (rowsOf shortThenFull "survey-1").map (fun r => r.delivery_quality_stability) =
      [none, some 5] := by
    simp [shortThenFull, submitAll, submitAssessment, insertAssessment, testUser, intScores,
      Store.empty, rowsOf]
  have hcol2 : (rowsOf oneOneTwo "survey-1").map (fun r => r.project_progress_transparency) =
      [some 1, some 1, some 2] := by
    simp [oneOneTwo, submitAll, submitAssessment, insertAssessment, testUser, intScores,
      Store.empty, rowsOf]
  have havg : sqlAvg [none, some 5] = some 5 := by
    rw [sqlAvg_of_scores _ (by
      intro x hx
      simp only [List.filterMap_cons, List.filterMap_nil, id, List.mem_singleton] at hx
      exact ⟨40, by norm_num, by rw [hx]; norm_num⟩) (by simp) (by simp)]
    have h5 := roundDouble_intCast 5 (by norm_num)
    simp only [List.filterMap_cons, List.filterMap_nil, id, List.sum_cons, List.sum_nil,
      List.length_cons, List.length_nil]
    norm_num
    exact_mod_cast h5
  have havg2 : sqlAvg [some 1, some 1, some 2] = some (6004799503160661 / 2 ^ 52) := by
    rw [sqlAvg_of_scores _ (by
      intro x hx
      simp only [List.filterMap_cons, List.filterMap_nil, id, List.mem_cons,
        List.mem_singleton, List.not_mem_nil, or_false] at hx
      rcases hx with rfl | rfl | rfl
      · exact ⟨8, by norm_num, by norm_num⟩
      · exact ⟨8, by norm_num, by norm_num⟩
      · exact ⟨16, by norm_num, by norm_num⟩) (by simp) (by simp)]
    simp only [List.filterMap_cons, List.filterMap_nil, id, List.sum_cons, List.sum_nil,
      List.length_cons, List.length_nil]
    rw [← roundDouble_four_thirds]
    norm_num
  have hne : (6004799503160661 / 2 ^ 52 : ℚ) ≠ 4 / 3 := by norm_num
  refine ⟨⟨by decide, by decide, hcol, ?_, ?_⟩, by decide, hcol2, ?_, hne, ?_⟩
  · show sqlAvg ((rowsOf shortThenFull "survey-1").map
      (fun r => r.delivery_quality_stability)) = some 5
    rw [hcol, havg]
  · intro hs
    have hd := hs.2.2.2.2.2.1.1
    rw [hcol] at hd
    exact hd none (by simp) rfl
  · show sqlAvg ((rowsOf oneOneTwo "survey-1").map
      (fun r => r.project_progress_transparency)) = some (6004799503160661 / 2 ^ 52)
    rw [hcol2, havg2]
  · intro hs
    have hd := hs.2.2.1.2
    have hq : (summaryQuery oneOneTwo "survey-1").avg_project_progress =
        some (6004799503160661 / 2 ^ 52) := by
      show sqlAvg ((rowsOf oneOneTwo "survey-1").map
        (fun r => r.project_progress_transparency)) = some (6004799503160661 / 2 ^ 52)
      rw [hcol2, havg2]
    rw [hq, hcol2] at hd
    simp only [List.filterMap_cons, List.filterMap_nil, id, List.sum_cons, List.sum_nil,
      List.length_cons, List.length_nil, Option.some.injEq] at hd
    norm_num at hd

/-- C9, amended: for every store and every survey id with at least one and at most `2 ^ 47`
assessment rows, `total_responses` is the number of rows referencing the id, and each of the
nine averages whose column holds a score in every one of those rows (a multiple of 1/8 of
magnitude at most 5, as every integer score in 1..5 and every mean of eight of them is) is
the double nearest to the arithmetic mean of that column over exactly those rows: the mean
rounded once, with a relative error of at most `2 ^ -53`. -/
theorem C9_summary_is_rounded_mean_of_score_columns (db : Store) (surveyId : String)
    (hrows : rowsOf db surveyId ≠ []) (hmany : (rowsOf db surveyId).length ≤ 2 ^ 47) :
    (summaryQuery db surveyId).total_responses = (rowsOf db surveyId).length ∧
    (IsScoreColumn ((rowsOf db surveyId).map (fun r => r.overall_score)) →
      IsRoundedMeanOverRows (summaryQuery db surveyId).average_overall_score
        ((rowsOf db surveyId).map (fun r => r.overall_score))) ∧
    (IsScoreColumn ((rowsOf db surveyId).map (fun r => r.project_progress_transparency)) →
      IsRoundedMeanOverRows (summaryQuery db surveyId).avg_project_progress
        ((rowsOf db surveyId).map (fun r => r.project_progress_transparency))) ∧
    (IsScoreColumn ((rowsOf db surveyId).map (fun r => r.requirement_response_speed)) →
      IsRoundedMeanOverRows (summaryQuery db surveyId).avg_requirement_response
        ((rowsOf db surveyId).map (fun r => r.requirement_response_speed))) ∧
    (IsScoreColumn ((rowsOf db surveyId).map (fun r => r.team_collaboration_efficiency)) →
      IsRoundedMeanOverRows (summaryQuery db surveyId).avg_collaboration
        ((rowsOf db surveyId).map (fun r => r.team_collaboration_efficiency))) ∧
    (IsScoreColumn ((rowsOf db surveyId).map (fun r => r.delivery_quality_stability)) →
      IsRoundedMeanOverRows (summaryQuery db surveyId).avg_delivery_quality
        ((rowsOf db surveyId).map (fun r => r.delivery_quality_stability))) ∧
    (IsScoreColumn ((rowsOf db surveyId).map (fun r => r.issue_discovery_timeliness)) →
      IsRoundedMeanOverRows (summaryQuery db surveyId).avg_issue_discovery
        ((rowsOf db surveyId).map (fun r => r.issue_discovery_timeliness))) ∧
    (IsScoreColumn ((rowsOf db surveyId).map (fun r => r.resource_allocation_efficiency)) →
      IsRoundedMeanOverRows (summaryQuery db surveyId).avg_resource_allocation
        ((rowsOf db surveyId).map (fun r => r.resource_allocation_efficiency))) ∧
    (IsScoreColumn ((rowsOf db surveyId).map (fun r => r.continuous_improvement_ability)) →
      IsRoundedMeanOverRows (summaryQuery db surveyId).avg_improvement
        ((rowsOf db surveyId).map (fun r => r.continuous_improvement_ability))) ∧
    (IsScoreColumn
        ((rowsOf db surveyId).map (fun r => r.information_transmission_effectiveness)) →
      IsRoundedMeanOverRows (summaryQuery db surveyId).avg_information_transmission
        ((rowsOf db surveyId).map (fun r => r.information_transmission_effectiveness))) := by
  have key : ∀ col : AssessmentRow → Option ℚ, IsScoreColumn ((rowsOf db surveyId).map col) →
      IsRoundedMeanOverRows (sqlAvg ((rowsOf db surveyId).map col))
        ((rowsOf db surveyId).map col) := by
    intro col hcol
    exact sqlAvg_isRoundedMeanOverRows _ (by simpa using hrows) (by simpa using hmany) hcol
  exact ⟨rfl, key _, key _, key _, key _, key _, key _, key _, key _, key _⟩

/-- C9 amended, at the three valid submissions with scores 1, 1 and 2: the first dimension
column holds a score in each of the three rows, so `avg_project_progress` is the double
nearest to their mean `4 / 3`. -/
theorem C9_summary_is_rounded_mean_witness :
    rowsOf oneOneTwo "survey-1" ≠ [] ∧
    (rowsOf oneOneTwo "survey-1").length ≤ 2 ^ 47 ∧
    (summaryQuery oneOneTwo "survey-1").total_responses =
      (rowsOf oneOneTwo "survey-1").length ∧
    IsRoundedMeanOverRows (summaryQuery oneOneTwo "survey-1").avg_project_progress
      ((rowsOf oneOneTwo "survey-1").map (fun r => r.project_progress_transparency)) := by
  have hcol : (rowsOf oneOneTwo "survey-1").map (fun r => r.project_progress_transparency) =
      [some 1, some 1, some 2] := by
    simp [oneOneTwo, submitAll, submitAssessment, insertAssessment, testUser, intScores,
      Store.empty, rowsOf]
  have hlen : (rowsOf oneOneTwo "survey-1").length ≤ 2 ^ 47 := by
    have h3 : (rowsOf oneOneTwo "survey-1").length = 3 := by decide
    rw [h3]
    norm_num
  have h := C9_summary_is_rounded_mean_of_score_columns oneOneTwo "survey-1" (by decide) hlen
  refine ⟨by decide, hlen, h.1, h.2.2.1 ?_⟩
  rw [hcol]
  intro v hv
  simp only [List.mem_cons, List.mem_singleton, List.not_mem_nil, or_false] at hv
  rcases hv with rfl | rfl | rfl
  · exact ⟨8, by norm_num, by norm_num⟩
  · exact ⟨8, by norm_num, by norm_num⟩
  · exact ⟨16, by norm_num, by norm_num⟩

/-- C10: the three submissions to `survey-1` whose scores are all 0.1, all 0.2 and all 0.3
are accepted with status 200 by every store, since the handler validates nothing. Submitted
in this order, the summary reports `avg_project_progress = 7205759403792795 / 2 ^ 55`
(printed `0.20000000000000004`); submitted in the reverse order, a permutation, it reports
`7205759403792793 / 2 ^ 55` (printed `0.19999999999999998`): the two summaries differ. -/
theorem C10_summary_depends_on_submission_order :
    (roundDouble (1 / 10) = double01 ∧ roundDouble (2 / 10) = double02 ∧
      roundDouble (3 / 10) = double03) ∧
    (∀ (db : Store) (now : Nat), ∀ x ∈ [double01, double02, double03],
      (submitAssessment db now (uniformUser x)).1.status = 200) ∧
    List.Perm [uniformUser double01, uniformUser double02, uniformUser double03]
      [uniformUser double03, uniformUser double02, uniformUser double01] ∧
    (summaryQuery (submitAll Store.empty
        [(0, uniformUser double01), (1, uniformUser double02), (2, uniformUser double03)])
      "survey-1").avg_project_progress = some (7205759403792795 / 2 ^ 55) ∧
    (summaryQuery (submitAll Store.empty
        [(0, uniformUser double03), (1, uniformUser double02), (2, uniformUser double01)])
      "survey-1").avg_project_progress = some (7205759403792793 / 2 ^ 55) ∧
    (getSummary (submitAll Store.empty
        [(0, uniformUser double01), (1, uniformUser double02), (2, uniformUser double03)])
      "survey-1").1 ≠
    (getSummary (submitAll Store.empty
        [(0, uniformUser double03), (1, uniformUser double02), (2, uniformUser double01)])
      "survey-1").1 := by
  have hasc : (summaryQuery (submitAll Store.empty
        [(0, uniformUser double01), (1, uniformUser double02), (2, uniformUser double03)])
      "survey-1").avg_project_progress = some (7205759403792795 / 2 ^ 55) := by
    have hcol : (rowsOf (submitAll Store.empty
        [(0, uniformUser double01), (1, uniformUser double02), (2, uniformUser double03)])
        "survey-1").map (fun r => r.project_progress_transparency) =
          [some double01, some double02, some double03] := by
      simp [uniformUser, submitAll, submitAssessment, insertAssessment, testUser,
        Store.empty, rowsOf]
    show sqlAvg ((rowsOf (submitAll Store.empty
        [(0, uniformUser double01), (1, uniformUser double02), (2, uniformUser double03)])
        "survey-1").map (fun r => r.project_progress_transparency)) = _
    rw [hcol, sqlAvg_tenths_ascending]
  have hdesc : (summaryQuery (submitAll Store.empty
        [(0, uniformUser double03), (1, uniformUser double02), (2, uniformUser double01)])
      "survey-1").avg_project_progress = some (7205759403792793 / 2 ^ 55) := by
    have hcol : (rowsOf (submitAll Store.empty
        [(0, uniformUser double03), (1, uniformUser double02), (2, uniformUser double01)])
        "survey-1").map (fun r => r.project_progress_transparency) =
          [some double03, some double02, some double01] := by
      simp [uniformUser, submitAll, submitAssessment, insertAssessment, testUser,
        Store.empty, rowsOf]
    show sqlAvg ((rowsOf (submitAll Store.empty
        [(0, uniformUser double03), (1, uniformUser double02), (2, uniformUser double01)])
        "survey-1").map (fun r => r.project_progress_transparency)) = _
    rw [hcol, sqlAvg_tenths_descending]
  refine ⟨⟨double01_eq, double02_eq, double03_eq⟩, ?_, ?_, hasc, hdesc, ?_⟩
  · intro db now x _
    simp [submitAssessment, insertAssessment, uniformUser, testUser, Response.status]
  · exact (List.reverse_perm
      [uniformUser double01, uniformUser double02, uniformUser double03]).symm
  · intro h
    simp only [getSummary, Response.json.injEq, true_and] at h
    have h2 := congrArg (fun s : SummaryRow => s.avg_project_progress) h
    simp only [hasc, hdesc, Option.some.injEq] at h2
    norm_num at h2

/-- C11: read-summary does not modify the store and is deterministic: for every store and
survey id, the store after a read is the store before it, and a second read (also after
reads of the assessments or of the summary of any survey id) returns the same result. -/
theorem C11_summary_read_is_pure_and_repeatable (db : Store) (surveyId : String) :
    (getSummary db surveyId).2 = db ∧
    getSummary (getSummary db surveyId).2 surveyId = getSummary db surveyId ∧
    ∀ other : String,
      getSummary (getAssessments (getSummary (getSummary db surveyId).2 other).2 other).2
        surveyId = getSummary db surveyId := by
  refine ⟨rfl, rfl, fun other => ?_⟩
  simp only [getSummary, getAssessments]

/-- C14, as stated, fails: the survey id `ghost` was never registered by create-survey, yet
after a submission that names it read-assessments returns one row for it, not the empty
sequence. -/
theorem C14_counterexample_unregistered_id_with_rows :
    Reachable orphanStore ∧
    (∀ r ∈ orphanStore.survey_links, r.survey_id ≠ "ghost") ∧
    (getAssessments orphanStore "ghost").1.status = 200 ∧
    (assessmentsQuery orphanStore "ghost").length = 1 ∧
    (getAssessments orphanStore "ghost").1 ≠ .json 200 [] := by
  refine ⟨⟨_, rfl⟩, by decide, by decide, by decide, ?_⟩
  intro h
  have hlen : (assessmentsQuery orphanStore "ghost").length = 1 := by decide
  simp only [getAssessments, Response.json.injEq, true_and] at h
  rw [h] at hlen
  exact absurd hlen (by decide)

/-- C14, amended: for every store and survey id, read-assessments succeeds with status 200,
leaves the store as it is, and returns exactly the stored rows whose survey id equals the
requested id; for a survey id that no stored assessment references (registered or not) it
returns the empty sequence. -/
theorem C14_assessments_are_exactly_the_rows_of_the_survey (db : Store) (surveyId : String) :
    ∃ rows : List AssessmentRow,
      getAssessments db surveyId = (.json 200 rows, db) ∧
      rows.Perm (db.assessments.filter (fun r => r.survey_id == surveyId)) ∧
      (∀ r, r ∈ rows ↔ r ∈ db.assessments ∧ r.survey_id = surveyId) ∧
      ((∀ r ∈ db.assessments, r.survey_id ≠ surveyId) → rows = []) := by
  refine ⟨assessmentsQuery db surveyId, rfl, ?_, ?_, ?_⟩
  · exact List.perm_insertionSort newerFirst _
  · intro r
    simp [assessmentsQuery, List.mem_insertionSort, rowsOf]
  · intro h
    simp [assessmentsQuery, rowsOf_eq_nil db surveyId h]

/-- C14 amended, at the test's id `invalid-uuid` on a store with one assessment of another
survey: the result is the empty sequence. -/
theorem C14_assessments_of_unknown_id_witness :
    (getAssessments otherSurveyStore "invalid-uuid").1 = .json 200 [] := by
  obtain ⟨rows, hrun, -, -, hnil⟩ :=
    C14_assessments_are_exactly_the_rows_of_the_survey otherSurveyStore "invalid-uuid"
  rw [hrun, hnil (by decide)]

/-- C15: the sequence read-assessments returns is ordered newest-first: of every two
adjacent rows, and of every two rows at all, the one that comes first has a submission time
that is not older than the other's. -/
theorem C15_assessments_are_newest_first (db : Store) (surveyId : String) :
    ∃ rows : List AssessmentRow,
      (getAssessments db surveyId).1 = .json 200 rows ∧
      List.Chain' (fun first second => second.submission_date ≤ first.submission_date) rows ∧
      List.Pairwise (fun first second => second.submission_date ≤ first.submission_date)
        rows := by
  have hsorted : List.Sorted newerFirst (assessmentsQuery db surveyId) :=
    List.sorted_insertionSort newerFirst _
  exact ⟨assessmentsQuery db surveyId, rfl, List.Pairwise.chain' hsorted, hsorted⟩

/-- C12: the store reached from the empty store by one submission of the nine scores
`[1,1,1,1,1,1,1,1,10]` holds a row whose eight dimension scores are all 1 (mean 1) and whose
overall score is 2, so the row does not satisfy "overall score = mean of the eight stored
dimension scores". -/
theorem C12_overall_score_invariant_is_broken :
    Reachable nineScoresStore ∧
    nineScoresStore.assessments.map dimensionScores =
      [[some 1, some 1, some 1, some 1, some 1, some 1, some 1, some 1]] ∧
    nineScoresStore.assessments.map (fun r => r.overall_score) = [some 2] ∧
    ∃ r ∈ nineScoresStore.assessments, ¬ OverallIsMeanOfDimensions r := by
  have hdims : nineScoresStore.assessments.map dimensionScores =
      [[some 1, some 1, some 1, some 1, some 1, some 1, some 1, some 1]] := by
    simp [nineScoresStore, runRequests, Request.apply, submitAssessment, insertAssessment,
      testUser, intScores, Store.empty, dimensionScores]
  have hnine : overallScore (intScores [1, 1, 1, 1, 1, 1, 1, 1, 10]) = some 2 := by
    have hsum := foldl_addDouble_eighths (8 * 10) (intScores [1, 1, 1, 1, 1, 1, 1, 1, 10])
      (intScores_eighths 10 _ (by decide)) 0 (by norm_num [intScores])
    have h2 := roundDouble_intCast 2 (by norm_num)
    unfold overallScore jsDiv
    rw [Int.cast_zero, zero_div, zero_add] at hsum
    rw [hsum]
    norm_num [intScores]
    exact_mod_cast h2
  have hov : nineScoresStore.assessments.map (fun r => r.overall_score) = [some 2] := by
    have hrow : nineScoresStore.assessments.map (fun r => r.overall_score) =
        [overallScore (intScores [1, 1, 1, 1, 1, 1, 1, 1, 10])] := rfl
    rw [hrow, hnine]
  refine ⟨⟨_, rfl⟩, hdims, hov, ?_⟩
  obtain ⟨r, hr⟩ : ∃ r, nineScoresStore.assessments = [r] := by
    cases h : nineScoresStore.assessments with
    | nil => rw [h] at hov; simp at hov
    | cons r rs =>
      cases rs with
      | nil => exact ⟨r, rfl⟩
      | cons r2 rs2 => rw [h] at hov; simp at hov
  rw [hr] at hdims hov
  simp only [List.map_cons, List.map_nil, List.cons.injEq, and_true] at hdims hov
  refine ⟨r, by rw [hr]; exact List.mem_singleton_self r, ?_⟩
  intro hmean
  have h2 := hmean.2
  rw [hdims, hov] at h2
  simp only [List.filterMap_cons, List.filterMap_nil, id, List.sum_cons, List.sum_nil] at h2
  norm_num at h2

/-- C13, as stated, fails: after creating a survey and submitting three valid assessments
whose scores are all 1, all 1 and all 2, the per-assessment means are 1, 1 and 2 and their
mean is `4 / 3`, but read-summary returns `average_overall_score =
6004799503160661 / 2 ^ 52` (printed `1.3333333333333333`), the double nearest to it. -/
theorem C13_counterexample_mean_is_rounded :
    (∀ v ∈ [submissionOf 1 "A" [1, 1, 1, 1, 1, 1, 1, 1],
        submissionOf 2 "B" [1, 1, 1, 1, 1, 1, 1, 1],
        submissionOf 3 "C" [2, 2, 2, 2, 2, 2, 2, 2]], v.Valid) ∧
    (rowsOf (endToEnd Store.empty 0 "S3" (surveyRequest (some "S3"))
        [submissionOf 1 "A" [1, 1, 1, 1, 1, 1, 1, 1],
         submissionOf 2 "B" [1, 1, 1, 1, 1, 1, 1, 1],
         submissionOf 3 "C" [2, 2, 2, 2, 2, 2, 2, 2]]) "S3").map (fun r => r.overall_score) =
      [some 1, some 1, some 2] ∧
    (summaryQuery (endToEnd Store.empty 0 "S3" (surveyRequest (some "S3"))
        [submissionOf 1 "A" [1, 1, 1, 1, 1, 1, 1, 1],
         submissionOf 2 "B" [1, 1, 1, 1, 1, 1, 1, 1],
         submissionOf 3 "C" [2, 2, 2, 2, 2, 2, 2, 2]]) "S3").average_overall_score =
      some (6004799503160661 / 2 ^ 52) ∧
    (6004799503160661 / 2 ^ 52 : ℚ) ≠ (1 + 1 + 2) / 3 := by
  have hone : overallScore (intScores [1, 1, 1, 1, 1, 1, 1, 1]) = some 1 := by
    rw [overallScore_of_valid [1, 1, 1, 1, 1, 1, 1, 1] rfl (by decide)]
    norm_num
  have htwo : overallScore (intScores [2, 2, 2, 2, 2, 2, 2, 2]) = some 2 := by
    rw [overallScore_of_valid [2, 2, 2, 2, 2, 2, 2, 2] rfl (by decide)]
    norm_num
  have hcol : (rowsOf (endToEnd Store.empty 0 "S3" (surveyRequest (some "S3"))
        [submissionOf 1 "A" [1, 1, 1, 1, 1, 1, 1, 1],
         submissionOf 2 "B" [1, 1, 1, 1, 1, 1, 1, 1],
         submissionOf 3 "C" [2, 2, 2, 2, 2, 2, 2, 2]]) "S3").map (fun r => r.overall_score) =
      [some 1, some 1, some 2] := by
    have hrow : (rowsOf (endToEnd Store.empty 0 "S3" (surveyRequest (some "S3"))
        [submissionOf 1 "A" [1, 1, 1, 1, 1, 1, 1, 1],
         submissionOf 2 "B" [1, 1, 1, 1, 1, 1, 1, 1],
         submissionOf 3 "C" [2, 2, 2, 2, 2, 2, 2, 2]]) "S3").map (fun r => r.overall_score) =
        [overallScore (intScores [1, 1, 1, 1, 1, 1, 1, 1]),
         overallScore (intScores [1, 1, 1, 1, 1, 1, 1, 1]),
         overallScore (intScores [2, 2, 2, 2, 2, 2, 2, 2])] := by
      simp [endToEnd, createSurvey, insertSurveyLink, surveyRequest, submissionOf,
        Submission.body, submitAll, submitAssessment, insertAssessment, Store.empty, rowsOf]
    rw [hrow, hone, htwo]
  have havg : sqlAvg [some 1, some 1, some 2] = some (6004799503160661 / 2 ^ 52) := by
    rw [sqlAvg_of_scores _ (by
      intro x hx
      simp only [List.filterMap_cons, List.filterMap_nil, id, List.mem_cons,
        List.mem_singleton, List.not_mem_nil, or_false] at hx
      rcases hx with rfl | rfl | rfl
      · exact ⟨8, by norm_num, by norm_num⟩
      · exact ⟨8, by norm_num, by norm_num⟩
      · exact ⟨16, by norm_num, by norm_num⟩) (by simp) (by simp)]
    simp only [List.filterMap_cons, List.filterMap_nil, id, List.sum_cons, List.sum_nil,
      List.length_cons, List.length_nil]
    rw [← roundDouble_four_thirds]
    norm_num
  refine ⟨by decide, hcol, ?_, by norm_num⟩
  show sqlAvg ((rowsOf (endToEnd Store.empty 0 "S3" (surveyRequest (some "S3"))
        [submissionOf 1 "A" [1, 1, 1, 1, 1, 1, 1, 1],
         submissionOf 2 "B" [1, 1, 1, 1, 1, 1, 1, 1],
         submissionOf 3 "C" [2, 2, 2, 2, 2, 2, 2, 2]]) "S3").map (fun r => r.overall_score)) =
      some (6004799503160661 / 2 ^ 52)
  rw [hcol, havg]

/-- C13, amended: end to end. After creating a survey (with an id that no stored assessment
carries) and submitting n valid assessments to it, 1 <= n <= 2 ^ 47, read-summary returns
`total_responses = n`, `average_overall_score` equal to the double nearest to the mean of
the n per-assessment means, and each per-dimension average equal to the double nearest to
the mean of that dimension's n submitted scores. -/
theorem C13_end_to_end_summary_is_rounded_mean (db : Store) (now : Nat) (uuid : String)
    (body : SurveyBody) (vs : List Submission)
    (hfresh : ∀ r ∈ db.assessments, r.survey_id ≠ uuid)
    (_hcreated : (createSurvey db now uuid body).1.status = 200)
    (hn : 1 ≤ vs.length) (hmany : vs.length ≤ 2 ^ 47) (hvalid : ∀ v ∈ vs, v.Valid) :
    (summaryQuery (endToEnd db now uuid body vs) uuid).total_responses = vs.length ∧
    (summaryQuery (endToEnd db now uuid body vs) uuid).average_overall_score =
      some (roundDouble ((vs.map (fun v => ((v.scores.sum : ℤ) : ℚ) / 8)).sum / vs.length)) ∧
    (summaryQuery (endToEnd db now uuid body vs) uuid).avg_project_progress =
      some (roundDouble
        ((vs.map (fun v => ((v.scores.getD 0 0 : ℤ) : ℚ))).sum / vs.length)) ∧
    (summaryQuery (endToEnd db now uuid body vs) uuid).avg_requirement_response =
      some (roundDouble
        ((vs.map (fun v => ((v.scores.getD 1 0 : ℤ) : ℚ))).sum / vs.length)) ∧
    (summaryQuery (endToEnd db now uuid body vs) uuid).avg_collaboration =
      some (roundDouble
        ((vs.map (fun v => ((v.scores.getD 2 0 : ℤ) : ℚ))).sum / vs.length)) ∧
    (summaryQuery (endToEnd db now uuid body vs) uuid).avg_delivery_quality =
      some (roundDouble
        ((vs.map (fun v => ((v.scores.getD 3 0 : ℤ) : ℚ))).sum / vs.length)) ∧
    (summaryQuery (endToEnd db now uuid body vs) uuid).avg_issue_discovery =
      some (roundDouble
        ((vs.map (fun v => ((v.scores.getD 4 0 : ℤ) : ℚ))).sum / vs.length)) ∧
    (summaryQuery (endToEnd db now uuid body vs) uuid).avg_resource_allocation =
      some (roundDouble
        ((vs.map (fun v => ((v.scores.getD 5 0 : ℤ) : ℚ))).sum / vs.length)) ∧
    (summaryQuery (endToEnd db now uuid body vs) uuid).avg_improvement =
      some (roundDouble
        ((vs.map (fun v => ((v.scores.getD 6 0 : ℤ) : ℚ))).sum / vs.length)) ∧
    (summaryQuery (endToEnd db now uuid body vs) uuid).avg_information_transmission =
      some (roundDouble
        ((vs.map (fun v => ((v.scores.getD 7 0 : ℤ) : ℚ))).sum / vs.length)) := by
  obtain ⟨ids, hlen, hrows⟩ := endToEnd_rowsOf db now uuid body vs hfresh
  have hne : vs ≠ [] := by
    intro h
    rw [h] at hn
    simp at hn
  have key : ∀ (col : AssessmentRow → Option ℚ) (g : Submission → ℚ),
      (∀ id, ∀ v ∈ vs,
        col (storedRow id v.now uuid (v.body uuid) (intScores v.scores)) = some (g v)) →
      (∀ v ∈ vs, ∃ k : ℤ, |k| ≤ 40 ∧ g v = (k : ℚ) / 8) →
      sqlAvg ((rowsOf (endToEnd db now uuid body vs) uuid).map col) =
        some (roundDouble ((vs.map g).sum / vs.length)) := by
    intro col g hcol hg
    rw [hrows, map_zipWith_of_length _ col (fun v => some (g v)) ids vs hlen hcol]
    exact sqlAvg_map_some_exact vs g hne hmany hg
  have hdim : ∀ (k : Nat), k < 8 → ∀ v ∈ vs,
      (intScores v.scores)[k]? = some ((v.scores.getD k 0 : ℤ) : ℚ) := by
    intro k hk v hv
    exact intScores_getElem? v.scores k (by rw [(hvalid v hv).2.2.1]; exact hk)
  have hdimk : ∀ (k : Nat), k < 8 → ∀ v ∈ vs,
      ∃ j : ℤ, |j| ≤ 40 ∧ ((v.scores.getD k 0 : ℤ) : ℚ) = (j : ℚ) / 8 := by
    intro k hk v hv
    have hkl : k < v.scores.length := by rw [(hvalid v hv).2.2.1]; exact hk
    have hmem : v.scores.getD k 0 ∈ v.scores := by
      rw [List.getD_eq_getElem _ _ hkl]
      exact List.getElem_mem hkl
    have hr := (hvalid v hv).2.2.2 _ hmem
    refine ⟨8 * v.scores.getD k 0, ?_, by push_cast; ring⟩
    rw [abs_le]
    constructor <;> linarith [hr.1, hr.2]
  have hoverall : ∀ v ∈ vs,
      overallScore (intScores v.scores) = some (((v.scores.sum : ℤ) : ℚ) / 8) :=
    fun v hv => overallScore_of_valid v.scores (hvalid v hv).2.2.1 (hvalid v hv).2.2.2
  have hoverallk : ∀ v ∈ vs,
      ∃ j : ℤ, |j| ≤ 40 ∧ ((v.scores.sum : ℤ) : ℚ) / 8 = (j : ℚ) / 8 := by
    intro v hv
    have hb := sum_bounds_of_valid v.scores (hvalid v hv).2.2.2
    rw [(hvalid v hv).2.2.1] at hb
    refine ⟨v.scores.sum, ?_, rfl⟩
    rw [abs_le]
    constructor <;> push_cast at hb <;> linarith [hb.1, hb.2]
  refine ⟨?_, key (fun r => r.overall_score) _ (fun _ v hv => hoverall v hv) hoverallk,
    key (fun r => r.project_progress_transparency) _ (fun _ => hdim 0 (by decide))
      (hdimk 0 (by decide)),
    key (fun r => r.requirement_response_speed) _ (fun _ => hdim 1 (by decide))
      (hdimk 1 (by decide)),
    key (fun r => r.team_collaboration_efficiency) _ (fun _ => hdim 2 (by decide))
      (hdimk 2 (by decide)),
    key (fun r => r.delivery_quality_stability) _ (fun _ => hdim 3 (by decide))
      (hdimk 3 (by decide)),
    key (fun r => r.issue_discovery_timeliness) _ (fun _ => hdim 4 (by decide))
      (hdimk 4 (by decide)),
    key (fun r => r.resource_allocation_efficiency) _ (fun _ => hdim 5 (by decide))
      (hdimk 5 (by decide)),
    key (fun r => r.continuous_improvement_ability) _ (fun _ => hdim 6 (by decide))
      (hdimk 6 (by decide)),
    key (fun r => r.information_transmission_effectiveness) _ (fun _ => hdim 7 (by decide))
      (hdimk 7 (by decide))⟩
  show (rowsOf (endToEnd db now uuid body vs) uuid).length = vs.length
  rw [hrows, List.length_zipWith, hlen, Nat.min_self]

/-- C13 amended, at the specification's two examples, where the means are doubles: one
submission of eight fives gives total 1 and overall and first-dimension averages 5;
`[5,4,5,4,5,4,5,4]` with eight threes gives total 2 and `average_overall_score = 3.75`. -/
theorem C13_end_to_end_witness :
    ((summaryQuery (endToEnd Store.empty 0 "S1" (surveyRequest (some "S1"))
        [submissionOf 1 "单个用户" [5, 5, 5, 5, 5, 5, 5, 5]]) "S1").total_responses = 1 ∧
     (summaryQuery (endToEnd Store.empty 0 "S1" (surveyRequest (some "S1"))
        [submissionOf 1 "单个用户" [5, 5, 5, 5, 5, 5, 5, 5]]) "S1").average_overall_score =
        some 5 ∧
     (summaryQuery (endToEnd Store.empty 0 "S1" (surveyRequest (some "S1"))
        [submissionOf 1 "单个用户" [5, 5, 5, 5, 5, 5, 5, 5]]) "S1").avg_project_progress =
        some 5) ∧
    ((summaryQuery (endToEnd Store.empty 0 "S2" (surveyRequest (some "S2"))
        [submissionOf 1 "第一个用户" [5, 4, 5, 4, 5, 4, 5, 4],
         submissionOf 2 "第二个用户" [3, 3, 3, 3, 3, 3, 3, 3]]) "S2").total_responses = 2 ∧
     (summaryQuery (endToEnd Store.empty 0 "S2" (surveyRequest (some "S2"))
        [submissionOf 1 "第一个用户" [5, 4, 5, 4, 5, 4, 5, 4],
         submissionOf 2 "第二个用户" [3, 3, 3, 3, 3, 3, 3, 3]]) "S2").average_overall_score =
        some 3.75) := by
  have h1 := C13_end_to_end_summary_is_rounded_mean Store.empty 0 "S1"
    (surveyRequest (some "S1")) [submissionOf 1 "单个用户" [5, 5, 5, 5, 5, 5, 5, 5]]
    (by decide) (by decide) (by decide) (by norm_num) (by decide)
  have h2 := C13_end_to_end_summary_is_rounded_mean Store.empty 0 "S2"
    (surveyRequest (some "S2"))
    [submissionOf 1 "第一个用户" [5, 4, 5, 4, 5, 4, 5, 4],
     submissionOf 2 "第二个用户" [3, 3, 3, 3, 3, 3, 3, 3]]
    (by decide) (by decide) (by decide) (by norm_num) (by decide)
  have r5 : roundDouble 5 = 5 := by
    have h := roundDouble_intCast 5 (by norm_num)
    exact_mod_cast h
  have r375 : roundDouble (15 / 4) = 15 / 4 := by
    have h := roundDouble_eighths 30 (by norm_num)
    norm_num at h
    exact h
  refine ⟨⟨h1.1, ?_, ?_⟩, h2.1, ?_⟩
  · rw [h1.2.1]
    norm_num [submissionOf]
    exact r5
  · rw [h1.2.2.1]
    norm_num [submissionOf]
    exact r5
  · rw [h2.2.1]
    norm_num [submissionOf]
    exact r375

/-- C16: `User 1` submits at time 0 and `User 2` at time 1 to the same new survey, and both
submissions are accepted; read-assessments answers 200 with `User 2` first and `User 1`
second, the reverse of the submission order that the claim and the tests require. -/
theorem C16_later_submission_is_returned_first :
    (userOneThenTwo 0 1).map (fun v => some v.respondentName) =
      [some "User 1", some "User 2"] ∧
    (getAssessments
        (endToEnd Store.empty 0 "survey-1" (surveyRequest (some "Test Survey for Assessments"))
          (userOneThenTwo 0 1)) "survey-1").1.status = 200 ∧
    (assessmentsQuery
        (endToEnd Store.empty 0 "survey-1" (surveyRequest (some "Test Survey for Assessments"))
          (userOneThenTwo 0 1)) "survey-1").map (fun r => r.respondent_name) =
      [some "User 2", some "User 1"] ∧
    (assessmentsQuery
        (endToEnd Store.empty 0 "survey-1" (surveyRequest (some "Test Survey for Assessments"))
          (userOneThenTwo 0 1)) "survey-1").map (fun r => r.submission_date) = [1, 0] := by
  refine ⟨by decide, by decide, by decide, by decide⟩

/-- C17: a submission whose survey id is not `a` (another id, or none) changes neither the
result of read-assessments nor the result of read-summary for `a`; more generally both
results are the same in any two stores that hold the same rows for `a`. -/
theorem C17_submission_does_not_affect_other_surveys (db : Store) (now : Nat)
    (body : AssessmentBody) (a : String) (h : body.surveyId ≠ some a) :
    (getAssessments (submitAssessment db now body).2 a).1 = (getAssessments db a).1 ∧
    (getSummary (submitAssessment db now body).2 a).1 = (getSummary db a).1 ∧
    ∀ db2 : Store, rowsOf db2 a = rowsOf db a →
      (getAssessments db2 a).1 = (getAssessments db a).1 ∧
      (getSummary db2 a).1 = (getSummary db a).1 := by
  have hgen : ∀ db2 : Store, rowsOf db2 a = rowsOf db a →
      (getAssessments db2 a).1 = (getAssessments db a).1 ∧
      (getSummary db2 a).1 = (getSummary db a).1 := by
    intro db2 hrows
    simp only [getAssessments, getSummary, assessmentsQuery, summaryQuery, hrows, and_self]
  have hsub := hgen _ (rowsOf_submitAssessment_other db now body a h)
  exact ⟨hsub.1, hsub.2, hgen⟩

/-- C17 at a store holding an assessment of `survey-2`: a submission to `survey-1` leaves
both results for `survey-2` as they were. -/
theorem C17_other_survey_witness :
    (getAssessments (submitAssessment otherSurveyStore 5 janeDoe).2 "survey-2").1 =
      (getAssessments otherSurveyStore "survey-2").1 ∧
    (getSummary (submitAssessment otherSurveyStore 5 janeDoe).2 "survey-2").1 =
      (getSummary otherSurveyStore "survey-2").1 :=
  have h := C17_submission_does_not_affect_other_surveys otherSurveyStore 5 janeDoe
    "survey-2" (by decide)
  ⟨h.1, h.2.1⟩

/-- C18: a successful submit-assessment adds exactly one assessment row, whose generated id
differs from the id of every row already stored and is the id returned to the caller, and it
leaves every previously stored assessment and every survey unchanged; the same submission
sent a second time succeeds again and adds a second row with yet another id. -/
theorem C18_successful_submission_adds_exactly_one_row (db : Store) (now : Nat)
    (body : AssessmentBody) (h : (submitAssessment db now body).1.status = 200) :
    ∃ row : AssessmentRow,
      (submitAssessment db now body).2.assessments = db.assessments ++ [row] ∧
      (∀ r ∈ db.assessments, r.id ≠ row.id) ∧
      (submitAssessment db now body).1 =
        .json 200 { id := row.id, message := "评估提交成功！" } ∧
      (submitAssessment db now body).2.survey_links = db.survey_links ∧
      ∀ now2 : Nat, ∃ row2 : AssessmentRow,
        (submitAssessment (submitAssessment db now body).2 now2 body).1.status = 200 ∧
        (submitAssessment (submitAssessment db now body).2 now2 body).2.assessments =
          db.assessments ++ [row, row2] ∧
        row2.id ≠ row.id := by
  obtain ⟨xs, sid, hs, hid⟩ := submitAssessment_status_ok db now body h
  have hrun := submitAssessment_ok db now body xs sid hs hid
  refine ⟨storedRow (nextRowid db.assessments_seq (db.assessments.map (fun r => r.id)))
    now sid body xs, by rw [hrun], ?_, by rw [hrun]; rfl, by rw [hrun], ?_⟩
  · intro r hr
    have hlt := lt_nextRowid db.assessments_seq (db.assessments.map (fun r => r.id)) r.id
      (List.mem_map.mpr ⟨r, hr, rfl⟩)
    show r.id ≠ nextRowid db.assessments_seq (db.assessments.map (fun r => r.id))
    omega
  · intro now2
    have hrun2 := submitAssessment_ok (submitAssessment db now body).2 now2 body xs sid hs hid
    refine ⟨storedRow (nextRowid (submitAssessment db now body).2.assessments_seq
        ((submitAssessment db now body).2.assessments.map (fun r => r.id))) now2 sid body xs,
      by rw [hrun2]; rfl, ?_, ?_⟩
    · rw [hrun2]
      simp [hrun]
    · have hlt := lt_nextRowid (submitAssessment db now body).2.assessments_seq
        ((submitAssessment db now body).2.assessments.map (fun r => r.id))
        (nextRowid db.assessments_seq (db.assessments.map (fun r => r.id)))
        (by rw [hrun]; simp [storedRow])
      show nextRowid (submitAssessment db now body).2.assessments_seq
          ((submitAssessment db now body).2.assessments.map (fun r => r.id)) ≠
        nextRowid db.assessments_seq (db.assessments.map (fun r => r.id))
      omega

/-- C18 at the test's duplicate submission, sent into a store that already holds a row. -/
theorem C18_duplicate_submission_witness :
    (submitAssessment otherSurveyStore 1 duplicateBody).1.status = 200 ∧
    ∃ row : AssessmentRow,
      (submitAssessment otherSurveyStore 1 duplicateBody).2.assessments =
        otherSurveyStore.assessments ++ [row] ∧
      (∀ r ∈ otherSurveyStore.assessments, r.id ≠ row.id) ∧
      (submitAssessment otherSurveyStore 1 duplicateBody).1 =
        .json 200 { id := row.id, message := "评估提交成功！" } ∧
      (submitAssessment otherSurveyStore 1 duplicateBody).2.survey_links =
        otherSurveyStore.survey_links ∧
      ∀ now2 : Nat, ∃ row2 : AssessmentRow,
        (submitAssessment (submitAssessment otherSurveyStore 1 duplicateBody).2 now2
          duplicateBody).1.status = 200 ∧
        (submitAssessment (submitAssessment otherSurveyStore 1 duplicateBody).2 now2
          duplicateBody).2.assessments = otherSurveyStore.assessments ++ [row, row2] ∧
        row2.id ≠ row.id :=
  ⟨by decide,
   C18_successful_submission_adds_exactly_one_row otherSurveyStore 1 duplicateBody
     (by decide)⟩

/-- C19: for every accepted submission with the eight scores `s0, ..., s7`, the stored row
holds `s0` to `s7` in the eight dimension columns, in the order of the table, and the
respondent name, team and notes exactly as submitted. -/
theorem C19_stored_row_holds_the_submitted_values (db : Store) (now : Nat)
    (body : AssessmentBody) (s0 s1 s2 s3 s4 s5 s6 s7 : ℚ)
    (hs : body.scores = .array [s0, s1, s2, s3, s4, s5, s6, s7])
    (hok : (submitAssessment db now body).1.status = 200) :
    ∃ row : AssessmentRow,
      (submitAssessment db now body).2.assessments = db.assessments ++ [row] ∧
      row.project_progress_transparency = some s0 ∧
      row.requirement_response_speed = some s1 ∧
      row.team_collaboration_efficiency = some s2 ∧
      row.delivery_quality_stability = some s3 ∧
      row.issue_discovery_timeliness = some s4 ∧
      row.resource_allocation_efficiency = some s5 ∧
      row.continuous_improvement_ability = some s6 ∧
      row.information_transmission_effectiveness = some s7 ∧
      row.respondent_name = body.respondentName ∧
      row.respondent_team = body.respondentTeam ∧
      row.notes = body.notes := by
  obtain ⟨xs, sid, hxs, hid⟩ := submitAssessment_status_ok db now body hok
  have hrun := submitAssessment_ok db now body _ sid hs hid
  exact ⟨_, by rw [hrun], rfl, rfl, rfl, rfl, rfl, rfl, rfl, rfl, rfl, rfl, rfl⟩

/-- C19 at the test's submission `[5,4,5,4,5,4,5,4]` by `测试用户` of `测试团队`. -/
theorem C19_stored_row_witness :
    (submitAssessment Store.empty 0 frontendBody).1.status = 200 ∧
    ∃ row : AssessmentRow,
      (submitAssessment Store.empty 0 frontendBody).2.assessments = Store.empty.assessments ++ [row] ∧
      row.project_progress_transparency = some 5 ∧
      row.requirement_response_speed = some 4 ∧
      row.team_collaboration_efficiency = some 5 ∧
      row.delivery_quality_stability = some 4 ∧
      row.issue_discovery_timeliness = some 5 ∧
      row.resource_allocation_efficiency = some 4 ∧
      row.continuous_improvement_ability = some 5 ∧
      row.information_transmission_effectiveness = some 4 ∧
      row.respondent_name = frontendBody.respondentName ∧
      row.respondent_team = frontendBody.respondentTeam ∧
      row.notes = frontendBody.notes :=
  ⟨by decide,
   C19_stored_row_holds_the_submitted_values Store.empty 0 frontendBody 5 4 5 4 5 4 5 4 rfl
     (by decide)⟩

/-- C20: a submission with eight integer scores in 1..5 whose survey id was never registered
by create-survey (no row of `survey_links` carries it) is accepted with status 200 and stored
as one new row under that survey id. -/
theorem C20_unregistered_survey_id_is_accepted (db : Store) (now : Nat)
    (body : AssessmentBody) (sid : String) (ns : List ℤ)
    (hid : body.surveyId = some sid) (hscores : body.scores = .array (intScores ns))
    (_hlen : ns.length = 8) (_hrange : ∀ n ∈ ns, 1 ≤ n ∧ n ≤ 5)
    (_hunknown : ∀ r ∈ db.survey_links, r.survey_id ≠ sid) :
    (submitAssessment db now body).1.status = 200 ∧
    ∃ row : AssessmentRow,
      (submitAssessment db now body).2.assessments = db.assessments ++ [row] ∧
      row.survey_id = sid ∧
      (submitAssessment db now body).1 =
        .json 200 { id := row.id, message := "评估提交成功！" } := by
  have hrun := submitAssessment_ok db now body _ sid hscores hid
  refine ⟨by rw [hrun]; rfl, _, by rw [hrun], rfl, by rw [hrun]; rfl⟩

/-- C20 at a submission to the id `ghost` on the empty store, where no survey exists. -/
theorem C20_unregistered_survey_id_witness :
    (submitAssessment Store.empty 0 { janeDoe with surveyId := some "ghost" }).1.status = 200 ∧
    ∃ row : AssessmentRow,
      (submitAssessment Store.empty 0 { janeDoe with surveyId := some "ghost" }).2.assessments =
        Store.empty.assessments ++ [row] ∧
      row.survey_id = "ghost" ∧
      (submitAssessment Store.empty 0 { janeDoe with surveyId := some "ghost" }).1 =
        .json 200 { id := row.id, message := "评估提交成功！" } :=
  C20_unregistered_survey_id_is_accepted Store.empty 0 { janeDoe with surveyId := some "ghost" }
    "ghost" [5, 4, 5, 3, 4, 5, 4, 5] rfl rfl rfl (by decide) (by decide)

/-- C21: for every accepted name, create-survey returns the generated survey id, the name
exactly as submitted (nothing is stripped), and a shareable URL that contains the survey id
(the URL ends with it). -/
theorem C21_create_survey_returns_id_name_and_url (db : Store) (now : Nat) (uuid : String)
    (body : SurveyBody) (h : (createSurvey db now uuid body).1.status = 200) :
    ∃ (name url : String),
      body.surveyName = some name ∧
      (createSurvey db now uuid body).1 =
        .json 200 { surveyId := uuid, surveyName := some name, surveyUrl := url } ∧
      url = body.protocol ++ "://" ++ body.host ++ "/index.html?survey=" ++ uuid ∧
      ∃ before after : String, url = before ++ uuid ++ after := by
  unfold createSurvey insertSurveyLink at h ⊢
  cases hname : body.surveyName with
  | none => simp [hname, Response.status] at h
  | some name =>
    by_cases hdup : db.survey_links.any (fun r => r.survey_id == uuid) = true
    · simp [hname, hdup, Response.status] at h
    · refine ⟨name, body.protocol ++ "://" ++ body.host ++ "/index.html?survey=" ++ uuid,
        rfl, ?_, rfl, body.protocol ++ "://" ++ body.host ++ "/index.html?survey=", "", ?_⟩
      · simp [hdup]
      · simp

/-- C21 at the test's name with leading and trailing blanks. -/
theorem C21_create_survey_witness :
    (createSurvey Store.empty 0 "id-1" (surveyRequest (some "  Whitespace Test Survey  "))).1 =
      .json 200 { surveyId := "id-1", surveyName := some "  Whitespace Test Survey  ",
                  surveyUrl := "http://127.0.0.1/index.html?survey=id-1" } := by
  obtain ⟨name, url, hname, hresp, hurl, -⟩ :=
    C21_create_survey_returns_id_name_and_url Store.empty 0 "id-1"
      (surveyRequest (some "  Whitespace Test Survey  ")) (by decide)
  have hn : name = "  Whitespace Test Survey  " := (Option.some.inj hname).symm
  rw [hresp, hurl, hn]
  decide

/-- C22: a successful create-survey and a successful submit-assessment answer with status
200, not 201: no handler ever sets status 201. The body of submit-assessment does hold the
generated id and the message. -/
theorem C22_success_status_is_200_not_201 :
    (createSurvey Store.empty 0 "id-1" (surveyRequest (some "Test Survey 2024"))).1.status
      = 200 ∧
    (submitAssessment Store.empty 0 janeDoe).1 =
      .json 200 { id := 1, message := "评估提交成功！" } ∧
    (∀ (db : Store) (now : Nat) (uuid : String) (body : SurveyBody),
      (createSurvey db now uuid body).1.status ≠ 201) ∧
    (∀ (db : Store) (now : Nat) (body : AssessmentBody),
      (submitAssessment db now body).1.status ≠ 201) := by
  refine ⟨by decide, by decide, ?_, ?_⟩
  · intro db now uuid body
    unfold createSurvey insertSurveyLink
    cases body.surveyName with
    | none => simp [Response.status]
    | some name =>
      by_cases hdup : db.survey_links.any (fun r => r.survey_id == uuid) = true
      · simp [hdup, Response.status]
      · simp [hdup, Response.status]
  · intro db now body
    rcases submitAssessment_cases db now body with hsame | ⟨xs, sid, -, -, hrun⟩
    · by_cases hok : (submitAssessment db now body).1.status = 200
      · rw [hok]; decide
      · unfold submitAssessment insertAssessment
        cases body.scores with
        | absent => simp [Response.status]
        | text s => simp [Response.status]
        | array xs =>
          cases body.surveyId with
          | none => simp [Response.status]
          | some sid => simp [Response.status]
    · rw [hrun]
      simp [Response.status]

/-- C30: `checkAdminAuth` passes a request on exactly when its Authorization header equals
`Bearer admin-token-123`; every other request (header absent or any other value) is answered
with status 401 and error `未授权访问`, and the next handler is not called. -/
theorem C30_checkAdminAuth_passes_exactly_the_admin_token (authorization : Option String) :
    (checkAdminAuth authorization = .next ↔
      authorization = some "Bearer admin-token-123") ∧
    (authorization ≠ some "Bearer admin-token-123" →
      checkAdminAuth authorization = .respond 401 "未授权访问") := by
  unfold checkAdminAuth
  by_cases h : authorization = some "Bearer admin-token-123"
  · simp [h]
  · simp [h]

/-- C30 at a request without header and at a request with another token. -/
theorem C30_checkAdminAuth_witness :
    checkAdminAuth none = .respond 401 "未授权访问" ∧
    checkAdminAuth (some "Bearer wrong-token") = .respond 401 "未授权访问" ∧
    checkAdminAuth (some "Bearer admin-token-123") = .next :=
  ⟨(C30_checkAdminAuth_passes_exactly_the_admin_token none).2 (by decide),
   (C30_checkAdminAuth_passes_exactly_the_admin_token (some "Bearer wrong-token")).2
     (by decide),
   (C30_checkAdminAuth_passes_exactly_the_admin_token (some "Bearer admin-token-123")).1.mpr
     rfl⟩

/-- C23: list-surveys succeeds and returns every registered survey (the rows of
`survey_links`, each once), ordered by creation time newest first; a survey just created
appears in it with the submitted name, its generated id and its active flag set. -/
theorem C23_list_surveys_returns_all_newest_first (db : Store) :
    ∃ rows : List SurveyLinkRow,
      getSurveys db = (.json 200 rows, db) ∧
      rows.Perm db.survey_links ∧
      List.Pairwise (fun first second => second.created_date ≤ first.created_date) rows ∧
      ∀ (now : Nat) (uuid : String) (body : SurveyBody),
        (createSurvey db now uuid body).1.status = 200 →
        ∃ r ∈ surveysQuery (createSurvey db now uuid body).2,
          r.survey_id = uuid ∧ body.surveyName = some r.survey_name ∧
          r.is_active = true ∧ r.created_date = now := by
  have hsorted : List.Sorted newerSurveyFirst (surveysQuery db) :=
    List.sorted_insertionSort newerSurveyFirst _
  refine ⟨surveysQuery db, rfl, List.perm_insertionSort newerSurveyFirst _, hsorted, ?_⟩
  intro now uuid body hok
  obtain ⟨name, hname, hlinks⟩ := createSurvey_ok db now uuid body hok
  refine ⟨{ id := nextRowid db.survey_links_seq (db.survey_links.map (fun r => r.id)),
            survey_id := uuid, survey_name := name, created_date := now,
            is_active := true }, ?_, rfl, hname, rfl, rfl⟩
  unfold surveysQuery
  rw [List.mem_insertionSort, hlinks]
  simp

/-- C23 at the test: after creating `Test Survey` on the empty store, the list holds exactly
that survey, with its name and `is_active` set. -/
theorem C23_list_surveys_witness :
    ∃ r ∈ surveysQuery
        (createSurvey Store.empty 3 "id-1" (surveyRequest (some "Test Survey"))).2,
      r.survey_id = "id-1" ∧
      (surveyRequest (some "Test Survey")).surveyName = some r.survey_name ∧
      r.is_active = true ∧ r.created_date = 3 := by
  obtain ⟨_, -, -, -, hnew⟩ := C23_list_surveys_returns_all_newest_first Store.empty
  exact hnew 3 "id-1" (surveyRequest (some "Test Survey")) (by decide)

/-- C24, as stated, fails. The survey `survey-1` of `threeShort` has three assessments, but
the statistics sheet of its export has three rows, not eight: the five dimensions without a
score get no row. And for the valid scores 1, 1, 2 the sheet gives the average 1.33, while
their mean is 4/3; for forty valid scores with the mean 41/40 = 1.025 it gives 1.02, since
the double nearest to 41/40 lies below it. -/
theorem C24_counterexample_missing_rows_and_rounding :
    ((rowsOf threeShort "survey-1").length = 3 ∧
      (summaryRows (exportQuery threeShort "survey-1")).map (fun row => row.dimension) =
        ["项目进度透明度", "需求响应速度", "团队协作效率"] ∧
      (summaryRows (exportQuery threeShort "survey-1")).length ≠ dimensionNames.length) ∧
    (nonNullScores (exportQuery oneOneTwo "survey-1")
        (fun a => a.project_progress_transparency) = [1, 1, 2] ∧
      exportAvg [1, 1, 2] = 6004799503160661 / 2 ^ 52 ∧
      (statisticsRow "项目进度透明度" [1, 1, 2]).map (fun row => row.average) =
        some (133 / 100) ∧
      ([1, 1, 2] : List ℚ).sum / ([1, 1, 2] : List ℚ).length = 4 / 3 ∧
      (133 / 100 : ℚ) ≠ 4 / 3) ∧
    (IsScoreList fortyScores ∧ fortyScores.sum / fortyScores.length = 41 / 40 ∧
      exportAvg fortyScores = 4616189618054758 / 2 ^ 52 ∧
      (statisticsRow "项目进度透明度" fortyScores).map (fun row => row.average) =
        some (102 / 100)) := by
  have hforty : statisticsRow "项目进度透明度" fortyScores =
      some { dimension := "项目进度透明度", average := toFixed2 (exportAvg fortyScores),
             min := mathMin 1 (List.replicate 38 1 ++ [2]),
             max := mathMax 1 (List.replicate 38 1 ++ [2]),
             stddev := toFixed2 (sqrtDouble (exportVariance fortyScores
               (exportAvg fortyScores))) } := rfl
  refine ⟨⟨by decide, ?_, ?_⟩, ⟨?_, exportAvg_one_one_two, ?_, by norm_num, by norm_num⟩,
    ?_, ?_, exportAvg_fortyScores, ?_⟩
  · simp [summaryRows, exportQuery, threeShort, submitAll, submitAssessment, insertAssessment,
      testUser, intScores, Store.empty, rowsOf, List.insertionSort, List.orderedInsert,
      olderFirst, dimensions, dimensionNames, statisticsRow]
  · simp [summaryRows, exportQuery, threeShort, submitAll, submitAssessment, insertAssessment,
      testUser, intScores, Store.empty, rowsOf, List.insertionSort, List.orderedInsert,
      olderFirst, dimensions, dimensionNames, statisticsRow]
  · simp [nonNullScores, exportQuery, oneOneTwo, submitAll, submitAssessment,
      insertAssessment, testUser, intScores, Store.empty, rowsOf, List.insertionSort,
      List.orderedInsert, olderFirst]
  · simp only [statisticsRow, Option.map_some', exportAvg_one_one_two, Option.some.injEq]
    rw [toFixed2_of_bounds _ 133 (by norm_num) (by norm_num) (by norm_num)]
    norm_num
  · intro s hs
    unfold fortyScores at hs
    rcases List.mem_append.mp hs with h | h
    · rw [List.eq_of_mem_replicate h]
      exact ⟨1, by norm_num, by norm_num, by norm_num⟩
    · rw [List.mem_singleton.mp h]
      exact ⟨2, by norm_num, by norm_num, by norm_num⟩
  · simp [fortyScores, List.sum_replicate]
    norm_num
  · rw [hforty]
    simp only [Option.map_some', exportAvg_fortyScores, Option.some.injEq]
    rw [toFixed2_of_bounds _ 102 (by norm_num) (by norm_num) (by norm_num)]
    norm_num

/-- C24, amended: the export succeeds, and its statistics sheet has one row for each
dimension that has at least one non-null score among the rows of the survey, in the fixed
order of the eight dimensions (eight rows, one per dimension, when every dimension has a
score), giving the dimension's name, the minimum and the maximum of that dimension's
non-null scores over exactly the rows of the survey and, when these scores are at most 1000
integers in 1..5, their mean to two decimals and their population standard deviation to two
decimals (a two-decimal number nearest to it; at a tie, either neighbour). -/
theorem C24_statistics_sheet_has_a_row_per_scored_dimension (db : Store)
    (surveyId : String) :
    ∃ wb : Workbook,
      getExport db surveyId = (.json 200 wb, db) ∧
      wb.summarySheet.header = summaryHeader ∧
      List.Forall₂
        (fun d row => row.dimension = d.2 ∧
          (IsMinAndMaxOf row (nonNullScores (rowsOf db surveyId) d.1) ∧
            (IsScoreList (nonNullScores (rowsOf db surveyId) d.1) →
              (nonNullScores (rowsOf db surveyId) d.1).length ≤ 1000 →
              IsMeanAndDeviationOf row (nonNullScores (rowsOf db surveyId) d.1))))
        ((dimensions.zip dimensionNames).filter
          (fun d => !(nonNullScores (rowsOf db surveyId) d.1).isEmpty))
        wb.summarySheet.rows ∧
      ((∀ d ∈ dimensions, nonNullScores (rowsOf db surveyId) d ≠ []) →
        wb.summarySheet.rows.map (fun row => row.dimension) = dimensionNames) := by
  have hperm : (exportQuery db surveyId).Perm (rowsOf db surveyId) :=
    List.perm_insertionSort olderFirst _
  have hrows : List.Forall₂
      (fun d row => row.dimension = d.2 ∧
        (IsMinAndMaxOf row (nonNullScores (rowsOf db surveyId) d.1) ∧
          (IsScoreList (nonNullScores (rowsOf db surveyId) d.1) →
            (nonNullScores (rowsOf db surveyId) d.1).length ≤ 1000 →
            IsMeanAndDeviationOf row (nonNullScores (rowsOf db surveyId) d.1))))
      ((dimensions.zip dimensionNames).filter
        (fun d => !(nonNullScores (rowsOf db surveyId) d.1).isEmpty))
      (summaryRows (exportQuery db surveyId)) := by
    apply forall₂_filter_filterMap
    · intro d hd
      have hnil : nonNullScores (rowsOf db surveyId) d.1 = [] := by
        simpa [List.isEmpty_iff] using hd
      have hnil2 : nonNullScores (exportQuery db surveyId) d.1 = [] := by
        have hp := nonNullScores_perm hperm d.1
        rw [hnil] at hp
        exact hp.eq_nil
      show statisticsRow d.2 (nonNullScores (exportQuery db surveyId) d.1) = none
      rw [hnil2]
      rfl
    · intro d hd
      have hne : nonNullScores (rowsOf db surveyId) d.1 ≠ [] := by
        simpa [List.isEmpty_iff] using hd
      have hp := nonNullScores_perm hperm d.1
      cases hsc : nonNullScores (exportQuery db surveyId) d.1 with
      | nil =>
        rw [hsc] at hp
        exact absurd hp.symm.eq_nil hne
      | cons x xs =>
        have hrow : ∃ row, statisticsRow d.2 (x :: xs) = some row := ⟨_, rfl⟩
        obtain ⟨row, hrow⟩ := hrow
        rw [hsc] at hp
        refine ⟨row, ?_, ?_⟩
        · show statisticsRow d.2 (nonNullScores (exportQuery db surveyId) d.1) = some row
          rw [hsc]
          exact hrow
        · obtain ⟨hname, hminmax⟩ := statisticsRow_min_max d.2 (x :: xs) row hrow
          refine ⟨hname, IsMinAndMaxOf_perm row hp hminmax, ?_⟩
          intro hscore hlen
          refine IsMeanAndDeviationOf_perm row hp
            (statisticsRow_of_scores d.2 (x :: xs) row hrow (IsScoreList_perm hp hscore) ?_)
          rw [hp.length_eq]
          exact hlen
  refine ⟨_, rfl, rfl, hrows, ?_⟩
  intro hall
  have hfilter : (dimensions.zip dimensionNames).filter
      (fun d => !(nonNullScores (rowsOf db surveyId) d.1).isEmpty) =
      dimensions.zip dimensionNames := by
    rw [List.filter_eq_self]
    intro d hd
    have hmem : d.1 ∈ dimensions := (List.of_mem_zip hd).1
    have hne := hall d.1 hmem
    cases hsc : nonNullScores (rowsOf db surveyId) d.1 with
    | nil => exact absurd hsc hne
    | cons x xs => rfl
  rw [hfilter] at hrows
  rw [forall₂_dimension_names _ _ _ hrows]
  rfl

/-- C24 amended, at the survey with the three valid assessments whose scores are all 1, all
1 and all 2: the statistics sheet has the eight rows, in the order of the dimensions, and
the first row gives the least score 1, the greatest score 2 and, to two decimals, the mean
and the population standard deviation of the scores 1, 1, 2. -/
theorem C24_statistics_sheet_witness :
    ∃ wb : Workbook,
      (getExport oneOneTwo "survey-1").1 = .json 200 wb ∧
      wb.summarySheet.rows.map (fun row => row.dimension) = dimensionNames ∧
      ∃ row, wb.summarySheet.rows.head? = some row ∧
        IsMinAndMaxOf row [1, 1, 2] ∧ IsMeanAndDeviationOf row [1, 1, 2] := by
  obtain ⟨wb, hrun, -, hforall, hall⟩ :=
    C24_statistics_sheet_has_a_row_per_scored_dimension oneOneTwo "survey-1"
  have hcols : ∀ d ∈ dimensions, nonNullScores (rowsOf oneOneTwo "survey-1") d = [1, 1, 2] := by
    intro d hd
    simp only [dimensions, List.mem_cons, List.mem_singleton, List.not_mem_nil,
      or_false] at hd
    rcases hd with rfl | rfl | rfl | rfl | rfl | rfl | rfl | rfl <;>
      simp [nonNullScores, oneOneTwo, submitAll, submitAssessment, insertAssessment,
        testUser, intScores, Store.empty, rowsOf]
  have hne : ∀ d ∈ dimensions, nonNullScores (rowsOf oneOneTwo "survey-1") d ≠ [] := by
    intro d hd
    rw [hcols d hd]
    exact List.cons_ne_nil _ _
  have hfilter : (dimensions.zip dimensionNames).filter
      (fun d => !(nonNullScores (rowsOf oneOneTwo "survey-1") d.1).isEmpty) =
      dimensions.zip dimensionNames := by
    rw [List.filter_eq_self]
    intro d hd
    rw [hcols d.1 (List.of_mem_zip hd).1]
    rfl
  rw [hfilter] at hforall
  have hscore : IsScoreList [1, 1, 2] := by
    intro s hs
    simp only [List.mem_cons, List.mem_singleton, List.not_mem_nil, or_false] at hs
    rcases hs with rfl | rfl | rfl
    · exact ⟨1, by norm_num, by norm_num, by norm_num⟩
    · exact ⟨1, by norm_num, by norm_num, by norm_num⟩
    · exact ⟨2, by norm_num, by norm_num, by norm_num⟩
  refine ⟨wb, by rw [hrun], hall hne, ?_⟩
  have hzip : dimensions.zip dimensionNames =
      ((fun a : AssessmentRow => a.project_progress_transparency), "项目进度透明度") ::
        (dimensions.zip dimensionNames).tail := rfl
  rw [hzip] at hforall
  obtain ⟨row, rest, hR, -, hrest⟩ := List.forall₂_cons_left_iff.mp hforall
  obtain ⟨-, hminmax, hstat⟩ := hR
  rw [hcols _ (by simp [dimensions])] at hminmax hstat
  exact ⟨row, by rw [hrest]; rfl, hminmax, hstat hscore (by norm_num)⟩

/-- C25: for a survey id that no assessment row references (registered or not), export
succeeds with status 200 and produces a workbook whose raw-data sheet and statistics sheet
each hold their header row and no data row; the store is left as it was. -/
theorem C25_export_without_assessments_is_headers_only (db : Store) (surveyId : String)
    (h : ∀ r ∈ db.assessments, r.survey_id ≠ surveyId) :
    getExport db surveyId =
      (.json 200
        { detailSheet := { header := detailHeader, rows := [] },
          summarySheet := { header := summaryHeader, rows := [] } },
       db) ∧
    detailHeader.length = 13 ∧ summaryHeader.length = 5 := by
  have hrows : rowsOf db surveyId = [] := rowsOf_eq_nil db surveyId h
  refine ⟨?_, by decide, by decide⟩
  unfold getExport exportQuery
  rw [hrows]
  rfl

/-- C25 at the test's id, which no survey and no assessment carries. -/
theorem C25_export_without_assessments_witness :
    (getExport otherSurveyStore "invalid-survey-id-that-does-not-exist").1 =
      .json 200
        { detailSheet := { header := detailHeader, rows := [] },
          summarySheet := { header := summaryHeader, rows := [] } } := by
  rw [(C25_export_without_assessments_is_headers_only otherSurveyStore
    "invalid-survey-id-that-does-not-exist" (by decide)).1]

/-- C26: when the storage layer reports a fault on the statement a handler issues, each of
the six handlers answers with status 500 and an error field (the fault's message; the fixed
message `导出失败` for export), never with the status 400 of a validation error, leaves the
store as it was and issues no further statement: the fault is not retried. -/
theorem C26_store_fault_is_answered_with_500_and_not_retried (d : Database) (err : String)
    (rest : List (Option String)) (h : d.faults = some err :: rest) :
    (∀ (now : Nat) (uuid : String) (body : SurveyBody),
      createSurveyOn d now uuid body = (.error 500 err, { store := d.store, faults := rest }) ∧
      (createSurveyOn d now uuid body).1.status ≠ 400) ∧
    (getSurveysOn d = (.error 500 err, { store := d.store, faults := rest }) ∧
      (getSurveysOn d).1.status ≠ 400) ∧
    (∀ (now : Nat) (body : AssessmentBody) (scores : List ℚ), body.scores = .array scores →
      submitAssessmentOn d now body = (.error 500 err, { store := d.store, faults := rest }) ∧
      (submitAssessmentOn d now body).1.status ≠ 400) ∧
    (∀ surveyId : String,
      getAssessmentsOn d surveyId = (.error 500 err, { store := d.store, faults := rest }) ∧
      (getAssessmentsOn d surveyId).1.status ≠ 400) ∧
    (∀ surveyId : String,
      getSummaryOn d surveyId = (.error 500 err, { store := d.store, faults := rest }) ∧
      (getSummaryOn d surveyId).1.status ≠ 400) ∧
    (∀ surveyId : String,
      getExportOn d surveyId =
        (.error 500 "导出失败", { store := d.store, faults := rest }) ∧
      (getExportOn d surveyId).1.status ≠ 400) := by
  have hnext : d.nextFault = some err := by
    simp [Database.nextFault, h]
  have hafter : d.afterStatement d.store = { store := d.store, faults := rest } := by
    simp [Database.afterStatement, h]
  refine ⟨?_, ?_, ?_, ?_, ?_, ?_⟩
  · intro now uuid body
    have hrun : createSurveyOn d now uuid body =
        (.error 500 err, { store := d.store, faults := rest }) := by
      simp only [createSurveyOn, hnext, hafter]
    exact ⟨hrun, by rw [hrun]; simp [Response.status]⟩
  · have hrun : getSurveysOn d = (.error 500 err, { store := d.store, faults := rest }) := by
      simp only [getSurveysOn, hnext, hafter]
    exact ⟨hrun, by rw [hrun]; simp [Response.status]⟩
  · intro now body scores hs
    have hrun : submitAssessmentOn d now body =
        (.error 500 err, { store := d.store, faults := rest }) := by
      simp only [submitAssessmentOn, hs, hnext, hafter]
    exact ⟨hrun, by rw [hrun]; simp [Response.status]⟩
  · intro surveyId
    have hrun : getAssessmentsOn d surveyId =
        (.error 500 err, { store := d.store, faults := rest }) := by
      simp only [getAssessmentsOn, hnext, hafter]
    exact ⟨hrun, by rw [hrun]; simp [Response.status]⟩
  · intro surveyId
    have hrun : getSummaryOn d surveyId =
        (.error 500 err, { store := d.store, faults := rest }) := by
      simp only [getSummaryOn, hnext, hafter]
    exact ⟨hrun, by rw [hrun]; simp [Response.status]⟩
  · intro surveyId
    have hrun : getExportOn d surveyId =
        (.error 500 "导出失败", { store := d.store, faults := rest }) := by
      simp only [getExportOn, hnext, hafter]
    exact ⟨hrun, by rw [hrun]; simp [Response.status]⟩

/-- C26 at a database whose next statement fails with `SQLITE_BUSY` and whose statement
after that would run: the summary read is answered with 500 and the later outcome is still
pending. -/
theorem C26_store_fault_witness :
    getSummaryOn { store := janeDoeStore, faults := [some "SQLITE_BUSY", none] } "survey-1" =
      (.error 500 "SQLITE_BUSY", { store := janeDoeStore, faults := [none] }) :=
  ((C26_store_fault_is_answered_with_500_and_not_retried
    { store := janeDoeStore, faults := [some "SQLITE_BUSY", none] } "SQLITE_BUSY" [none]
    rfl).2.2.2.2.1 "survey-1").1

/-- C27, as stated, fails: after the three valid submissions `[5,1,3,1,4,4,4,4]`,
`[2,1,4,1,4,4,5,1]` and `[4,3,2,5,1,3,1,1]` every row holds the mean of its eight scores
(3.25, 2.75 and 2.5), read-summary returns `average_overall_score =
6380099472108203 / 2 ^ 51` (printed `2.8333333333333335`, the double nearest to 17/6), and
the mean of the eight per-dimension averages it returns (the doubles nearest to 11/3, 5/3,
3, 7/3, 3, 11/3, 10/3 and 2) is `102081591553731243 / 2 ^ 55`, which is smaller by
`5 / 2 ^ 55`. -/
theorem C27_counterexample_rounded_averages :
    (∀ r ∈ threeRaters.assessments, OverallIsMeanOfDimensions r) ∧
    rowsOf threeRaters "survey-1" ≠ [] ∧
    (summaryQuery threeRaters "survey-1").average_overall_score =
      some (6380099472108203 / 2 ^ 51) ∧
    (summaryQuery threeRaters "survey-1").avg_project_progress =
      some (8256599316845909 / 2 ^ 51) ∧
    (summaryQuery threeRaters "survey-1").avg_requirement_response =
      some (7505999378950827 / 2 ^ 52) ∧
    (summaryQuery threeRaters "survey-1").avg_collaboration = some 3 ∧
    (summaryQuery threeRaters "survey-1").avg_delivery_quality =
      some (5254199565265579 / 2 ^ 51) ∧
    (summaryQuery threeRaters "survey-1").avg_issue_discovery = some 3 ∧
    (summaryQuery threeRaters "survey-1").avg_resource_allocation =
      some (8256599316845909 / 2 ^ 51) ∧
    (summaryQuery threeRaters "survey-1").avg_improvement =
      some (7505999378950827 / 2 ^ 51) ∧
    (summaryQuery threeRaters "survey-1").avg_information_transmission = some 2 ∧
    (8256599316845909 / 2 ^ 51 + 7505999378950827 / 2 ^ 52 + 3 + 5254199565265579 / 2 ^ 51 +
      3 + 8256599316845909 / 2 ^ 51 + 7505999378950827 / 2 ^ 51 + 2 : ℚ) / 8 =
      102081591553731243 / 2 ^ 55 ∧
    (6380099472108203 / 2 ^ 51 : ℚ) ≠ 102081591553731243 / 2 ^ 55 := by
  have h1 : overallScore (intScores [5, 1, 3, 1, 4, 4, 4, 4]) = some (13 / 4) := by
    rw [overallScore_of_valid [5, 1, 3, 1, 4, 4, 4, 4] rfl (by decide)]
    norm_num
  have h2 : overallScore (intScores [2, 1, 4, 1, 4, 4, 5, 1]) = some (11 / 4) := by
    rw [overallScore_of_valid [2, 1, 4, 1, 4, 4, 5, 1] rfl (by decide)]
    norm_num
  have h3 : overallScore (intScores [4, 3, 2, 5, 1, 3, 1, 1]) = some (5 / 2) := by
    rw [overallScore_of_valid [4, 3, 2, 5, 1, 3, 1, 1] rfl (by decide)]
    norm_num
  have hstore : threeRaters.assessments =
      [storedRow 1 0 "survey-1" (testUser (.array (intScores [5, 1, 3, 1, 4, 4, 4, 4])))
        (intScores [5, 1, 3, 1, 4, 4, 4, 4]),
       storedRow 2 1 "survey-1" (testUser (.array (intScores [2, 1, 4, 1, 4, 4, 5, 1])))
        (intScores [2, 1, 4, 1, 4, 4, 5, 1]),
       storedRow 3 2 "survey-1" (testUser (.array (intScores [4, 3, 2, 5, 1, 3, 1, 1])))
        (intScores [4, 3, 2, 5, 1, 3, 1, 1])] := rfl
  have hrows : rowsOf threeRaters "survey-1" = threeRaters.assessments := by
    rw [hstore]
    rfl
  have hthree : roundDouble 3 = 3 := by
    have h := roundDouble_intCast 3 (by norm_num)
    exact_mod_cast h
  have htwo : roundDouble 2 = 2 := by
    have h := roundDouble_intCast 2 (by norm_num)
    exact_mod_cast h
  have hoverall : sqlAvg [some (13 / 4), some (11 / 4), some (5 / 2)] =
      some (6380099472108203 / 2 ^ 51) := by
    rw [sqlAvg_of_scores _ (by
      intro x hx
      simp only [List.filterMap_cons, List.filterMap_nil, id, List.mem_cons,
        List.mem_singleton, List.not_mem_nil, or_false] at hx
      rcases hx with rfl | rfl | rfl
      · exact ⟨26, by norm_num, by norm_num⟩
      · exact ⟨22, by norm_num, by norm_num⟩
      · exact ⟨20, by norm_num, by norm_num⟩) (by simp) (by simp)]
    simp only [List.filterMap_cons, List.filterMap_nil, id, List.sum_cons, List.sum_nil,
      List.length_cons, List.length_nil]
    rw [← roundDouble_seventeen_sixths]
    norm_num
  have hcol : ∀ (col : AssessmentRow → Option ℚ) (a b c : ℤ) (v q : ℚ),
      (threeRaters.assessments.map col = [some (a : ℚ), some (b : ℚ), some (c : ℚ)]) →
      |a| ≤ 5 → |b| ≤ 5 → |c| ≤ 5 → ((a + b + c : ℤ) : ℚ) / 3 = v → roundDouble v = q →
      sqlAvg ((rowsOf threeRaters "survey-1").map col) = some q := by
    intro col a b c v q hmap ha hb hc hv hq
    rw [hrows, hmap, sqlAvg_three a b c ha hb hc, hv, hq]
  refine ⟨?_, by decide, ?_,
    hcol (fun r => r.project_progress_transparency) 5 2 4 _ _ (by rw [hstore]; rfl)
      (by norm_num) (by norm_num) (by norm_num) (by norm_num) roundDouble_eleven_thirds,
    hcol (fun r => r.requirement_response_speed) 1 1 3 _ _ (by rw [hstore]; rfl)
      (by norm_num) (by norm_num) (by norm_num) (by norm_num) roundDouble_five_thirds,
    hcol (fun r => r.team_collaboration_efficiency) 3 4 2 _ _ (by rw [hstore]; rfl)
      (by norm_num) (by norm_num) (by norm_num) (by norm_num) hthree,
    hcol (fun r => r.delivery_quality_stability) 1 1 5 _ _ (by rw [hstore]; rfl)
      (by norm_num) (by norm_num) (by norm_num) (by norm_num) roundDouble_seven_thirds,
    hcol (fun r => r.issue_discovery_timeliness) 4 4 1 _ _ (by rw [hstore]; rfl)
      (by norm_num) (by norm_num) (by norm_num) (by norm_num) hthree,
    hcol (fun r => r.resource_allocation_efficiency) 4 4 3 _ _ (by rw [hstore]; rfl)
      (by norm_num) (by norm_num) (by norm_num) (by norm_num) roundDouble_eleven_thirds,
    hcol (fun r => r.continuous_improvement_ability) 4 5 1 _ _ (by rw [hstore]; rfl)
      (by norm_num) (by norm_num) (by norm_num) (by norm_num) roundDouble_ten_thirds,
    hcol (fun r => r.information_transmission_effectiveness) 4 1 1 _ _ (by rw [hstore]; rfl)
      (by norm_num) (by norm_num) (by norm_num) (by norm_num) htwo,
    by norm_num, by norm_num⟩
  · intro r hr
    rw [hstore] at hr
    simp only [List.mem_cons, List.mem_singleton, List.not_mem_nil, or_false] at hr
    rcases hr with rfl | rfl | rfl
    · refine ⟨by decide, ?_⟩
      simp only [storedRow, h1]
      simp only [dimensionScores, intScores, List.map_cons, List.map_nil,
        List.getElem?_cons_zero, List.getElem?_cons_succ, List.filterMap_cons,
        List.filterMap_nil, id, List.sum_cons, List.sum_nil]
      norm_num
    · refine ⟨by decide, ?_⟩
      simp only [storedRow, h2]
      simp only [dimensionScores, intScores, List.map_cons, List.map_nil,
        List.getElem?_cons_zero, List.getElem?_cons_succ, List.filterMap_cons,
        List.filterMap_nil, id, List.sum_cons, List.sum_nil]
      norm_num
    · refine ⟨by decide, ?_⟩
      simp only [storedRow, h3]
      simp only [dimensionScores, intScores, List.map_cons, List.map_nil,
        List.getElem?_cons_zero, List.getElem?_cons_succ, List.filterMap_cons,
        List.filterMap_nil, id, List.sum_cons, List.sum_nil]
      norm_num
  · show sqlAvg ((rowsOf threeRaters "survey-1").map (fun r => r.overall_score)) = _
    have hmap : threeRaters.assessments.map (fun r => r.overall_score) =
        [overallScore (intScores [5, 1, 3, 1, 4, 4, 4, 4]),
         overallScore (intScores [2, 1, 4, 1, 4, 4, 5, 1]),
         overallScore (intScores [4, 3, 2, 5, 1, 3, 1, 1])] := by
      rw [hstore]
      rfl
    rw [hrows, hmap, h1, h2, h3, hoverall]

/-- C27, amended: in every store whose assessment rows are valid (eight integer scores in
1..5 and their mean as overall score), for every survey id with at least one and at most
`2 ^ 47` rows, the `average_overall_score` returned by read-summary and the mean of the
eight per-dimension averages it returns differ by at most `2 ^ -49`: each average is the
double nearest to its exact mean, and the exact means agree. -/
theorem C27_average_overall_is_close_to_mean_of_dimension_averages (db : Store)
    (surveyId : String) (hvalid : ∀ r ∈ db.assessments, IsValidRow r)
    (hrows : rowsOf db surveyId ≠ []) (hmany : (rowsOf db surveyId).length ≤ 2 ^ 47) :
    ∃ o a0 a1 a2 a3 a4 a5 a6 a7 : ℚ,
      (summaryQuery db surveyId).average_overall_score = some o ∧
      (summaryQuery db surveyId).avg_project_progress = some a0 ∧
      (summaryQuery db surveyId).avg_requirement_response = some a1 ∧
      (summaryQuery db surveyId).avg_collaboration = some a2 ∧
      (summaryQuery db surveyId).avg_delivery_quality = some a3 ∧
      (summaryQuery db surveyId).avg_issue_discovery = some a4 ∧
      (summaryQuery db surveyId).avg_resource_allocation = some a5 ∧
      (summaryQuery db surveyId).avg_improvement = some a6 ∧
      (summaryQuery db surveyId).avg_information_transmission = some a7 ∧
      |o - (a0 + a1 + a2 + a3 + a4 + a5 + a6 + a7) / 8| ≤ 1 / 2 ^ 49 := by
  have hfields : ∀ r ∈ rowsOf db surveyId, IsValidRow r := by
    intro r hr
    exact hvalid r (List.mem_filter.mp hr).1
  have hn : ((rowsOf db surveyId).length : ℚ) ≠ 0 := by
    have : (rowsOf db surveyId).length ≠ 0 := fun h0 => hrows (List.length_eq_zero.mp h0)
    exact_mod_cast this
  have hint : ∀ (n : ℤ), 1 ≤ n ∧ n ≤ 5 → ∃ k : ℤ, |k| ≤ 40 ∧ (n : ℚ) = (k : ℚ) / 8 := by
    intro n hn5
    refine ⟨8 * n, ?_, by push_cast; ring⟩
    rw [abs_le]
    constructor <;> linarith [hn5.1, hn5.2]
  have hcol : ∀ (col : AssessmentRow → Option ℚ),
      (∀ r ∈ rowsOf db surveyId,
        col r = some ((col r).getD 0) ∧ ∃ k : ℤ, |k| ≤ 40 ∧ (col r).getD 0 = (k : ℚ) / 8) →
      ∃ d : ℚ, sqlAvg ((rowsOf db surveyId).map col) = some d ∧
        |d - ((rowsOf db surveyId).map (fun r => (col r).getD 0)).sum /
          (rowsOf db surveyId).length| ≤ 5 / 2 ^ 53 :=
    fun col h => sqlAvg_close _ col (fun r => (col r).getD 0) hrows hmany h
  have hsum := sum_map_mean_of_eight (rowsOf db surveyId)
    (fun r => r.overall_score.getD 0)
    (fun r => r.project_progress_transparency.getD 0)
    (fun r => r.requirement_response_speed.getD 0)
    (fun r => r.team_collaboration_efficiency.getD 0)
    (fun r => r.delivery_quality_stability.getD 0)
    (fun r => r.issue_discovery_timeliness.getD 0)
    (fun r => r.resource_allocation_efficiency.getD 0)
    (fun r => r.continuous_improvement_ability.getD 0)
    (fun r => r.information_transmission_effectiveness.getD 0)
    (by
      intro r hr
      obtain ⟨n0, n1, n2, n3, n4, n5, n6, n7, -, h0, h1, h2, h3, h4, h5, h6, h7, hov⟩ :=
        validRow_fields r (hfields r hr)
      simp only [h0, h1, h2, h3, h4, h5, h6, h7, hov, Option.getD_some]
      push_cast
      ring)
  obtain ⟨o, ho, eo⟩ := hcol (fun r => r.overall_score) (by
    intro r hr
    obtain ⟨n0, n1, n2, n3, n4, n5, n6, n7, hb, -, -, -, -, -, -, -, -, hov⟩ :=
      validRow_fields r (hfields r hr)
    simp only [hov, Option.getD_some, true_and]
    refine ⟨n0 + n1 + n2 + n3 + n4 + n5 + n6 + n7, ?_, rfl⟩
    rw [abs_le]
    constructor <;>
      linarith [hb.1.1, hb.1.2, hb.2.1.1, hb.2.1.2, hb.2.2.1.1, hb.2.2.1.2, hb.2.2.2.1.1,
        hb.2.2.2.1.2, hb.2.2.2.2.1.1, hb.2.2.2.2.1.2, hb.2.2.2.2.2.1.1, hb.2.2.2.2.2.1.2,
        hb.2.2.2.2.2.2.1.1, hb.2.2.2.2.2.2.1.2, hb.2.2.2.2.2.2.2.1, hb.2.2.2.2.2.2.2.2])
  obtain ⟨a0, h0, e0⟩ := hcol (fun r => r.project_progress_transparency) (by
    intro r hr
    obtain ⟨n0, n1, n2, n3, n4, n5, n6, n7, hb, h, -⟩ := validRow_fields r (hfields r hr)
    simp only [h, Option.getD_some, true_and]
    exact hint _ hb.1)
  obtain ⟨a1, h1, e1⟩ := hcol (fun r => r.requirement_response_speed) (by
    intro r hr
    obtain ⟨n0, n1, n2, n3, n4, n5, n6, n7, hb, -, h, -⟩ := validRow_fields r (hfields r hr)
    simp only [h, Option.getD_some, true_and]
    exact hint _ hb.2.1)
  obtain ⟨a2, h2, e2⟩ := hcol (fun r => r.team_collaboration_efficiency) (by
    intro r hr
    obtain ⟨n0, n1, n2, n3, n4, n5, n6, n7, hb, -, -, h, -⟩ :=
      validRow_fields r (hfields r hr)
    simp only [h, Option.getD_some, true_and]
    exact hint _ hb.2.2.1)
  obtain ⟨a3, h3, e3⟩ := hcol (fun r => r.delivery_quality_stability) (by
    intro r hr
    obtain ⟨n0, n1, n2, n3, n4, n5, n6, n7, hb, -, -, -, h, -⟩ :=
      validRow_fields r (hfields r hr)
    simp only [h, Option.getD_some, true_and]
    exact hint _ hb.2.2.2.1)
  obtain ⟨a4, h4, e4⟩ := hcol (fun r => r.issue_discovery_timeliness) (by
    intro r hr
    obtain ⟨n0, n1, n2, n3, n4, n5, n6, n7, hb, -, -, -, -, h, -⟩ :=
      validRow_fields r (hfields r hr)
    simp only [h, Option.getD_some, true_and]
    exact hint _ hb.2.2.2.2.1)
  obtain ⟨a5, h5, e5⟩ := hcol (fun r => r.resource_allocation_efficiency) (by
    intro r hr
    obtain ⟨n0, n1, n2, n3, n4, n5, n6, n7, hb, -, -, -, -, -, h, -⟩ :=
      validRow_fields r (hfields r hr)
    simp only [h, Option.getD_some, true_and]
    exact hint _ hb.2.2.2.2.2.1)
  obtain ⟨a6, h6, e6⟩ := hcol (fun r => r.continuous_improvement_ability) (by
    intro r hr
    obtain ⟨n0, n1, n2, n3, n4, n5, n6, n7, hb, -, -, -, -, -, -, h, -⟩ :=
      validRow_fields r (hfields r hr)
    simp only [h, Option.getD_some, true_and]
    exact hint _ hb.2.2.2.2.2.2.1)
  obtain ⟨a7, h7, e7⟩ := hcol (fun r => r.information_transmission_effectiveness) (by
    intro r hr
    obtain ⟨n0, n1, n2, n3, n4, n5, n6, n7, hb, -, -, -, -, -, -, -, h, -⟩ :=
      validRow_fields r (hfields r hr)
    simp only [h, Option.getD_some, true_and]
    exact hint _ hb.2.2.2.2.2.2.2)
  refine ⟨o, a0, a1, a2, a3, a4, a5, a6, a7, ho, h0, h1, h2, h3, h4, h5, h6, h7, ?_⟩
  rw [hsum] at eo
  rw [abs_le] at eo e0 e1 e2 e3 e4 e5 e6 e7 ⊢
  have hdiv : ∀ x : ℚ, x / 8 / ((rowsOf db surveyId).length : ℚ) =
      x / ((rowsOf db surveyId).length : ℚ) / 8 := by
    intro x
    rw [div_div, mul_comm (8 : ℚ), ← div_div]
  rw [hdiv] at eo
  simp only [add_div] at eo
  constructor <;> linarith [eo.1, eo.2, e0.1, e0.2, e1.1, e1.2, e2.1, e2.2, e3.1, e3.2,
    e4.1, e4.2, e5.1, e5.2, e6.1, e6.2, e7.1, e7.2]

/-- C27 amended, at the three valid submissions above: the rows are valid, and the overall
average and the mean of the eight dimension averages differ by at most `2 ^ -49`. -/
theorem C27_average_overall_witness :
    (∀ r ∈ threeRaters.assessments, IsValidRow r) ∧
    rowsOf threeRaters "survey-1" ≠ [] ∧
    (rowsOf threeRaters "survey-1").length ≤ 2 ^ 47 ∧
    ∃ o a0 a1 a2 a3 a4 a5 a6 a7 : ℚ,
      (summaryQuery threeRaters "survey-1").average_overall_score = some o ∧
      (summaryQuery threeRaters "survey-1").avg_project_progress = some a0 ∧
      (summaryQuery threeRaters "survey-1").avg_requirement_response = some a1 ∧
      (summaryQuery threeRaters "survey-1").avg_collaboration = some a2 ∧
      (summaryQuery threeRaters "survey-1").avg_delivery_quality = some a3 ∧
      (summaryQuery threeRaters "survey-1").avg_issue_discovery = some a4 ∧
      (summaryQuery threeRaters "survey-1").avg_resource_allocation = some a5 ∧
      (summaryQuery threeRaters "survey-1").avg_improvement = some a6 ∧
      (summaryQuery threeRaters "survey-1").avg_information_transmission = some a7 ∧
      |o - (a0 + a1 + a2 + a3 + a4 + a5 + a6 + a7) / 8| ≤ 1 / 2 ^ 49 := by
  have h1 : overallScore (intScores [5, 1, 3, 1, 4, 4, 4, 4]) = some (13 / 4) := by
    rw [overallScore_of_valid [5, 1, 3, 1, 4, 4, 4, 4] rfl (by decide)]
    norm_num
  have h2 : overallScore (intScores [2, 1, 4, 1, 4, 4, 5, 1]) = some (11 / 4) := by
    rw [overallScore_of_valid [2, 1, 4, 1, 4, 4, 5, 1] rfl (by decide)]
    norm_num
  have h3 : overallScore (intScores [4, 3, 2, 5, 1, 3, 1, 1]) = some (5 / 2) := by
    rw [overallScore_of_valid [4, 3, 2, 5, 1, 3, 1, 1] rfl (by decide)]
    norm_num
  have hstore : threeRaters.assessments =
      [storedRow 1 0 "survey-1" (testUser (.array (intScores [5, 1, 3, 1, 4, 4, 4, 4])))
        (intScores [5, 1, 3, 1, 4, 4, 4, 4]),
       storedRow 2 1 "survey-1" (testUser (.array (intScores [2, 1, 4, 1, 4, 4, 5, 1])))
        (intScores [2, 1, 4, 1, 4, 4, 5, 1]),
       storedRow 3 2 "survey-1" (testUser (.array (intScores [4, 3, 2, 5, 1, 3, 1, 1])))
        (intScores [4, 3, 2, 5, 1, 3, 1, 1])] := rfl
  have hvalid : ∀ r ∈ threeRaters.assessments, IsValidRow r := by
    intro r hr
    rw [hstore] at hr
    simp only [List.mem_cons, List.mem_singleton, List.not_mem_nil, or_false] at hr
    rcases hr with rfl | rfl | rfl
    · refine ⟨⟨by decide, ?_⟩, ?_⟩
      · simp only [storedRow, h1]
        simp only [dimensionScores, intScores, List.map_cons, List.map_nil,
          List.getElem?_cons_zero, List.getElem?_cons_succ, List.filterMap_cons,
          List.filterMap_nil, id, List.sum_cons, List.sum_nil]
        norm_num
      · intro v hv
        simp only [storedRow, dimensionScores, intScores, List.map_cons, List.map_nil,
          List.getElem?_cons_zero, List.getElem?_cons_succ, List.mem_cons,
          List.mem_singleton, List.not_mem_nil, or_false] at hv
        rcases hv with rfl | rfl | rfl | rfl | rfl | rfl | rfl | rfl <;>
          exact ⟨_, by norm_num, by norm_num, rfl⟩
    · refine ⟨⟨by decide, ?_⟩, ?_⟩
      · simp only [storedRow, h2]
        simp only [dimensionScores, intScores, List.map_cons, List.map_nil,
          List.getElem?_cons_zero, List.getElem?_cons_succ, List.filterMap_cons,
          List.filterMap_nil, id, List.sum_cons, List.sum_nil]
        norm_num
      · intro v hv
        simp only [storedRow, dimensionScores, intScores, List.map_cons, List.map_nil,
          List.getElem?_cons_zero, List.getElem?_cons_succ, List.mem_cons,
          List.mem_singleton, List.not_mem_nil, or_false] at hv
        rcases hv with rfl | rfl | rfl | rfl | rfl | rfl | rfl | rfl <;>
          exact ⟨_, by norm_num, by norm_num, rfl⟩
    · refine ⟨⟨by decide, ?_⟩, ?_⟩
      · simp only [storedRow, h3]
        simp only [dimensionScores, intScores, List.map_cons, List.map_nil,
          List.getElem?_cons_zero, List.getElem?_cons_succ, List.filterMap_cons,
          List.filterMap_nil, id, List.sum_cons, List.sum_nil]
        norm_num
      · intro v hv
        simp only [storedRow, dimensionScores, intScores, List.map_cons, List.map_nil,
          List.getElem?_cons_zero, List.getElem?_cons_succ, List.mem_cons,
          List.mem_singleton, List.not_mem_nil, or_false] at hv
        rcases hv with rfl | rfl | rfl | rfl | rfl | rfl | rfl | rfl <;>
          exact ⟨_, by norm_num, by norm_num, rfl⟩
  have hlen : (rowsOf threeRaters "survey-1").length ≤ 2 ^ 47 := by
    have h3 : (rowsOf threeRaters "survey-1").length = 3 := by decide
    rw [h3]
    norm_num
  exact ⟨hvalid, by decide, hlen,
    C27_average_overall_is_close_to_mean_of_dimension_averages threeRaters "survey-1" hvalid
      (by decide) hlen⟩

/-- C28: the three submissions whose scores are all 0.1 are accepted, so the export computes
the statistics of the scores `[0.1, 0.1, 0.1]`. Their double mean is
`7205759403792795 / 2 ^ 56` (printed `0.10000000000000002`), which exceeds the maximum 0.1,
and the variance is `2 ^ -112` (printed `1.925929944387236e-34`), not 0, although all the
scores are equal. -/
theorem C28_export_statistics_of_equal_tenths_are_inconsistent :
    roundDouble (1 / 10) = double01 ∧
    (∀ (db : Store) (now : Nat), (submitAssessment db now (uniformUser double01)).1.status = 200) ∧
    nonNullScores (exportQuery tenthsStore "survey-1")
      (fun a => a.project_progress_transparency) = [double01, double01, double01] ∧
    (∀ y ∈ [double01, double01, double01], ∀ z ∈ [double01, double01, double01], y = z) ∧
    exportAvg [double01, double01, double01] = 7205759403792795 / 2 ^ 56 ∧
    mathMax double01 [double01, double01] = double01 ∧
    mathMax double01 [double01, double01] < exportAvg [double01, double01, double01] ∧
    exportVariance [double01, double01, double01] (exportAvg [double01, double01, double01]) =
      1 / 2 ^ 112 ∧
    exportVariance [double01, double01, double01] (exportAvg [double01, double01, double01]) ≠
      0 := by
  have hmax : mathMax double01 [double01, double01] = double01 := by
    simp [mathMax]
  have hvar : exportVariance [double01, double01, double01]
      (exportAvg [double01, double01, double01]) = 1 / 2 ^ 112 := by
    rw [exportAvg_three_tenths, exportVariance_three_tenths]
  refine ⟨double01_eq, ?_, ?_, ?_, exportAvg_three_tenths, hmax, ?_, hvar, ?_⟩
  · intro db now
    simp [submitAssessment, insertAssessment, uniformUser, testUser, Response.status]
  · simp [nonNullScores, exportQuery, tenthsStore, uniformUser, submitAll, submitAssessment,
      insertAssessment, testUser, Store.empty, rowsOf, List.insertionSort, List.orderedInsert,
      olderFirst]
  · intro y hy z hz
    simp only [List.mem_cons, List.mem_singleton, List.not_mem_nil, or_false, or_self] at hy hz
    rw [hy, hz]
  · rw [hmax, exportAvg_three_tenths]
    norm_num [double01]
  · rw [hvar]
    norm_num

/-- C29: the two backends are interchangeable for submission. For every request body the
submit handler of `server-cloud.js` computes the same overall score and binds the same
thirteen values to its `INSERT` as the handler of `server.js` (the values `server.js` then
stores), and with the same outcome of the statement it answers with the same response, the
same message included. -/
theorem C29_cloud_submit_matches_sqlite_submit (body : AssessmentBody) :
    insertParamsCloud body = insertParams body ∧
    (∀ scores : List ℚ, body.scores = .array scores →
      overallScoreCloud scores = overallScore scores ∧
      ∃ p : InsertParams, insertParamsCloud body = some p ∧ insertParams body = some p ∧
        p.overall_score = overallScore scores ∧
        ∀ run : InsertParams → Except String Nat,
          submitAssessmentCloud run body = .ok (submitAssessmentVia run body)) ∧
    (∀ (db : Store) (now : Nat),
      (submitAssessment db now body).1 =
        submitAssessmentVia (fun p => (runInsert db now p).map Prod.snd) body) ∧
    (∀ (db : Store) (now : Nat) (p : InsertParams), insertParams body = some p →
      (submitAssessment db now body).2 =
        match runInsert db now p with
        | .ok r => r.1
        | .error _ => db) := by
  refine ⟨?_, ?_, ?_, ?_⟩
  · unfold insertParamsCloud insertParams overallScoreCloud overallScore
    rfl
  · intro scores hs
    have hlocal : insertParams body =
        some { survey_id := body.surveyId, respondent_name := body.respondentName,
               respondent_team := body.respondentTeam,
               project_progress_transparency := scores[0]?,
               requirement_response_speed := scores[1]?,
               team_collaboration_efficiency := scores[2]?,
               delivery_quality_stability := scores[3]?,
               issue_discovery_timeliness := scores[4]?,
               resource_allocation_efficiency := scores[5]?,
               continuous_improvement_ability := scores[6]?,
               information_transmission_effectiveness := scores[7]?,
               overall_score := overallScore scores, notes := body.notes } := by
      simp only [insertParams, hs]
    have hcloud : insertParamsCloud body = insertParams body := by
      unfold insertParamsCloud insertParams overallScoreCloud overallScore
      rfl
    refine ⟨rfl, _, hcloud.trans hlocal, hlocal, rfl, ?_⟩
    · intro run
      simp only [submitAssessmentCloud, submitAssessmentVia, hs, overallScoreCloud,
        overallScore]
      cases run _ <;> rfl
  · intro db now
    unfold submitAssessment submitAssessmentVia runInsert insertAssessment
    cases body.scores with
    | absent => rfl
    | text s => rfl
    | array scores =>
      cases body.surveyId with
      | none => rfl
      | some sid => rfl
  · intro db now p hp
    unfold insertParams at hp
    unfold submitAssessment runInsert insertAssessment
    cases hs : body.scores with
    | absent => rw [hs] at hp; simp at hp
    | text s => rw [hs] at hp; simp at hp
    | array scores =>
      rw [hs] at hp
      simp only [Option.some.injEq] at hp
      subst hp
      cases body.surveyId with
      | none => rfl
      | some sid => rfl

/-- C29 at the submission `[5,4,5,3,4,5,4,5]`: both handlers bind the same statement, with
overall score 35/8, and answer an insert that yields id 7 with the same body. -/
theorem C29_cloud_submit_witness :
    overallScoreCloud (intScores [5, 4, 5, 3, 4, 5, 4, 5]) =
      overallScore (intScores [5, 4, 5, 3, 4, 5, 4, 5]) ∧
    ∃ p : InsertParams, insertParamsCloud janeDoe = some p ∧ insertParams janeDoe = some p ∧
      p.overall_score = overallScore (intScores [5, 4, 5, 3, 4, 5, 4, 5]) ∧
      ∀ run : InsertParams → Except String Nat,
        submitAssessmentCloud run janeDoe = .ok (submitAssessmentVia run janeDoe) :=
  (C29_cloud_submit_matches_sqlite_submit janeDoe).2.1 (intScores [5, 4, 5, 3, 4, 5, 4, 5]) rfl

end Diaoyan
